import Mathlib

/-!
# TETRIS (Demo.c): a shallow embedding and its verified properties

The definitions below are translated from `src/TETRIS/code/Demo.c`.

Modelling conventions
* C `int` arithmetic is modelled on `Int`. Runs in which an `int` would
  overflow (undefined behaviour in C) are outside the model.
* `char` is the unsigned 8-bit type of the ARM target (the receiver compares
  a received `char` with `startByte = 0xAA`, which can only succeed for an
  unsigned `char`); bytes are `Nat` values below 256.
* `point` comes from the graphics library (not part of this repository); it
  is a pair of coordinates of an integer type of that library, modelled as a
  pair of `Int`.
* Global variables are the fields of `Globals`; a function that assigns
  globals takes and returns a `Globals`.
* `map[y][x]` is `map y x` for a total function `map`; indices outside the
  20x10 array stand for whatever a C access outside the array would meet.
* A C loop is a recursive function on its counter, or a fold over the values
  the counter takes.
-/

namespace Tetris

/-! ## Enumerations and structures (Demo.c 45-84) -/

/-- Game state types, `enum currentState`. -/
inductive currentState where
  | gameMenu
  | select
  | initGame
  | inGame
  | nextRound
  | gamePause
  | gameOver
deriving DecidableEq, Repr

/-- The integer value of a `currentState` enumerator, as used by `(int)state`. -/
def currentState.toInt : currentState → Int
  | .gameMenu => 0
  | .select => 1
  | .initGame => 2
  | .inGame => 3
  | .nextRound => 4
  | .gamePause => 5
  | .gameOver => 6

/-- Game mode types, `enum currentMode`. -/
inductive currentMode where
  | modeSelect
  | singlePlayer
  | doublePlayerSelect
  | doublePlayerRotate
  | doublePlayerMove
deriving DecidableEq, Repr

/-- User input types, `enum button`. -/
inductive button where
  | A
  | B
  | C
  | D
  | E
  | system_refresh
deriving DecidableEq, Repr

/-- Directions of movement, `enum direction`. -/
inductive direction where
  | down
  | left
  | right
deriving DecidableEq, Repr

/-- A coordinate pair, the `point` of the graphics library. -/
structure point where
  x : Int
  y : Int
deriving DecidableEq, Repr

/-- Tetris parameters, `struct tetrisBlock`; `position0 .. position3` are the
four entries of the C array `position[4]`. -/
structure tetrisBlock where
  center : point
  position0 : point
  position1 : point
  position2 : point
  position3 : point
  type : Int
  next_type : Int
  color_num : Int
deriving DecidableEq, Repr

/-- The block map `int map[arrHeight][arrWidth]`, read as `map y x`. -/
abbrev Grid := Int → Int → Int

/-- The global variables of Demo.c (lines 24, 30-41, 97-98), with their C
initial values as defaults. The field `inputReceived` is the binary semaphore of
that name: `true` when it holds a token; it is created empty. -/
structure Globals where
  globalSpeed : Int := 400
  scr : Int := 0
  lvl : Int := 0
  lin : Int := 0
  isGameOver : Int := 0
  connected : Int := 0
  myState : Int := -1
  buddyState : Int := -1
  buddyA : Int := 0
  buddyB : Int := 0
  buddyC : Int := 0
  buddyD : Int := 0
  buddyE : Int := 0
  buddyAState : Int := 1
  buddyBState : Int := 1
  buddyCState : Int := 1
  buddyDState : Int := 1
  buddyEState : Int := 1
  currentX : Int := 0
  currentY : Int := 0
  currentType : Int := 0
  currentColor : Int := 0
  nextType : Int := 0
  nextColor : Int := 0
  buddyCurrentX : Int := 0
  buddyCurrentY : Int := 0
  buddyCurrentType : Int := 0
  buddyCurrentColor : Int := 0
  buddyNextType : Int := 0
  buddyNextColor : Int := 0
  mode : currentMode := currentMode.modeSelect
  publicButton : button := button.B
  inputReceived : Bool := false

/-! ## Link codec (Demo.c 28, 372-426, 585-610) -/

/-- Start byte of the UART protocol, `0xAA`. -/
def startByte : Nat := 0xAA

/-- Stop byte of the UART protocol, `0x55`. -/
def stopByte : Nat := 0x55

/-- The local variables of the task `receiveData` that live across loop
iterations: the cursor `pos` and the 16-byte `buffer`. -/
structure RxLocals where
  pos : Nat
  buffer : Nat → Nat

/-- The assignment `buffer[pos] = input`. -/
def setBuffer (buffer : Nat → Nat) (pos input : Nat) : Nat → Nat :=
  fun i => if i = pos then input else buffer i

/-- The value of a C comparison: 1 when it holds and 0 otherwise. -/
def cBool (p : Prop) [Decidable p] : Nat := if p then 1 else 0

/-- The acceptance test of `receiveData` at cursor position 15,
`input == stopByte && (checkxor1 == buffer[1] ^ buffer[2]) &&
(checkxor2 == buffer[3] ^ buffer[4])`. In C `==` binds tighter than `^`, so
each parenthesis is `(checkxor == buffer[i]) ^ buffer[j]`, true when nonzero. -/
def frameAccepted (buffer : Nat → Nat) (input : Nat) : Bool :=
  let checkxor1 := buffer 7
  let checkxor2 := buffer 8
  decide (input = stopByte) &&
    decide (cBool (checkxor1 = buffer 1) ^^^ buffer 2 ≠ 0) &&
    decide (cBool (checkxor2 = buffer 3) ^^^ buffer 4 ≠ 0)

/-- One iteration of the loop of `receiveData`: the byte `input` taken from the
queue is decoded according to the cursor `pos`. -/
def receiveDataStep (s : Globals × RxLocals) (input : Nat) : Globals × RxLocals :=
  let g := s.1
  let l := s.2
  if l.pos = 0 ∧ input ≠ startByte then
    (g, l)
  else if l.pos ≤ 14 then
    (g, { pos := l.pos + 1, buffer := setBuffer l.buffer l.pos input })
  else if l.pos = 15 then
    if frameAccepted l.buffer input then
      ({ g with
          buddyAState := (l.buffer 1 : Int)
          buddyBState := (l.buffer 2 : Int)
          buddyCState := (l.buffer 3 : Int)
          buddyDState := (l.buffer 4 : Int)
          buddyEState := (l.buffer 5 : Int)
          buddyState := (l.buffer 6 : Int)
          buddyCurrentX := (l.buffer 9 : Int)
          buddyCurrentY := (l.buffer 10 : Int)
          buddyCurrentType := (l.buffer 11 : Int)
          buddyCurrentColor := (l.buffer 12 : Int)
          buddyNextType := (l.buffer 13 : Int)
          buddyNextColor := (l.buffer 14 : Int) },
        { l with pos := 0 })
    else
      (g, { l with pos := 0 })
  else
    (g, l)

/-- The loop of `receiveData` run over a sequence of received bytes. -/
def receiveDataRun (s : Globals × RxLocals) (bytes : List Nat) : Globals × RxLocals :=
  bytes.foldl receiveDataStep s

/-- The byte that `UART_SendData` puts on the wire for an `int` argument. -/
def uartByte (v : Int) : Nat := (v % 256).toNat

/-- The 16 bytes `sendData` emits; `butAState .. butEState` are the levels
read from the five GPIO pins. -/
def sendData (g : Globals) (butAState butBState butCState butDState butEState : Nat) :
    List Nat :=
  let checkxor1 := (butAState ^^^ butBState) % 256
  let checkxor2 := (butCState ^^^ butDState) % 256
  [ startByte,
    butAState % 256,
    butBState % 256,
    butCState % 256,
    butDState % 256,
    butEState % 256,
    uartByte g.myState,
    checkxor1,
    checkxor2,
    uartByte g.currentX,
    uartByte g.currentY,
    uartByte g.currentType,
    uartByte g.currentColor,
    uartByte g.nextType,
    uartByte g.nextColor,
    stopByte ]

/-- The peer-mirror fields of the globals, in the order `buddyAState ..
buddyEState, buddyState, buddyCurrentX, buddyCurrentY, buddyCurrentType,
buddyCurrentColor, buddyNextType, buddyNextColor`. -/
def mirror (g : Globals) : List Int :=
  [ g.buddyAState, g.buddyBState, g.buddyCState, g.buddyDState, g.buddyEState,
    g.buddyState, g.buddyCurrentX, g.buddyCurrentY, g.buddyCurrentType,
    g.buddyCurrentColor, g.buddyNextType, g.buddyNextColor ]

/-! ## Piece engine (Demo.c 655-763, 803-1182) -/

/-- The assignment `map[row][col] = v`. -/
def setCell (map : Grid) (row col v : Int) : Grid :=
  fun r c => if r = row ∧ c = col then v else map r c

/-- A row of the map is full: its 10 cells are all nonzero. -/
def rowFull (map : Grid) (row : Int) : Prop :=
  ∀ c : Int, 0 ≤ c → c < 10 → map row c ≠ 0

instance (map : Grid) (row : Int) : Decidable (rowFull map row) := by
  unfold rowFull
  infer_instance

/-- The number of full rows among the 20 rows of the map. -/
def fullRowCount (map : Grid) : Nat :=
  ((List.range 20).filter (fun (r : Nat) => decide (rowFull map (r : Int)))).length

/-- The full rows among rows 0 .. n-1 of the map, from the highest index down:
the order in which the scan of `checkFullLine` meets them. -/
def fullRowsBelow (map : Grid) : Nat → List Int
  | 0 => []
  | n + 1 =>
    if rowFull map (n : Int) then (n : Int) :: fullRowsBelow map n else fullRowsBelow map n

/-- The inner scan of `checkFullLine`: `isLineFull` stays 1 unless one of the
cells `map[row][0..9]` is 0. -/
def isLineFull (map : Grid) (row : Int) : Int :=
  if (List.range 10).all (fun (col : Nat) => decide (map row (col : Int) ≠ 0)) then 1 else 0

/-- The loop `for (col = 0; col < 10; col++) map[row][col] = 0`. -/
def zeroLine (map : Grid) (row : Int) : Grid :=
  (List.range 10).foldl (fun m (col : Nat) => setCell m row (col : Int) 0) map

/-- The values `checkFullLine` works on: the counter `num`, the array
`fullLineNumber` and the block map. The C array has the five slots 0..4; the
model keeps a value for every index, and slots above 4 are only reached when
more than four rows are full. -/
structure LineScan where
  num : Int
  fullLineNumber : Int → Int
  map : Grid

/-- The body of the outer loop of `checkFullLine` for one `row`. -/
def checkFullLineRow (s : LineScan) (row : Int) : LineScan :=
  if isLineFull s.map row ≠ 0 then
    { num := s.num + 1
      fullLineNumber := fun i => if i = s.num + 1 then row else s.fullLineNumber i
      map := zeroLine s.map row }
  else s

/-- The outer loop of `checkFullLine`, `for (row = k - 1; row >= 0; row--)`:
the first argument `k` is `row + 1`, the number of rows still to scan. -/
def checkFullLineLoop : Nat → LineScan → LineScan
  | 0, s => s
  | row + 1, s => checkFullLineLoop row (checkFullLineRow s (row : Int))

/-- The function `checkFullLine`: scans rows 19 down to 0; the returned count is
the field `num` of the result. -/
def checkFullLine (fullLineNumber : Int → Int) (map : Grid) : LineScan :=
  checkFullLineLoop 20 { num := 0, fullLineNumber := fullLineNumber, map := map }

/-- The loop `for (col = 0; col < 10; col++) map[row][col] = map[row-1][col]`. -/
def copyLine (map : Grid) (row : Int) : Grid :=
  (List.range 10).foldl (fun m (col : Nat) => setCell m row (col : Int) (m (row - 1) (col : Int))) map

/-- The loop `for (row = emptyLineNumber; row > 0; row--)` of `letLineDisappear`,
by recursion on the value of `row`. -/
def shiftLoop : Nat → Grid → Grid
  | 0, map => map
  | row + 1, map => shiftLoop row (copyLine map ((row : Int) + 1))

/-- The loop `while (num > 0)` of `letLineDisappear`, by recursion on `num`. -/
def letLineDisappearLoop (fullLineNumber : Int → Int) : Nat → Grid → Grid
  | 0, map => map
  | num + 1, map =>
    let emptyLineNumber := fullLineNumber ((num : Int) + 1)
    letLineDisappearLoop fullLineNumber num (shiftLoop emptyLineNumber.toNat map)

/-- The function `letLineDisappear`. -/
def letLineDisappear (fullLineNumber : Int → Int) (num : Int) (map : Grid) : Grid :=
  letLineDisappearLoop fullLineNumber num.toNat map

/-- The function `getLeft`: the least x of the four cells, starting from 10. -/
def getLeft (b : tetrisBlock) : Int :=
  let min : Int := 10
  let min := if b.position0.x < min then b.position0.x else min
  let min := if b.position1.x < min then b.position1.x else min
  let min := if b.position2.x < min then b.position2.x else min
  let min := if b.position3.x < min then b.position3.x else min
  min

/-- The function `getRight`: the greatest x of the four cells, starting from -1. -/
def getRight (b : tetrisBlock) : Int :=
  let max : Int := -1
  let max := if b.position0.x > max then b.position0.x else max
  let max := if b.position1.x > max then b.position1.x else max
  let max := if b.position2.x > max then b.position2.x else max
  let max := if b.position3.x > max then b.position3.x else max
  max

/-- The function `noCollision`: 0 as soon as one of the four cells lies on a
nonzero entry of the map, 1 otherwise. -/
def noCollision (b : tetrisBlock) (map : Grid) : Int :=
  if map b.position0.y b.position0.x ≠ 0 then 0
  else if map b.position1.y b.position1.x ≠ 0 then 0
  else if map b.position2.y b.position2.x ≠ 0 then 0
  else if map b.position3.y b.position3.x ≠ 0 then 0
  else 1

/-- The data of one `case` of the switch of `tetrisShape`: the offsets of the
four cells from the centre, and the value given to `next_type`. -/
structure ShapeCase where
  dx0 : Int
  dy0 : Int
  dx1 : Int
  dy1 : Int
  dx2 : Int
  dy2 : Int
  dx3 : Int
  dy3 : Int
  next_type : Int
deriving DecidableEq, Repr

/-- The 28 cases of the switch of `tetrisShape`, in the order of the source; a
type outside 0..27 matches no case. -/
def shapeCase (type : Int) : Option ShapeCase :=
  if type = 0 then some ⟨-1, 0, 0, 0, 0, 1, 1, 1, 1⟩
  else if type = 1 then some ⟨0, -1, -1, 0, 0, 0, -1, 1, 0⟩
  else if type = 2 then some ⟨0, 0, 1, 0, -1, 1, 0, 1, 3⟩
  else if type = 3 then some ⟨-1, -1, -1, 0, 0, 0, 0, 1, 2⟩
  else if type = 4 then some ⟨-1, 0, 0, 0, 1, 0, 1, 1, 7⟩
  else if type = 5 then some ⟨0, -1, 0, 0, -1, 1, 0, 1, 4⟩
  else if type = 6 then some ⟨-1, -1, -1, 0, 0, 0, 1, 0, 5⟩
  else if type = 7 then some ⟨0, -1, 1, -1, 0, 0, 0, 1, 6⟩
  else if type = 8 then some ⟨1, -1, -1, 0, 0, 0, 1, 0, 9⟩
  else if type = 9 then some ⟨-1, -1, 0, -1, 0, 0, 0, 1, 10⟩
  else if type = 10 then some ⟨-1, 0, 0, 0, 1, 0, -1, 1, 11⟩
  else if type = 11 then some ⟨0, -1, 0, 0, 0, 1, 1, 1, 8⟩
  else if type = 12 then some ⟨-1, 0, 0, -1, 0, 0, 0, 1, 15⟩
  else if type = 13 then some ⟨0, -1, -1, 0, 0, 0, 1, 0, 12⟩
  else if type = 14 then some ⟨0, -1, 0, 0, 0, 1, 1, 0, 13⟩
  else if type = 15 then some ⟨-1, 0, 0, 0, 1, 0, 0, 1, 14⟩
  else if type = 16 then some ⟨-1, 0, 0, 0, -1, 1, 0, 1, 16⟩
  else if type = 17 then some ⟨0, 0, 0, 1, 0, -1, 0, -2, 18⟩
  else if type = 18 then some ⟨0, 0, -1, 0, 1, 0, 2, 0, 17⟩
  else if type = 19 then some ⟨-1, 0, 0, 0, 0, 1, 1, 1, 20⟩
  else if type = 20 then some ⟨0, -1, -1, 0, 0, 0, -1, 1, 19⟩
  else if type = 21 then some ⟨0, 0, 1, 0, -1, 1, 0, 1, 22⟩
  else if type = 22 then some ⟨-1, -1, -1, 0, 0, 0, 0, 1, 21⟩
  else if type = 23 then some ⟨0, 0, -1, 0, -1, 1, 0, 1, 23⟩
  else if type = 24 then some ⟨0, 0, -1, 0, -1, 1, 0, 1, 24⟩
  else if type = 25 then some ⟨0, 0, -1, 0, -1, 1, 0, 1, 25⟩
  else if type = 26 then some ⟨0, 0, 0, 1, 0, -1, 0, -2, 27⟩
  else if type = 27 then some ⟨0, 0, -1, 0, 1, 0, 2, 0, 26⟩
  else none

/-- The function `tetrisShape`: in the case selected by `type` the four cells
are set to the centre plus the offsets of the case and `next_type` is set; when
no case matches the block is left as it is. -/
def tetrisShape (b : tetrisBlock) : tetrisBlock :=
  match shapeCase b.type with
  | some s =>
    { b with
      position0 := { x := b.center.x + s.dx0, y := b.center.y + s.dy0 }
      position1 := { x := b.center.x + s.dx1, y := b.center.y + s.dy1 }
      position2 := { x := b.center.x + s.dx2, y := b.center.y + s.dy2 }
      position3 := { x := b.center.x + s.dx3, y := b.center.y + s.dy3 }
      next_type := s.next_type }
  | none => b

/-- The `switch (direct)` of `tetrisMove`: the centre goes one row down, or one
column left when `min > 0`, or one column right when `max < 9`. -/
def moveCenter (b : tetrisBlock) (direct : direction) : tetrisBlock :=
  let min := getLeft b
  let max := getRight b
  match direct with
  | .down => { b with center := { b.center with y := b.center.y + 1 } }
  | .left =>
    if min > 0 then { b with center := { b.center with x := b.center.x - 1 } } else b
  | .right =>
    if max < 9 then { b with center := { b.center with x := b.center.x + 1 } } else b

/-- The function `tetrisMove`. The result carries the returned `int`, the block
and the map after the call (the map is only read). -/
def tetrisMove (b : tetrisBlock) (direct : direction) (map : Grid) :
    Int × tetrisBlock × Grid :=
  let pre_center := b.center
  let b1 := tetrisShape (moveCenter b direct)
  if noCollision b1 map = 0 then
    (0, tetrisShape { b1 with center := pre_center }, map)
  else
    (1, b1, map)

/-- The function `tetrisRotate`, returning the block after the call. -/
def tetrisRotate (b : tetrisBlock) (map : Grid) : tetrisBlock :=
  let pre_type := b.type
  let b1 := tetrisShape { b with type := b.next_type }
  let min := getLeft b1
  let max := getRight b1
  if min < 0 ∨ max > 9 ∨ noCollision b1 map = 0 then
    tetrisShape { b1 with type := pre_type }
  else b1

/-- The rotated shape is refused by `tetrisRotate`: one of its cells has
x < 0 or x > 9, or lies on a nonzero cell of the map. -/
def rotationBlocked (r : tetrisBlock) (map : Grid) : Prop :=
  (r.position0.x < 0 ∨ r.position1.x < 0 ∨ r.position2.x < 0 ∨ r.position3.x < 0) ∨
  (r.position0.x > 9 ∨ r.position1.x > 9 ∨ r.position2.x > 9 ∨ r.position3.x > 9) ∨
  (map r.position0.y r.position0.x ≠ 0 ∨ map r.position1.y r.position1.x ≠ 0 ∨
    map r.position2.y r.position2.x ≠ 0 ∨ map r.position3.y r.position3.x ≠ 0)

instance (r : tetrisBlock) (map : Grid) : Decidable (rotationBlocked r map) := by
  unfold rotationBlocked
  infer_instance

/-- A block is well formed when its type is one of the 28 shape types and its
four cells and successor type are the ones `tetrisShape` derives from its type
and centre. -/
def wellFormed (b : tetrisBlock) : Prop :=
  0 ≤ b.type ∧ b.type ≤ 27 ∧ tetrisShape b = b

instance (b : tetrisBlock) : Decidable (wellFormed b) := by
  unfold wellFormed
  infer_instance

/-! ## Game state machine and score bookkeeping (Demo.c 16-20, 41, 539-552, 615-622, 1187-1307) -/

/-- The constant `levelNum`. -/
def levelNum : Int := 4

/-- The constant `maxLineDisappear`. -/
def maxLineDisappear : Int := 4

/-- The constant `singleModeSpeed`. -/
def singleModeSpeed : Int := 400

/-- The constant `doubleModeSpeed`. -/
def doubleModeSpeed : Int := 600

/-- The initialiser of `int score_add[maxLineDisappear][levelNum]`, filling the
table row by row. -/
def score_add : List Int :=
  [40, 80, 120, 160, 100, 200, 300, 400, 300, 600, 900, 1200, 1200, 2500, 3600, 4800]

/-- The index pair `[i][j]` lies inside the table `score_add`. -/
def scoreIndexInside (i j : Int) : Prop :=
  0 ≤ i ∧ i < maxLineDisappear ∧ 0 ≤ j ∧ j < levelNum

instance (i j : Int) : Decidable (scoreIndexInside i j) := by
  unfold scoreIndexInside
  infer_instance

/-- The read `score_add[i][j]`. Inside the table it is the entry of row `i` and
column `j`; a read outside the table yields whatever `outside` holds at that
index pair. -/
def scoreAddAt (outside : Int → Int → Int) (i j : Int) : Int :=
  if scoreIndexInside i j then score_add.getD (levelNum * i + j).toNat 0 else outside i j

/-- The function `systemInit`. -/
def systemInit (g : Globals) : Globals :=
  { g with
    currentType := -1
    nextType := -1
    buddyCurrentType := -1
    buddyNextType := -1
    lvl := 0
    mode := currentMode.modeSelect }

/-- The level setting shared by the menu and the selection screen:
`if (privateButton == B && lvl < 3) lvl++; else if (privateButton == D && lvl > 0) lvl--;`. -/
def adjustLevel (g : Globals) (privateButton : button) : Globals :=
  if privateButton = button.B ∧ g.lvl < 3 then { g with lvl := g.lvl + 1 }
  else if privateButton = button.D ∧ g.lvl > 0 then { g with lvl := g.lvl - 1 }
  else g

/-- The test `!connected && (mode == doublePlayerMove || mode == doublePlayerRotate)`. -/
def linkLost (g : Globals) : Prop :=
  g.connected = 0 ∧
    (g.mode = currentMode.doublePlayerMove ∨ g.mode = currentMode.doublePlayerRotate)

instance (g : Globals) : Decidable (linkLost g) := by
  unfold linkLost
  infer_instance

/-- The function `getState`: the returned state together with the globals after
the call. -/
def getState (g : Globals) (state : currentState) (privateButton : button) :
    currentState × Globals :=
  match state with
  | .gameMenu =>
    if privateButton = button.A then
      (.initGame, { g with mode := currentMode.singlePlayer, globalSpeed := singleModeSpeed })
    else if privateButton = button.C ∧ g.connected ≠ 0 then
      (.select, { g with mode := currentMode.doublePlayerSelect, globalSpeed := doubleModeSpeed })
    else
      (.gameMenu, adjustLevel g privateButton)
  | .select =>
    if g.connected = 0 then
      (.gameMenu, systemInit g)
    else if privateButton = button.A then
      if g.buddyA ≠ 0 then (.initGame, { g with mode := currentMode.doublePlayerRotate })
      else (.initGame, { g with mode := currentMode.doublePlayerMove })
    else if privateButton = button.C then
      if g.buddyC ≠ 0 then (.initGame, { g with mode := currentMode.doublePlayerMove })
      else (.initGame, { g with mode := currentMode.doublePlayerRotate })
    else
      (.select, adjustLevel g privateButton)
  | .initGame =>
    if linkLost g then (.gameMenu, systemInit g)
    else (.inGame, g)
  | .inGame =>
    if linkLost g then (.gameMenu, systemInit g)
    else
      match privateButton with
      | .system_refresh => (.nextRound, g)
      | .A => (.inGame, g)
      | .B => (.inGame, g)
      | .C => (.inGame, g)
      | .D => (.inGame, g)
      | .E => (.gamePause, g)
  | .gamePause =>
    if linkLost g then (.gameMenu, systemInit g)
    else if privateButton = button.D then
      if g.mode = currentMode.doublePlayerMove then (.nextRound, g)
      else (.inGame, g)
    else if privateButton = button.B then (.gameOver, g)
    else if privateButton = button.A then (.initGame, g)
    else (.gamePause, g)
  | .nextRound =>
    if g.isGameOver ≠ 0 then (.gameOver, g)
    else if linkLost g then (.gameMenu, systemInit g)
    else if g.mode = currentMode.doublePlayerMove then
      if privateButton = button.E then (.gamePause, g)
      else (.nextRound, g)
    else (.inGame, g)
  | .gameOver =>
    if privateButton ≠ button.system_refresh then (.gameMenu, systemInit g)
    else (.gameOver, g)

/-- The score, line and level bookkeeping of a round resolution in
`gameStateManagement` (Demo.c 542-547), for the count `noOfFullLine` returned by
`checkFullLine`; `lin/5` is the truncating division of C. -/
def lineClearUpdate (outside : Int → Int → Int) (g : Globals) (noOfFullLine : Int) :
    Globals :=
  if noOfFullLine ≠ 0 then
    let g1 := { g with scr := g.scr + scoreAddAt outside (noOfFullLine - 1) g.lvl }
    let g2 := { g1 with lin := g1.lin + noOfFullLine }
    let g3 := { g2 with lvl := g2.lvl + Int.tdiv g2.lin 5 }
    if g3.lvl > 3 then { g3 with lvl := 3 } else g3
  else g

/-- The local variables of the task `buttonInput` (Demo.c 201-203), with their C
initial values as defaults. -/
structure ArbiterLocals where
  buddyPressedA : Int := 1
  buddyPressedB : Int := 1
  buddyPressedC : Int := 1
  buddyPressedD : Int := 1
  buddyPressedE : Int := 1
  pressedA : Int := 1
  pressedB : Int := 1
  pressedC : Int := 1
  pressedD : Int := 1
  pressedE : Int := 1
  roundNum : Int := 0
  connectionErrorTime : Int := 0

/-- The block "Receive local button A input" of `buttonInput` (Demo.c 207-215);
`level` is the value read from the GPIO pin of button A (the two reads of the
pin within the block see the same level). -/
def localButtonA (level : Int) (s : ArbiterLocals × Globals) : ArbiterLocals × Globals :=
  let l := s.1
  let g := s.2
  if g.mode = currentMode.modeSelect ∨ g.mode = currentMode.singlePlayer ∨
      g.mode = currentMode.doublePlayerRotate ∨ g.mode = currentMode.doublePlayerSelect then
    if level = 0 ∧ l.pressedA = 1 then
      ({ l with pressedA := 0 }, { g with publicButton := button.A, inputReceived := true })
    else if level = 1 then
      ({ l with pressedA := 1 }, g)
    else (l, g)
  else (l, g)

/-- The block "Receive external button A input" of `buttonInput` (Demo.c 217-227). -/
def externalButtonA (s : ArbiterLocals × Globals) : ArbiterLocals × Globals :=
  let l := s.1
  let g := s.2
  if g.mode = currentMode.doublePlayerMove ∨ g.mode = currentMode.doublePlayerSelect ∨
      g.mode = currentMode.modeSelect ∨
      (g.myState = currentState.gamePause.toInt ∧ g.mode = currentMode.doublePlayerRotate) then
    if g.buddyAState = 0 ∧ l.buddyPressedA = 1 then
      ({ l with buddyPressedA := 0 },
        { g with publicButton := button.A, buddyA := 1, inputReceived := true })
    else if g.buddyAState = 1 then
      ({ l with buddyPressedA := 1 }, g)
    else (l, g)
  else (l, g)

/-- The block "Receive local button C input" of `buttonInput` (Demo.c 251-259);
`level` is the value read from the GPIO pin of button C (the two reads of the
pin within the block see the same level). -/
def localButtonC (level : Int) (s : ArbiterLocals × Globals) : ArbiterLocals × Globals :=
  let l := s.1
  let g := s.2
  if g.mode = currentMode.singlePlayer ∨ g.mode = currentMode.doublePlayerMove ∨
      g.mode = currentMode.doublePlayerSelect ∨ g.mode = currentMode.modeSelect then
    if level = 0 ∧ l.pressedC = 1 then
      ({ l with pressedC := 0 }, { g with publicButton := button.C, inputReceived := true })
    else if level = 1 then
      ({ l with pressedC := 1 }, g)
    else (l, g)
  else (l, g)

/-- The block "Receive external button C input" of `buttonInput` (Demo.c 261-270). -/
def externalButtonC (s : ArbiterLocals × Globals) : ArbiterLocals × Globals :=
  let l := s.1
  let g := s.2
  if g.mode = currentMode.doublePlayerRotate ∨ g.mode = currentMode.doublePlayerSelect ∨
      g.mode = currentMode.modeSelect then
    if g.buddyCState = 0 ∧ l.buddyPressedC = 1 then
      ({ l with buddyPressedC := 0 },
        { g with publicButton := button.C, buddyC := 1, inputReceived := true })
    else if g.buddyCState = 1 then
      ({ l with buddyPressedC := 1 }, g)
    else (l, g)
  else (l, g)

/-- The block "Receive local button B input" of `buttonInput` (Demo.c 229-238);
`level` is the value read from the GPIO pin of button B (the two reads of the
pin within the block see the same level). -/
def localButtonB (level : Int) (s : ArbiterLocals × Globals) : ArbiterLocals × Globals :=
  let l := s.1
  let g := s.2
  if g.mode = currentMode.singlePlayer ∨ g.mode = currentMode.doublePlayerMove ∨
      g.mode = currentMode.doublePlayerSelect ∨ g.mode = currentMode.modeSelect ∨
      (g.mode = currentMode.doublePlayerRotate ∧ g.myState = currentState.gamePause.toInt) then
    if level = 0 ∧ l.pressedB = 1 then
      ({ l with pressedB := 0 }, { g with publicButton := button.B, inputReceived := true })
    else if level = 1 then
      ({ l with pressedB := 1 }, g)
    else (l, g)
  else (l, g)

/-- The block "Receive external button B input" of `buttonInput` (Demo.c 240-249). -/
def externalButtonB (s : ArbiterLocals × Globals) : ArbiterLocals × Globals :=
  let l := s.1
  let g := s.2
  if g.mode = currentMode.doublePlayerRotate ∨ g.mode = currentMode.doublePlayerSelect ∨
      g.mode = currentMode.modeSelect then
    if g.buddyBState = 0 ∧ l.buddyPressedB = 1 then
      ({ l with buddyPressedB := 0 },
        { g with publicButton := button.B, buddyB := 1, inputReceived := true })
    else if g.buddyBState = 1 then
      ({ l with buddyPressedB := 1 }, g)
    else (l, g)
  else (l, g)

/-- The block "Receive local button D input" of `buttonInput` (Demo.c 272-281);
`level` is the value read from the GPIO pin of button D (the two reads of the
pin within the block see the same level). -/
def localButtonD (level : Int) (s : ArbiterLocals × Globals) : ArbiterLocals × Globals :=
  let l := s.1
  let g := s.2
  if g.mode = currentMode.singlePlayer ∨ g.mode = currentMode.doublePlayerMove ∨
      g.mode = currentMode.doublePlayerSelect ∨ g.mode = currentMode.modeSelect ∨
      (g.mode = currentMode.doublePlayerRotate ∧ g.myState = currentState.gamePause.toInt) then
    if level = 0 ∧ l.pressedD = 1 then
      ({ l with pressedD := 0 }, { g with publicButton := button.D, inputReceived := true })
    else if level = 1 then
      ({ l with pressedD := 1 }, g)
    else (l, g)
  else (l, g)

/-- The block "Receive external button D input" of `buttonInput` (Demo.c 283-292). -/
def externalButtonD (s : ArbiterLocals × Globals) : ArbiterLocals × Globals :=
  let l := s.1
  let g := s.2
  if g.mode = currentMode.doublePlayerRotate ∨ g.mode = currentMode.doublePlayerSelect ∨
      g.mode = currentMode.modeSelect then
    if g.buddyDState = 0 ∧ l.buddyPressedD = 1 then
      ({ l with buddyPressedD := 0 },
        { g with publicButton := button.D, buddyD := 1, inputReceived := true })
    else if g.buddyDState = 1 then
      ({ l with buddyPressedD := 1 }, g)
    else (l, g)
  else (l, g)

/-- The block "Receive local button E input" of `buttonInput` (Demo.c 294-302);
`level` is the value read from the GPIO pin of button E (the two reads of the
pin within the block see the same level). -/
def localButtonE (level : Int) (s : ArbiterLocals × Globals) : ArbiterLocals × Globals :=
  let l := s.1
  let g := s.2
  if g.mode = currentMode.singlePlayer ∨ g.mode = currentMode.doublePlayerRotate then
    if level = 0 ∧ l.pressedE = 1 then
      ({ l with pressedE := 0 }, { g with publicButton := button.E, inputReceived := true })
    else if level = 1 then
      ({ l with pressedE := 1 }, g)
    else (l, g)
  else (l, g)

/-- The block "Receive external button E input" of `buttonInput` (Demo.c 304-313). -/
def externalButtonE (s : ArbiterLocals × Globals) : ArbiterLocals × Globals :=
  let l := s.1
  let g := s.2
  if g.mode = currentMode.doublePlayerRotate then
    if g.buddyEState = 0 ∧ l.buddyPressedE = 1 then
      ({ l with buddyPressedE := 0 },
        { g with publicButton := button.E, buddyE := 1, inputReceived := true })
    else if g.buddyEState = 1 then
      ({ l with buddyPressedE := 1 }, g)
    else (l, g)
  else (l, g)

/-- The block "Receive button E input for pause in double mode" of `buttonInput`
(Demo.c 315-318). -/
def pauseFromBuddy (s : ArbiterLocals × Globals) : ArbiterLocals × Globals :=
  let l := s.1
  let g := s.2
  if g.mode = currentMode.doublePlayerMove ∧ g.buddyState = currentState.gamePause.toInt then
    (l, { g with publicButton := button.E, inputReceived := true })
  else (l, g)

/-- The block "Receive button ABD input for pause in double mode" of
`buttonInput` (Demo.c 320-337): three consecutive `if` statements on
`buddyState`. -/
def leavePauseFromBuddy (s : ArbiterLocals × Globals) : ArbiterLocals × Globals :=
  let l := s.1
  let g := s.2
  if g.mode = currentMode.doublePlayerMove ∧ g.myState = currentState.gamePause.toInt then
    let g1 :=
      if g.buddyState = currentState.gameOver.toInt then
        { g with publicButton := button.B, inputReceived := true }
      else g
    let g2 :=
      if g1.buddyState = currentState.initGame.toInt then
        { g1 with publicButton := button.A, inputReceived := true }
      else g1
    let g3 :=
      if g2.buddyState = currentState.nextRound.toInt ∨
          g2.buddyState = currentState.inGame.toInt then
        { g2 with publicButton := button.D, inputReceived := true }
      else g2
    (l, g3)
  else (l, g)

/-- The test under the negation in Demo.c 347:
`myState == buddyState || (myState <= (int)nextRound && myState >= (int)initGame
&& buddyState <= (int)nextRound && buddyState > (int)initGame)`. -/
def statesInSync (myState buddyState : Int) : Prop :=
  myState = buddyState ∨
    (myState ≤ currentState.nextRound.toInt ∧ myState ≥ currentState.initGame.toInt ∧
      buddyState ≤ currentState.nextRound.toInt ∧ buddyState > currentState.initGame.toInt)

instance (myState buddyState : Int) : Decidable (statesInSync myState buddyState) := by
  unfold statesInSync
  infer_instance

/-- The connection check that ends each iteration of the loop of `buttonInput`
(Demo.c 338-350); `%` is the remainder of C. -/
def connectionCheck (s : ArbiterLocals × Globals) : ArbiterLocals × Globals :=
  let l := s.1
  let g := s.2
  let roundNum := Int.tmod (l.roundNum + 1) 100
  if roundNum = 0 then
    ({ l with roundNum := roundNum, connectionErrorTime := 0 },
      { g with connected := if l.connectionErrorTime ≤ 80 then 1 else 0, buddyState := -1 })
  else if ¬ statesInSync g.myState g.buddyState then
    ({ l with roundNum := roundNum, connectionErrorTime := l.connectionErrorTime + 1 },
      { g with buddyState := -1 })
  else
    ({ l with roundNum := roundNum }, { g with buddyState := -1 })

/-- The connection checks of consecutive arbiter ticks; each entry of `seen` is
the pair (myState, buddyState) the other tasks have left in the globals when
the check of that tick runs. -/
def connectionTicks (s : ArbiterLocals × Globals) (seen : List (Int × Int)) :
    ArbiterLocals × Globals :=
  seen.foldl
    (fun t p => connectionCheck (t.1, { t.2 with myState := p.1, buddyState := p.2 })) s

/-- The number of entries of `seen` at which the two states are not in sync. -/
def disagreements (seen : List (Int × Int)) : Nat :=
  (seen.filter (fun p => decide (¬ statesInSync p.1 p.2))).length

/-- The levels read from the GPIO pins of the five buttons during one tick. -/
structure ButtonLevels where
  levelA : Int
  levelB : Int
  levelC : Int
  levelD : Int
  levelE : Int

/-- One iteration of the loop of `buttonInput` (Demo.c 205-351): the ten button
blocks in the order of the source, the two pause blocks, and the connection
check. -/
def buttonInputTick (lv : ButtonLevels) (s : ArbiterLocals × Globals) :
    ArbiterLocals × Globals :=
  let s := localButtonA lv.levelA s
  let s := externalButtonA s
  let s := localButtonB lv.levelB s
  let s := externalButtonB s
  let s := localButtonC lv.levelC s
  let s := externalButtonC s
  let s := localButtonD lv.levelD s
  let s := externalButtonD s
  let s := localButtonE lv.levelE s
  let s := externalButtonE s
  let s := pauseFromBuddy s
  let s := leavePauseFromBuddy s
  connectionCheck s

/-- The debounce rule every button block applies to its source: with the level
read and the flag `pressed` of the source, whether the source fires, and the
new value of the flag. -/
def debounce (level pressed : Int) : Bool × Int :=
  if level = 0 ∧ pressed = 1 then (true, 0)
  else if level = 1 then (false, 1)
  else (false, pressed)

/-- The firings of one source over consecutive enabled ticks, from the flag
`pressed` and the levels it reads. -/
def debounceFires : Int → List Int → List Bool
  | _, [] => []
  | pressed, level :: rest =>
    (debounce level pressed).1 :: debounceFires (debounce level pressed).2 rest

/-- The ten sources of button events of `buttonInput`: for each of the buttons
A..E the local GPIO pin and the level relayed by the peer. -/
inductive Source
  | localA | externalA | localB | externalB | localC | externalC
  | localD | externalD | localE | externalE
deriving DecidableEq, Repr

/-- The mode condition that guards the block of a source (Demo.c 207, 217-218,
229-230, 240, 251, 261, 272-273, 283, 294, 304). -/
def Source.enabled : Source → Globals → Prop
  | .localA, g =>
    g.mode = currentMode.modeSelect ∨ g.mode = currentMode.singlePlayer ∨
      g.mode = currentMode.doublePlayerRotate ∨ g.mode = currentMode.doublePlayerSelect
  | .externalA, g =>
    g.mode = currentMode.doublePlayerMove ∨ g.mode = currentMode.doublePlayerSelect ∨
      g.mode = currentMode.modeSelect ∨
      (g.myState = currentState.gamePause.toInt ∧ g.mode = currentMode.doublePlayerRotate)
  | .localB, g =>
    g.mode = currentMode.singlePlayer ∨ g.mode = currentMode.doublePlayerMove ∨
      g.mode = currentMode.doublePlayerSelect ∨ g.mode = currentMode.modeSelect ∨
      (g.mode = currentMode.doublePlayerRotate ∧ g.myState = currentState.gamePause.toInt)
  | .externalB, g =>
    g.mode = currentMode.doublePlayerRotate ∨ g.mode = currentMode.doublePlayerSelect ∨
      g.mode = currentMode.modeSelect
  | .localC, g =>
    g.mode = currentMode.singlePlayer ∨ g.mode = currentMode.doublePlayerMove ∨
      g.mode = currentMode.doublePlayerSelect ∨ g.mode = currentMode.modeSelect
  | .externalC, g =>
    g.mode = currentMode.doublePlayerRotate ∨ g.mode = currentMode.doublePlayerSelect ∨
      g.mode = currentMode.modeSelect
  | .localD, g =>
    g.mode = currentMode.singlePlayer ∨ g.mode = currentMode.doublePlayerMove ∨
      g.mode = currentMode.doublePlayerSelect ∨ g.mode = currentMode.modeSelect ∨
      (g.mode = currentMode.doublePlayerRotate ∧ g.myState = currentState.gamePause.toInt)
  | .externalD, g =>
    g.mode = currentMode.doublePlayerRotate ∨ g.mode = currentMode.doublePlayerSelect ∨
      g.mode = currentMode.modeSelect
  | .localE, g =>
    g.mode = currentMode.singlePlayer ∨ g.mode = currentMode.doublePlayerRotate
  | .externalE, g => g.mode = currentMode.doublePlayerRotate

instance (src : Source) (g : Globals) : Decidable (src.enabled g) := by
  cases src <;> unfold Source.enabled <;> infer_instance

/-- The level the block of a source reads: the GPIO pin of its button for a
local source, the mirror field `buddyAState .. buddyEState` for a relayed one. -/
def Source.level : Source → ButtonLevels → Globals → Int
  | .localA, lv, _ => lv.levelA
  | .externalA, _, g => g.buddyAState
  | .localB, lv, _ => lv.levelB
  | .externalB, _, g => g.buddyBState
  | .localC, lv, _ => lv.levelC
  | .externalC, _, g => g.buddyCState
  | .localD, lv, _ => lv.levelD
  | .externalD, _, g => g.buddyDState
  | .localE, lv, _ => lv.levelE
  | .externalE, _, g => g.buddyEState

/-- The debounce flag of a source: `pressedA .. pressedE` for the local
sources, `buddyPressedA .. buddyPressedE` for the relayed ones. -/
def Source.flag : Source → ArbiterLocals → Int
  | .localA, l => l.pressedA
  | .externalA, l => l.buddyPressedA
  | .localB, l => l.pressedB
  | .externalB, l => l.buddyPressedB
  | .localC, l => l.pressedC
  | .externalC, l => l.buddyPressedC
  | .localD, l => l.pressedD
  | .externalD, l => l.buddyPressedD
  | .localE, l => l.pressedE
  | .externalE, l => l.buddyPressedE

/-- The value the block of a source assigns to `publicButton` when it fires. -/
def Source.event : Source → button
  | .localA => button.A
  | .externalA => button.A
  | .localB => button.B
  | .externalB => button.B
  | .localC => button.C
  | .externalC => button.C
  | .localD => button.D
  | .externalD => button.D
  | .localE => button.E
  | .externalE => button.E

/-- The block of `buttonInput` that serves a source. -/
def Source.block : Source → ButtonLevels → ArbiterLocals × Globals → ArbiterLocals × Globals
  | .localA, lv => localButtonA lv.levelA
  | .externalA, _ => externalButtonA
  | .localB, lv => localButtonB lv.levelB
  | .externalB, _ => externalButtonB
  | .localC, lv => localButtonC lv.levelC
  | .externalC, _ => externalButtonC
  | .localD, lv => localButtonD lv.levelD
  | .externalD, _ => externalButtonD
  | .localE, lv => localButtonE lv.levelE
  | .externalE, _ => externalButtonE

/-- The order in which one iteration of the loop of `buttonInput` runs the
blocks of the ten sources. -/
def sourceOrder : List Source :=
  [.localA, .externalA, .localB, .externalB, .localC, .externalC,
    .localD, .externalD, .localE, .externalE]

/-- The blocks of a list of sources run one after the other. -/
def runBlocks (lv : ButtonLevels) (srcs : List Source) (s : ArbiterLocals × Globals) :
    ArbiterLocals × Globals :=
  srcs.foldl (fun t (x : Source) => x.block lv t) s

/-- The sources whose blocks run before the block of `src` within a tick. -/
def sourcesBefore (src : Source) : List Source :=
  sourceOrder.takeWhile (fun x => decide (x ≠ src))

/-- The sources whose blocks run after the block of `src` within a tick. -/
def sourcesAfter (src : Source) : List Source :=
  (sourceOrder.dropWhile (fun x => decide (x ≠ src))).tail

/-- The state in which the block of `src` starts during the tick that begins in
state `s`: the blocks of the earlier sources have run. -/
def stateBefore (src : Source) (lv : ButtonLevels) (s : ArbiterLocals × Globals) :
    ArbiterLocals × Globals :=
  runBlocks lv (sourcesBefore src) s

/-- The block of a source takes its firing branch in state `s`, the one with
`publicButton = ...; xSemaphoreGive(inputReceived);`: the mode enables the
source, the level read is 0 and the flag of the source is 1. -/
def Source.publishes (src : Source) (lv : ButtonLevels) (s : ArbiterLocals × Globals) : Prop :=
  src.enabled s.2 ∧ src.level lv s.2 = 0 ∧ src.flag s.1 = 1

instance (src : Source) (lv : ButtonLevels) (s : ArbiterLocals × Globals) :
    Decidable (src.publishes lv s) := by
  unfold Source.publishes
  infer_instance

/-- The firings of a source over a run of the loop of `buttonInput`. Each entry
of `ticks` is one iteration: the levels on the five pins and the globals as the
other tasks have left them when the iteration starts. The locals of the task go
from one iteration to the next through `buttonInputTick`; the entry of the
result tells whether the block of the source took its firing branch, in the
state in which that block starts. -/
def runPublishes (src : Source) : ArbiterLocals → List (ButtonLevels × Globals) → List Bool
  | _, [] => []
  | l, t :: rest =>
    decide (src.publishes t.1 (stateBefore src t.1 (l, t.2))) ::
      runPublishes src (buttonInputTick t.1 (l, t.2)).1 rest

/-- On tick `k` of the run the mode enables the source and the source reads the
level `v`. -/
def readsLevel (src : Source) (ticks : List (ButtonLevels × Globals)) (k : Nat) (v : Int) :
    Prop :=
  ∃ t, ticks[k]? = some t ∧ src.enabled t.2 ∧ src.level t.1 t.2 = v

/-- What the button blocks read of the globals and never write: the mode, the
own state and the five mirror levels. -/
def sameReads (g h : Globals) : Prop :=
  h.mode = g.mode ∧ h.myState = g.myState ∧ h.buddyAState = g.buddyAState ∧
  h.buddyBState = g.buddyBState ∧ h.buddyCState = g.buddyCState ∧
  h.buddyDState = g.buddyDState ∧ h.buddyEState = g.buddyEState

/-- Two states of the arbiter agree on what the local player can influence and
observe: the five local debounce flags, the published button and the wakeup
semaphore. -/
def sameLocalView (s t : ArbiterLocals × Globals) : Prop :=
  s.1.pressedA = t.1.pressedA ∧ s.1.pressedB = t.1.pressedB ∧
  s.1.pressedC = t.1.pressedC ∧ s.1.pressedD = t.1.pressedD ∧
  s.1.pressedE = t.1.pressedE ∧
  s.2.publicButton = t.2.publicButton ∧ s.2.inputReceived = t.2.inputReceived

/-- The relayed flags `buddyA .. buddyE`. -/
def relayFlags (g : Globals) : List Int :=
  [g.buddyA, g.buddyB, g.buddyC, g.buddyD, g.buddyE]

/-- Two states of the arbiter in mode `singlePlayer` with the same local view. -/
def singlePair (s t : ArbiterLocals × Globals) : Prop :=
  s.2.mode = currentMode.singlePlayer ∧ t.2.mode = currentMode.singlePlayer ∧
  sameLocalView s t

/-! ## Game-over test and synchronisation coordinator (Demo.c 493-500, 634-635, 692-701, 1120-1129) -/

/-- The function `checkGameOver`, with the block after the call (it is only
read). -/
def checkGameOver (b : tetrisBlock) : Int × tetrisBlock :=
  if b.position0.y = 0 then (1, b)
  else if b.position1.y = 0 then (1, b)
  else if b.position2.y = 0 then (1, b)
  else if b.position3.y = 0 then (1, b)
  else (0, b)

/-- The function `tetrisSynchronization`: the two blocks after the call. -/
def tetrisSynchronization (g : Globals) (currentTetris nextTetris : tetrisBlock) :
    tetrisBlock × tetrisBlock :=
  (tetrisShape
      { currentTetris with
        center := { x := g.buddyCurrentX, y := g.buddyCurrentY }
        type := g.buddyCurrentType
        color_num := g.buddyCurrentColor },
    tetrisShape
      { nextTetris with
        type := g.buddyNextType
        color_num := g.buddyNextColor })

/-- The condition of the wait loop of `initGameSetting` (Demo.c 634),
`buddyCurrentType == -1 && buddyNextType == -1`. -/
def peerHasNoPiece (g : Globals) : Prop :=
  g.buddyCurrentType = -1 ∧ g.buddyNextType = -1

instance (g : Globals) : Decidable (peerHasNoPiece g) := by
  unfold peerHasNoPiece
  infer_instance

/-- The wait loop of `initGameSetting` (Demo.c 634-635),
`while (buddyCurrentType == -1 && buddyNextType == -1) vTaskDelay(5);`.
`mirrorAt i` holds the globals as the receiver task has left them when the
condition is evaluated for the i-th time. The result is `some i` when the loop
exits at evaluation `i`, and `none` when it is still running after `fuel`
evaluations. -/
def initGameWait (mirrorAt : Nat → Globals) : Nat → Nat → Option Nat
  | 0, _ => none
  | fuel + 1, i =>
    if peerHasNoPiece (mirrorAt i) then initGameWait mirrorAt fuel (i + 1) else some i

/-- The first wait loop of the `nextRound` handler in mode `doublePlayerMove`
(Demo.c 493-500), with its counter `connectionBreakCount`. The result is
`some i` when the loop exits at evaluation `i` of its condition, and `none` when
it is still running after `fuel` evaluations. -/
def nextRoundWait (currentTetris : tetrisBlock) (mirrorAt : Nat → Globals) :
    Nat → Int → Nat → Option Nat
  | 0, _, _ => none
  | fuel + 1, connectionBreakCount, i =>
    if (mirrorAt i).buddyCurrentY = currentTetris.center.y ∧
        (mirrorAt i).buddyCurrentX = currentTetris.center.x ∧
        (mirrorAt i).buddyCurrentType = currentTetris.type then
      if connectionBreakCount > 200 then some i
      else nextRoundWait currentTetris mirrorAt fuel (connectionBreakCount + 1) (i + 1)
    else some i

/-- The function `tetrisInit`; `rand1` and `rand2` are the values returned by
its two calls of `rand()`. -/
def tetrisInit (b : tetrisBlock) (rand1 rand2 : Nat) : tetrisBlock :=
  tetrisShape
    { b with
      center := { x := 4, y := 0 }
      type := ((rand1 % 28 : Nat) : Int)
      color_num := ((rand2 % 4 : Nat) : Int) + 1 }

/-! ## Writing a piece on the map, containment and reference compaction (Demo.c 679-687, 715-727) -/

/-- The function `clearTetrisPosition`: the four assignments
`map[position[i].y][position[i].x] = 0`, for i = 0 .. 3. A cell named with a
column outside 0..9 is kept as a cell of its own in the model, while in C
`map[y][10]` is the same int as `map[y+1][0]`; the model is only used on cells
with columns in 0..9. -/
def clearTetrisPosition (b : tetrisBlock) (map : Grid) : Grid :=
  let map := setCell map b.position0.y b.position0.x 0
  let map := setCell map b.position1.y b.position1.x 0
  let map := setCell map b.position2.y b.position2.x 0
  setCell map b.position3.y b.position3.x 0

/-- The function `printTetrisOnMap`: the four assignments
`map[position[i].y][position[i].x] = color_num`, for i = 0 .. 3. -/
def printTetrisOnMap (b : tetrisBlock) (map : Grid) : Grid :=
  let map := setCell map b.position0.y b.position0.x b.color_num
  let map := setCell map b.position1.y b.position1.x b.color_num
  let map := setCell map b.position2.y b.position2.x b.color_num
  setCell map b.position3.y b.position3.x b.color_num

/-- A cell lies inside the array `map[20][10]`. -/
def insideGrid (p : point) : Prop :=
  0 ≤ p.x ∧ p.x ≤ 9 ∧ 0 ≤ p.y ∧ p.y ≤ 19

instance (p : point) : Decidable (insideGrid p) := by
  unfold insideGrid
  infer_instance

/-- The four cells of a block lie inside the array `map[20][10]`. -/
def cellsInside (b : tetrisBlock) : Prop :=
  insideGrid b.position0 ∧ insideGrid b.position1 ∧
    insideGrid b.position2 ∧ insideGrid b.position3

instance (b : tetrisBlock) : Decidable (cellsInside b) := by
  unfold cellsInside
  infer_instance

/-- The four cells of a block have their x in 0..9. -/
def columnsInside (b : tetrisBlock) : Prop :=
  (0 ≤ b.position0.x ∧ b.position0.x ≤ 9) ∧ (0 ≤ b.position1.x ∧ b.position1.x ≤ 9) ∧
    (0 ≤ b.position2.x ∧ b.position2.x ≤ 9) ∧ (0 ≤ b.position3.x ∧ b.position3.x ≤ 9)

instance (b : tetrisBlock) : Decidable (columnsInside b) := by
  unfold columnsInside
  infer_instance

/-- Two maps hold the same value in every cell of the array `map[20][10]`. -/
def sameInside (m1 m2 : Grid) : Prop :=
  ∀ r c : Int, 0 ≤ r → r ≤ 19 → 0 ≤ c → c ≤ 9 → m1 r c = m2 r c

/-- The successor map of `tetrisShape`: the value the case of `type` gives to
`next_type`; a type that matches no case is kept. -/
def successorType (type : Int) : Int :=
  match shapeCase type with
  | some s => s.next_type
  | none => type

/-- The row that row `r` is copied from by the loop
`for (row = e; row > 0; row--) map[row] = map[row-1]` of `letLineDisappear`. -/
def shiftSource (e r : Int) : Int :=
  if 1 ≤ r ∧ r ≤ e then r - 1 else r

/-- The row of the scanned map that ends in row `r` after the shifts at the
rows of the list, the last row of the list being shifted first. -/
def rowSource (rows : List Int) (r : Int) : Int :=
  rows.foldl (fun (q : Int) (e : Int) => shiftSource e q) r

/-- The rows among rows 0 .. n-1 of the map that are not full, in increasing
order. -/
def nonFullBelow (map : Grid) (n : Nat) : List Int :=
  ((List.range n).filter (fun (r : Nat) => !decide (rowFull map (r : Int)))).map
    (fun (r : Nat) => (r : Int))

/-- The reference compaction of the 20x10 array: as many all-zero rows on top
as the map has full rows, followed by the rows that are not full in their
original order; cells outside the array are left as they are. -/
def compactReference (map : Grid) : Grid := fun r c =>
  if 0 ≤ r ∧ r < 20 ∧ 0 ≤ c ∧ c < 10 then
    if r < (fullRowCount map : Int) then 0
    else map ((nonFullBelow map 20).getD (r.toNat - fullRowCount map) 0) c
  else map r c

/-! ## Concrete inputs -/

/-- A receive buffer whose byte 2 is not a bit: bytes 1, 3, 4, 7 and 8 are 0
and byte 2 is 2, so that byte 7 differs from byte 1 XOR byte 2. -/
def badXorBuffer : Nat → Nat :=
  fun i => if i = 2 then 2 else 0

/-- A sender in state `inGame` whose active piece has type 7 and colour 2 at
centre (4, 5), with a next piece of type 12 and colour 1. -/
def sentGlobals : Globals :=
  { myState := 3, currentX := 4, currentY := 5, currentType := 7, currentColor := 2,
    nextType := 12, nextColor := 1 }

/-- The receiver task before its first byte: cursor 0 and a zeroed buffer. -/
def rxStart : RxLocals := { pos := 0, buffer := fun _ => 0 }

/-- The block map with every cell empty. -/
def emptyMap : Grid := fun _ _ => 0

/-- A block of type 0 with centre (1, 0): its cells are (0,0), (1,0), (1,1),
(2,1), so its leftmost cell is at the left wall. -/
def leftWallBlock : tetrisBlock :=
  { center := { x := 1, y := 0 }
    position0 := { x := 0, y := 0 }
    position1 := { x := 1, y := 0 }
    position2 := { x := 1, y := 1 }
    position3 := { x := 2, y := 1 }
    type := 0, next_type := 1, color_num := 1 }

/-- A map whose only nonzero cell is the one in row 2, column 1. -/
def dotMap : Grid := fun r c => if r = 2 ∧ c = 1 then 1 else 0

/-- A block of type 0 with centre (4, 5), in the middle of the map. -/
def midBlock : tetrisBlock :=
  { center := { x := 4, y := 5 }
    position0 := { x := 3, y := 5 }
    position1 := { x := 4, y := 5 }
    position2 := { x := 4, y := 6 }
    position3 := { x := 5, y := 6 }
    type := 0, next_type := 1, color_num := 2 }

/-- A memory outside the table `score_add` that holds 0 everywhere. -/
def zeroOutside : Int → Int → Int := fun _ _ => 0

/-- A map with rows 3 and 7 full, one occupied cell in row 0 and four occupied
cells in row 5. -/
def lineMap : Grid := fun r c =>
  if 0 ≤ c ∧ c < 10 then
    if r = 3 ∨ r = 7 then 1
    else if r = 0 ∧ c = 0 then 3
    else if r = 5 ∧ c < 4 then 2
    else 0
  else 0

/-- An array `fullLineNumber` holding 0 in every slot. -/
def zeroLines : Int → Int := fun _ => 0

/-- A liveness window of 99 ticks with 81 disagreements: the peer is not heard
(buddyState = -1) while this board is in `inGame`, then 18 ticks in agreement. -/
def window81 : List (Int × Int) :=
  List.replicate 81 (3, -1) ++ List.replicate 18 (3, 3)

/-- A liveness window of 99 ticks with 80 disagreements. -/
def window80 : List (Int × Int) :=
  List.replicate 80 (3, -1) ++ List.replicate 19 (3, 3)

/-- A board on the selection screen of the double game, connected, with the
relayed flags cleared and no button of the peer seen pressed. -/
def selectBoard : Globals :=
  { mode := currentMode.doublePlayerSelect, connected := 1, myState := 1 }

/-- The board `selectBoard` when the peer's button A is seen pressed. -/
def selectBoardPeerA : Globals :=
  { mode := currentMode.doublePlayerSelect, connected := 1, myState := 1, buddyAState := 0 }

/-- A sender that has no piece yet: `systemInit` has run and the board shows
the menu. -/
def idleSender : Globals := systemInit { myState := 0 }

/-- A board whose mirror holds the peer's active piece of type 4 and colour 3 at
centre (6, 9) and the peer's next piece of type 17 and colour 1. -/
def mirrorBoard : Globals :=
  { buddyCurrentX := 6, buddyCurrentY := 9, buddyCurrentType := 4, buddyCurrentColor := 3,
    buddyNextType := 17, buddyNextColor := 1 }

/-- A block of type 5 with centre (4, 0): its cell (4, -1) is above the map. -/
def topBlock : tetrisBlock :=
  { center := { x := 4, y := 0 }
    position0 := { x := 4, y := -1 }
    position1 := { x := 4, y := 0 }
    position2 := { x := 3, y := 1 }
    position3 := { x := 4, y := 1 }
    type := 5, next_type := 4, color_num := 1 }

/-- A decoder in the middle of a frame: cursor 9 and a buffer of 7s. -/
def rxMidFrame : RxLocals := { pos := 9, buffer := fun _ => 7 }

/-- A block of type 0 with centre (4, 18): its cells are (3,18), (4,18), (4,19),
(5,19), so two of them are in the bottom row of the map. -/
def floorBlock : tetrisBlock :=
  { center := { x := 4, y := 18 }
    position0 := { x := 3, y := 18 }
    position1 := { x := 4, y := 18 }
    position2 := { x := 4, y := 19 }
    position3 := { x := 5, y := 19 }
    type := 0, next_type := 1, color_num := 1 }

/-- A memory that is 0 in the whole array `map[20][10]` and holds 1 at the place
read as `map[20][4]`, just past the array. -/
def belowFloorMap : Grid := fun r c => if r = 20 ∧ c = 4 then 1 else 0

/-- A memory holding 5 everywhere, inside and outside the array. -/
def fivesMap : Grid := fun _ _ => 5

/-- A map whose row 0 is empty and whose rows 3, 7, 8 and 19 are full, with two
occupied cells in row 5 and one in row 18. -/
def fourLineMap : Grid := fun r c =>
  if 0 ≤ c ∧ c < 10 then
    if r = 3 ∨ r = 7 ∨ r = 8 ∨ r = 19 then 1
    else if r = 5 ∧ c < 2 then 2
    else if r = 18 ∧ c = 9 then 4
    else 0
  else 0

/-- A block of type 4 with centre (4, 5): its cells are (3,5), (4,5), (5,5),
(5,6); its type lies on the cycle 4, 7, 6, 5. -/
def hookBlock : tetrisBlock :=
  { center := { x := 4, y := 5 }
    position0 := { x := 3, y := 5 }
    position1 := { x := 4, y := 5 }
    position2 := { x := 5, y := 5 }
    position3 := { x := 5, y := 6 }
    type := 4, next_type := 7, color_num := 3 }

/-- A receive buffer of bits: bytes 1 and 7 are 1, bytes 2, 3, 4 and 8 are 0, so
that byte 7 is byte 1 XOR byte 2 and byte 8 is byte 3 XOR byte 4; byte 6 is 3
and the other bytes are 0. -/
def bitBuffer : Nat → Nat :=
  fun i => if i = 1 ∨ i = 7 then 1 else if i = 6 then 3 else 0

/-- Six arbiter ticks on the menu with the link up: the pin of button A reads
0, 0, 0, 1, 0, 0, the other pins read 1, and the peer's level of A is held at
0. -/
def heldTicks : List (ButtonLevels × Globals) :=
  [0, 0, 0, 1, 0, 0].map (fun (a : Int) =>
    ({ levelA := a, levelB := 1, levelC := 1, levelD := 1, levelE := 1 },
      { buddyAState := 0 }))

/-! ## Theorems -/

set_option maxRecDepth 20000

/-- C1: at cursor position 15 with final byte STOP, the buffer `badXorBuffer`
has buffer[7] = 0 different from buffer[1] XOR buffer[2] = 2, and yet the step
of `receiveData` overwrites the peer mirror (here `buddyAState` goes from 1 to
0 and `buddyBState` from 1 to 2). -/
theorem receiveData_accepts_bad_checksum :
    badXorBuffer 7 ≠ badXorBuffer 1 ^^^ badXorBuffer 2 ∧
    mirror ({} : Globals) = [1, 1, 1, 1, 1, -1, 0, 0, 0, 0, 0, 0] ∧
    mirror (receiveDataStep ({}, { pos := 15, buffer := badXorBuffer }) stopByte).1
      = [0, 2, 0, 0, 0, 0, 0, 0, 0, 0, 0, 0] ∧
    (receiveDataStep ({}, { pos := 15, buffer := badXorBuffer }) stopByte).2.pos = 0 := by
  refine ⟨by decide, rfl, ?_, ?_⟩ <;> decide

/-- C2: with the receive cursor at 0, the 16 bytes `sendData` emits for button
levels in {0,1} and state, piece and next-piece values in 0..255 make
`receiveData` set the peer mirror to exactly the sent values, and leave the
cursor at 0. -/
theorem sendData_receiveData_roundtrip (gs gr : Globals) (l : RxLocals)
    (a b c d e : Nat) (hpos : l.pos = 0)
    (ha : a ≤ 1) (hb : b ≤ 1) (hc : c ≤ 1) (hd : d ≤ 1) (he : e ≤ 1)
    (hst : 0 ≤ gs.myState ∧ gs.myState ≤ 255)
    (hx : 0 ≤ gs.currentX ∧ gs.currentX ≤ 255)
    (hy : 0 ≤ gs.currentY ∧ gs.currentY ≤ 255)
    (hty : 0 ≤ gs.currentType ∧ gs.currentType ≤ 255)
    (hco : 0 ≤ gs.currentColor ∧ gs.currentColor ≤ 255)
    (hnt : 0 ≤ gs.nextType ∧ gs.nextType ≤ 255)
    (hnc : 0 ≤ gs.nextColor ∧ gs.nextColor ≤ 255) :
    mirror (receiveDataRun (gr, l) (sendData gs a b c d e)).1
      = [(a : Int), b, c, d, e, gs.myState, gs.currentX, gs.currentY,
          gs.currentType, gs.currentColor, gs.nextType, gs.nextColor] ∧
    (receiveDataRun (gr, l) (sendData gs a b c d e)).2.pos = 0 := by
  have hu : ∀ v : Int, 0 ≤ v → v ≤ 255 → ((uartByte v : Nat) : Int) = v := by
    intro v h0 h1
    unfold uartByte
    omega
  have hemod : e % 256 = e := Nat.mod_eq_of_lt (by omega)
  obtain ⟨pos, buf⟩ := l
  simp only at hpos
  subst hpos
  interval_cases a <;> interval_cases b <;> interval_cases c <;> interval_cases d <;>
    simp [receiveDataRun, sendData, receiveDataStep, setBuffer, frameAccepted, cBool,
      startByte, stopByte, mirror, hemod, hu _ hst.1 hst.2, hu _ hx.1 hx.2,
      hu _ hy.1 hy.2, hu _ hty.1 hty.2, hu _ hco.1 hco.2, hu _ hnt.1 hnt.2,
      hu _ hnc.1 hnc.2]

/-- The round trip of C2 at a concrete frame: buttons A, C, D released (1) and
B, E pressed (0), sent by `sentGlobals` and decoded from `rxStart`. -/
theorem sendData_receiveData_roundtrip_witness :
    rxStart.pos = 0 ∧
    mirror (receiveDataRun ({}, rxStart) (sendData sentGlobals 1 0 1 1 0)).1
      = [1, 0, 1, 1, 0, 3, 4, 5, 7, 2, 12, 1] ∧
    (receiveDataRun ({}, rxStart) (sendData sentGlobals 1 0 1 1 0)).2.pos = 0 :=
  ⟨rfl, sendData_receiveData_roundtrip sentGlobals {} rxStart 1 0 1 1 0 rfl
    (by decide) (by decide) (by decide) (by decide) (by decide)
    (by decide) (by decide) (by decide) (by decide) (by decide) (by decide) (by decide)⟩

/-! ### Piece engine -/

theorem tetrisShape_center (b : tetrisBlock) : (tetrisShape b).center = b.center := by
  unfold tetrisShape
  cases shapeCase b.type <;> rfl

theorem tetrisShape_type (b : tetrisBlock) : (tetrisShape b).type = b.type := by
  unfold tetrisShape
  cases shapeCase b.type <;> rfl

theorem tetrisShape_color_num (b : tetrisBlock) :
    (tetrisShape b).color_num = b.color_num := by
  unfold tetrisShape
  cases shapeCase b.type <;> rfl

theorem shapeCase_isSome (t : Int) (h0 : 0 ≤ t) (h1 : t ≤ 27) :
    (shapeCase t).isSome = true := by
  interval_cases t <;> rfl

/-- For a type in 0..27 the result of `tetrisShape` is determined by the centre,
the type and the colour of the block. -/
theorem tetrisShape_congr (b b' : tetrisBlock)
    (hc : b'.center = b.center) (ht : b'.type = b.type)
    (hcol : b'.color_num = b.color_num) (h0 : 0 ≤ b.type) (h1 : b.type ≤ 27) :
    tetrisShape b' = tetrisShape b := by
  have hs := shapeCase_isSome b.type h0 h1
  unfold tetrisShape
  rw [ht]
  cases h : shapeCase b.type with
  | none => rw [h] at hs; cases hs
  | some s => simp [hc, hcol]

/-- Recomputing the shape of a well-formed block after its centre was moved and
put back gives the block itself. -/
theorem tetrisShape_restore (b b' : tetrisBlock) (hwf : wellFormed b)
    (hc : b'.center = b.center) (ht : b'.type = b.type)
    (hcol : b'.color_num = b.color_num) : tetrisShape b' = b := by
  rw [tetrisShape_congr b b' hc ht hcol hwf.1 hwf.2.1]
  exact hwf.2.2

theorem getLeft_neg_iff (b : tetrisBlock) :
    getLeft b < 0 ↔
      (b.position0.x < 0 ∨ b.position1.x < 0 ∨ b.position2.x < 0 ∨ b.position3.x < 0) := by
  unfold getLeft
  simp only []
  split_ifs <;> omega

theorem getRight_gt_iff (b : tetrisBlock) :
    getRight b > 9 ↔
      (b.position0.x > 9 ∨ b.position1.x > 9 ∨ b.position2.x > 9 ∨ b.position3.x > 9) := by
  unfold getRight
  simp only []
  split_ifs <;> omega

theorem noCollision_eq_zero_iff (b : tetrisBlock) (map : Grid) :
    noCollision b map = 0 ↔
      (map b.position0.y b.position0.x ≠ 0 ∨ map b.position1.y b.position1.x ≠ 0 ∨
        map b.position2.y b.position2.x ≠ 0 ∨ map b.position3.y b.position3.x ≠ 0) := by
  unfold noCollision
  split_ifs <;> simp_all

theorem noCollision_eq_one_iff (b : tetrisBlock) (map : Grid) :
    noCollision b map = 1 ↔
      (map b.position0.y b.position0.x = 0 ∧ map b.position1.y b.position1.x = 0 ∧
        map b.position2.y b.position2.x = 0 ∧ map b.position3.y b.position3.x = 0) := by
  unfold noCollision
  split_ifs <;> simp_all

theorem moveCenter_type (b : tetrisBlock) (direct : direction) :
    (moveCenter b direct).type = b.type := by
  unfold moveCenter
  cases direct <;> simp only [] <;> split_ifs <;> rfl

theorem moveCenter_color_num (b : tetrisBlock) (direct : direction) :
    (moveCenter b direct).color_num = b.color_num := by
  unfold moveCenter
  cases direct <;> simp only [] <;> split_ifs <;> rfl

/-- The block `tetrisMove` leaves behind on its rejecting path is the original
one when that was well formed. -/
theorem tetrisMove_restored (b : tetrisBlock) (direct : direction) (hwf : wellFormed b) :
    tetrisShape { tetrisShape (moveCenter b direct) with center := b.center } = b := by
  refine tetrisShape_restore b _ hwf ?_ ?_ ?_
  · rfl
  · show (tetrisShape (moveCenter b direct)).type = b.type
    rw [tetrisShape_type, moveCenter_type]
  · show (tetrisShape (moveCenter b direct)).color_num = b.color_num
    rw [tetrisShape_color_num, moveCenter_color_num]

/-- C5: when `tetrisMove` returns 0 on a well-formed block, the block after the
call equals the block before it in every field (centre, four cells, type,
next_type, colour), and the map is unchanged; this holds for every direction
and every map. -/
theorem tetrisMove_rejected_restores (b : tetrisBlock) (direct : direction) (map : Grid)
    (hwf : wellFormed b) (hret : (tetrisMove b direct map).1 = 0) :
    (tetrisMove b direct map).2.1 = b ∧ (tetrisMove b direct map).2.2 = map := by
  unfold tetrisMove at hret ⊢
  by_cases hcol : noCollision (tetrisShape (moveCenter b direct)) map = 0
  · simp only [hcol, if_true]
    exact ⟨tetrisMove_restored b direct hwf, trivial⟩
  · simp [hcol] at hret

/-- The rejection of C5 at a concrete input: `leftWallBlock` cannot go down on
`dotMap`, whose cell in row 2, column 1 is occupied. -/
theorem tetrisMove_rejected_restores_witness :
    wellFormed leftWallBlock ∧ (tetrisMove leftWallBlock direction.down dotMap).1 = 0 ∧
    (tetrisMove leftWallBlock direction.down dotMap).2.1 = leftWallBlock ∧
    (tetrisMove leftWallBlock direction.down dotMap).2.2 = dotMap :=
  ⟨by decide, by decide,
    tetrisMove_rejected_restores leftWallBlock direction.down dotMap (by decide) (by decide)⟩

/-- C6, as stated, fails: `leftWallBlock` is well formed with its leftmost cell
at x = 0, and `tetrisMove` to the left on the empty map returns 1, not 0. -/
theorem tetrisMove_left_wall_returns_one :
    wellFormed leftWallBlock ∧ getLeft leftWallBlock = 0 ∧
    (tetrisMove leftWallBlock direction.left emptyMap).1 = 1 ∧
    (tetrisMove leftWallBlock direction.left emptyMap).1 ≠ 0 := by
  decide

/-- C6, amended: for a well-formed block whose leftmost cell has x = 0,
`tetrisMove` to the left leaves the block and the map unchanged, and returns
the value of `noCollision` for the block where it stands: 0 when one of its
four cells lies on a nonzero cell of the map and 1 otherwise. -/
theorem tetrisMove_left_wall (b : tetrisBlock) (map : Grid)
    (hwf : wellFormed b) (hleft : getLeft b = 0) :
    (tetrisMove b direction.left map).2.1 = b ∧
    (tetrisMove b direction.left map).2.2 = map ∧
    (tetrisMove b direction.left map).1 = noCollision b map ∧
    ((tetrisMove b direction.left map).1 = 0 ↔
      (map b.position0.y b.position0.x ≠ 0 ∨ map b.position1.y b.position1.x ≠ 0 ∨
        map b.position2.y b.position2.x ≠ 0 ∨ map b.position3.y b.position3.x ≠ 0)) ∧
    ((tetrisMove b direction.left map).1 = 1 ↔
      (map b.position0.y b.position0.x = 0 ∧ map b.position1.y b.position1.x = 0 ∧
        map b.position2.y b.position2.x = 0 ∧ map b.position3.y b.position3.x = 0)) := by
  have hmc : moveCenter b direction.left = b := by
    unfold moveCenter
    simp [hleft]
  have hret : (tetrisMove b direction.left map).1 = noCollision b map := by
    unfold tetrisMove
    simp only [hmc, hwf.2.2]
    by_cases hcol : noCollision b map = 0
    · simp [hcol]
    · have h1 : noCollision b map = 1 := by
        unfold noCollision at hcol ⊢
        split_ifs at hcol ⊢ <;> simp_all
      simp [h1]
  refine ⟨?_, ?_, hret, ?_, ?_⟩
  · unfold tetrisMove
    simp only [hmc, hwf.2.2]
    split_ifs <;> rfl
  · unfold tetrisMove
    simp only []
    split_ifs <;> rfl
  · rw [hret, noCollision_eq_zero_iff]
  · rw [hret, noCollision_eq_one_iff]

/-- The amended C6 at a concrete input: `leftWallBlock` on the empty map. -/
theorem tetrisMove_left_wall_witness :
    wellFormed leftWallBlock ∧ getLeft leftWallBlock = 0 ∧
    (tetrisMove leftWallBlock direction.left emptyMap).2.1 = leftWallBlock ∧
    (tetrisMove leftWallBlock direction.left emptyMap).1
      = noCollision leftWallBlock emptyMap :=
  ⟨by decide, by decide,
    (tetrisMove_left_wall leftWallBlock emptyMap (by decide) (by decide)).1,
    (tetrisMove_left_wall leftWallBlock emptyMap (by decide) (by decide)).2.2.1⟩

/-- C7: on a well-formed block `tetrisRotate` never changes the centre or the
colour. With `r` the shape recomputed for the successor type, the rotation is
rejected, leaving the block equal to its value before the call, exactly when
`r` has a cell with x < 0 or x > 9 or a cell on a nonzero cell of the map;
otherwise the block becomes `r`, whose type is the old successor type. -/
theorem tetrisRotate_all_or_nothing (b : tetrisBlock) (map : Grid) (hwf : wellFormed b) :
    (tetrisRotate b map).center = b.center ∧
    (tetrisRotate b map).color_num = b.color_num ∧
    (rotationBlocked (tetrisShape { b with type := b.next_type }) map →
      tetrisRotate b map = b) ∧
    (¬ rotationBlocked (tetrisShape { b with type := b.next_type }) map →
      tetrisRotate b map = tetrisShape { b with type := b.next_type } ∧
      (tetrisRotate b map).type = b.next_type) := by
  have hcond : (getLeft (tetrisShape { b with type := b.next_type }) < 0 ∨
      getRight (tetrisShape { b with type := b.next_type }) > 9 ∨
      noCollision (tetrisShape { b with type := b.next_type }) map = 0) ↔
      rotationBlocked (tetrisShape { b with type := b.next_type }) map := by
    unfold rotationBlocked
    rw [getLeft_neg_iff, getRight_gt_iff, noCollision_eq_zero_iff]
  have hback : tetrisShape { tetrisShape { b with type := b.next_type } with type := b.type }
      = b := by
    refine tetrisShape_restore b _ hwf ?_ rfl ?_
    · show (tetrisShape { b with type := b.next_type }).center = b.center
      rw [tetrisShape_center]
    · show (tetrisShape { b with type := b.next_type }).color_num = b.color_num
      rw [tetrisShape_color_num]
  have hrej : rotationBlocked (tetrisShape { b with type := b.next_type }) map →
      tetrisRotate b map = b := by
    intro h
    unfold tetrisRotate
    simp only []
    rw [if_pos (hcond.mpr h)]
    exact hback
  have hacc : ¬ rotationBlocked (tetrisShape { b with type := b.next_type }) map →
      tetrisRotate b map = tetrisShape { b with type := b.next_type } := by
    intro h
    unfold tetrisRotate
    simp only []
    rw [if_neg (fun hc => h (hcond.mp hc))]
  by_cases h : rotationBlocked (tetrisShape { b with type := b.next_type }) map
  · refine ⟨?_, ?_, hrej, fun hn => absurd h hn⟩
    · rw [hrej h]
    · rw [hrej h]
  · refine ⟨?_, ?_, hrej, fun _ => ⟨hacc h, ?_⟩⟩
    · rw [hacc h, tetrisShape_center]
    · rw [hacc h, tetrisShape_color_num]
    · rw [hacc h, tetrisShape_type]

/-- C7 at a concrete input: `midBlock` on the empty map is rotated to type 1
with cells (4,4), (3,5), (4,5), (3,6), its centre and colour unchanged. -/
theorem tetrisRotate_all_or_nothing_witness :
    wellFormed midBlock ∧
    (tetrisRotate midBlock emptyMap).center = midBlock.center ∧
    (tetrisRotate midBlock emptyMap).color_num = midBlock.color_num ∧
    tetrisRotate midBlock emptyMap =
      { center := { x := 4, y := 5 }
        position0 := { x := 4, y := 4 }
        position1 := { x := 3, y := 5 }
        position2 := { x := 4, y := 5 }
        position3 := { x := 3, y := 6 }
        type := 1, next_type := 0, color_num := 2 } :=
  ⟨by decide, (tetrisRotate_all_or_nothing midBlock emptyMap (by decide)).1,
    (tetrisRotate_all_or_nothing midBlock emptyMap (by decide)).2.1, by decide⟩

/-! ### Score, lines and level -/

theorem lineClearUpdate_zero (outside : Int → Int → Int) (g : Globals) :
    lineClearUpdate outside g 0 = g := by
  simp [lineClearUpdate]

theorem lineClearUpdate_lin (outside : Int → Int → Int) (g : Globals) (n : Int) :
    (lineClearUpdate outside g n).lin = g.lin + n := by
  unfold lineClearUpdate
  by_cases hn : n = 0
  · simp [hn]
  · simp only [ne_eq, hn, not_false_eq_true, if_true]
    split_ifs <;> rfl

theorem lineClearUpdate_lvl (outside : Int → Int → Int) (g : Globals) (n : Int)
    (hn : n ≠ 0) :
    (lineClearUpdate outside g n).lvl = min 3 (g.lvl + Int.tdiv (g.lin + n) 5) := by
  unfold lineClearUpdate
  simp only [ne_eq, hn, not_false_eq_true, if_true]
  split_ifs with h
  · show (3 : Int) = min 3 (g.lvl + Int.tdiv (g.lin + n) 5)
    have h' : g.lvl + Int.tdiv (g.lin + n) 5 > 3 := h
    omega
  · show g.lvl + Int.tdiv (g.lin + n) 5 = min 3 (g.lvl + Int.tdiv (g.lin + n) 5)
    have h' : ¬ g.lvl + Int.tdiv (g.lin + n) 5 > 3 := h
    omega

theorem adjustLevel_lvl_range (g : Globals) (privateButton : button)
    (h : 0 ≤ g.lvl ∧ g.lvl ≤ 3) :
    0 ≤ (adjustLevel g privateButton).lvl ∧ (adjustLevel g privateButton).lvl ≤ 3 := by
  unfold adjustLevel
  split_ifs with h1 h2
  · show 0 ≤ g.lvl + 1 ∧ g.lvl + 1 ≤ 3
    omega
  · show 0 ≤ g.lvl - 1 ∧ g.lvl - 1 ≤ 3
    omega
  · exact h

theorem getState_lvl_range (g : Globals) (state : currentState) (privateButton : button)
    (h : 0 ≤ g.lvl ∧ g.lvl ≤ 3) :
    0 ≤ (getState g state privateButton).2.lvl ∧
      (getState g state privateButton).2.lvl ≤ 3 := by
  have hadj := adjustLevel_lvl_range g privateButton h
  have hinit : 0 ≤ (systemInit g).lvl ∧ (systemInit g).lvl ≤ 3 := by
    simp [systemInit]
  cases state <;> cases privateButton <;> simp only [getState] <;> split_ifs <;>
    first
      | exact h
      | exact hadj
      | exact hinit

theorem lineClearUpdate_lvl_range (outside : Int → Int → Int) (g : Globals) (n : Int)
    (h : 0 ≤ g.lvl ∧ g.lvl ≤ 3) (hlin : 0 ≤ g.lin) (hn : 0 ≤ n) :
    g.lvl ≤ (lineClearUpdate outside g n).lvl ∧ (lineClearUpdate outside g n).lvl ≤ 3 := by
  by_cases h0 : n = 0
  · subst h0
    rw [lineClearUpdate_zero]
    omega
  · rw [lineClearUpdate_lvl outside g n h0, Int.tdiv_eq_ediv (by omega) (by omega)]
    omega

/-- C9: a level in 0..3 stays in 0..3 across `getState`, for every state, button
and value of the other globals (mode, connected, isGameOver included), and
across the line-clear bookkeeping for every number n >= 0 of cleared lines
(the cumulative count `lin` being >= 0 and staying so); hence for 1 <= n <= 4
the read `score_add[n-1][lvl]` is inside the 4x4 table. -/
theorem lvl_range_invariant (outside : Int → Int → Int) (g : Globals)
    (state : currentState) (privateButton : button) (n : Int)
    (h : 0 ≤ g.lvl ∧ g.lvl ≤ 3) :
    (0 ≤ (getState g state privateButton).2.lvl ∧
      (getState g state privateButton).2.lvl ≤ 3) ∧
    (0 ≤ g.lin → 0 ≤ n →
      0 ≤ (lineClearUpdate outside g n).lvl ∧ (lineClearUpdate outside g n).lvl ≤ 3 ∧
      0 ≤ (lineClearUpdate outside g n).lin) ∧
    (1 ≤ n → n ≤ 4 → scoreIndexInside (n - 1) g.lvl) := by
  refine ⟨getState_lvl_range g state privateButton h, ?_, ?_⟩
  · intro hlin hn
    have := lineClearUpdate_lvl_range outside g n h hlin hn
    rw [lineClearUpdate_lin]
    omega
  · intro h1 h4
    unfold scoreIndexInside maxLineDisappear levelNum
    omega

/-- C9 at a concrete input: level 3 in the menu with button B, and a round that
clears 4 lines at level 3 with 11 lines already counted. -/
theorem lvl_range_invariant_witness :
    (0 ≤ (getState { lvl := 3, lin := 11 } currentState.gameMenu button.B).2.lvl ∧
      (getState { lvl := 3, lin := 11 } currentState.gameMenu button.B).2.lvl ≤ 3) ∧
    (0 ≤ (lineClearUpdate zeroOutside { lvl := 3, lin := 11 } 4).lvl ∧
      (lineClearUpdate zeroOutside { lvl := 3, lin := 11 } 4).lvl ≤ 3 ∧
      0 ≤ (lineClearUpdate zeroOutside { lvl := 3, lin := 11 } 4).lin) ∧
    scoreIndexInside (4 - 1) 3 :=
  ⟨(lvl_range_invariant zeroOutside { lvl := 3, lin := 11 } currentState.gameMenu
      button.B 4 (by decide)).1,
    (lvl_range_invariant zeroOutside { lvl := 3, lin := 11 } currentState.gameMenu
      button.B 4 (by decide)).2.1 (by decide) (by decide),
    (lvl_range_invariant zeroOutside { lvl := 3, lin := 11 } currentState.gameMenu
      button.B 4 (by decide)).2.2 (by decide) (by decide)⟩

/-- C10: for every level in 0..3, every cumulative line count >= 0 and every
number n >= 0 of lines cleared in a round, the level after the score and level
bookkeeping of the round is at least the level before it. -/
theorem lvl_never_decreases (outside : Int → Int → Int) (g : Globals) (n : Int)
    (h : 0 ≤ g.lvl ∧ g.lvl ≤ 3) (hlin : 0 ≤ g.lin) (hn : 0 ≤ n) :
    g.lvl ≤ (lineClearUpdate outside g n).lvl :=
  (lineClearUpdate_lvl_range outside g n h hlin hn).1

/-- C10 at a concrete input: at level 1 with 4 lines counted, a round clearing
2 lines does not lower the level. -/
theorem lvl_never_decreases_witness :
    (1 : Int) ≤ (lineClearUpdate zeroOutside { lvl := 1, lin := 4 } 2).lvl :=
  lvl_never_decreases zeroOutside { lvl := 1, lin := 4 } 2 (by decide) (by decide)
    (by decide)

/-! ### Line clearing -/

theorem isLineFull_ne_zero_iff (map : Grid) (row : Int) :
    isLineFull map row ≠ 0 ↔ rowFull map row := by
  unfold isLineFull rowFull
  constructor
  · intro h c hc0 hc1
    split_ifs at h with hall
    · rw [List.all_eq_true] at hall
      have := hall c.toNat (List.mem_range.mpr (by omega))
      rw [Int.toNat_of_nonneg hc0] at this
      simpa using this
    · exact absurd rfl h
  · intro h
    rw [if_pos]
    · decide
    · rw [List.all_eq_true]
      intro x hx
      have hx' := List.mem_range.mp hx
      simpa using h x (by omega) (by omega)

theorem mem_range_ten_iff (c : Int) :
    (∃ col ∈ List.range 10, c = (col : Int)) ↔ 0 ≤ c ∧ c < 10 := by
  constructor
  · rintro ⟨col, hcol, rfl⟩
    have := List.mem_range.mp hcol
    omega
  · rintro ⟨h0, h1⟩
    exact ⟨c.toNat, List.mem_range.mpr (by omega), by omega⟩

theorem zeroFold_apply (row r c : Int) (cols : List Nat) (map : Grid) :
    cols.foldl (fun m (col : Nat) => setCell m row (col : Int) 0) map r c
      = if r = row ∧ ∃ col ∈ cols, c = (col : Int) then 0 else map r c := by
  induction cols generalizing map with
  | nil => simp
  | cons a t ih =>
    rw [List.foldl_cons, ih]
    unfold setCell
    by_cases hr : r = row
    · by_cases ha : c = (a : Int)
      · simp [hr, ha]
      · simp [hr, ha]
    · simp [hr]

theorem zeroLine_apply (map : Grid) (row r c : Int) :
    zeroLine map row r c = if r = row ∧ 0 ≤ c ∧ c < 10 then 0 else map r c := by
  unfold zeroLine
  rw [zeroFold_apply]
  simp only [mem_range_ten_iff]

theorem copyFold_apply (row r c : Int) (cols : List Nat) (map : Grid) :
    cols.foldl (fun m (col : Nat) => setCell m row (col : Int) (m (row - 1) (col : Int))) map r c
      = if r = row ∧ ∃ col ∈ cols, c = (col : Int) then map (row - 1) c else map r c := by
  induction cols generalizing map with
  | nil => simp
  | cons a t ih =>
    rw [List.foldl_cons, ih]
    unfold setCell
    have hne : ¬ (row - 1 = row) := by omega
    by_cases hr : r = row
    · by_cases ha : c = (a : Int)
      · simp [hr, ha, hne]
      · simp [hr, ha, hne]
    · simp [hr, hne]

theorem copyLine_apply (map : Grid) (row r c : Int) :
    copyLine map row r c = if r = row ∧ 0 ≤ c ∧ c < 10 then map (row - 1) c else map r c := by
  unfold copyLine
  rw [copyFold_apply]
  simp only [mem_range_ten_iff]

theorem shiftLoop_apply (e : Nat) (map : Grid) (r c : Int) :
    shiftLoop e map r c
      = if 1 ≤ r ∧ r ≤ (e : Int) ∧ 0 ≤ c ∧ c < 10 then map (r - 1) c else map r c := by
  induction e generalizing map with
  | zero =>
    simp only [shiftLoop]
    rw [if_neg]
    push_cast
    omega
  | succ n ih =>
    simp only [shiftLoop]
    rw [ih]
    simp only [copyLine_apply]
    push_cast
    split_ifs <;> first | rfl | omega | (congr 1; omega)

theorem rowFull_congr (map map' : Grid) (row : Int)
    (h : ∀ c, map' row c = map row c) : rowFull map' row ↔ rowFull map row := by
  unfold rowFull
  simp only [h]

theorem fullRowsBelow_congr (map map' : Grid) (n : Nat)
    (h : ∀ r : Int, r < n → ∀ c, map' r c = map r c) :
    fullRowsBelow map' n = fullRowsBelow map n := by
  induction n with
  | zero => rfl
  | succ k ih =>
    have hk : fullRowsBelow map' k = fullRowsBelow map k :=
      ih (fun r hr c => h r (by push_cast; omega) c)
    have hrow : rowFull map' (k : Int) ↔ rowFull map (k : Int) :=
      rowFull_congr map map' k (fun c => h k (by push_cast; omega) c)
    simp only [fullRowsBelow, hk, hrow]

theorem fullRowsBelow_getD (map : Grid) (n k : Nat)
    (hk : k < (fullRowsBelow map n).length) :
    0 ≤ (fullRowsBelow map n).getD k 0 ∧ (fullRowsBelow map n).getD k 0 < n ∧
      rowFull map ((fullRowsBelow map n).getD k 0) := by
  induction n generalizing k with
  | zero => simp [fullRowsBelow] at hk
  | succ m ih =>
    simp only [fullRowsBelow] at hk ⊢
    split_ifs at hk ⊢ with hfull
    · cases k with
      | zero =>
        simp only [List.getD_cons_zero]
        exact ⟨by omega, by push_cast; omega, hfull⟩
      | succ j =>
        simp only [List.getD_cons_succ]
        have := ih j (by simpa using hk)
        exact ⟨this.1, by push_cast; omega, this.2.2⟩
    · have := ih k hk
      exact ⟨this.1, by push_cast; omega, this.2.2⟩

theorem fullRowsBelow_strict (map : Grid) (n i j : Nat) (hij : i < j)
    (hj : j < (fullRowsBelow map n).length) :
    (fullRowsBelow map n).getD j 0 < (fullRowsBelow map n).getD i 0 := by
  induction n generalizing i j with
  | zero => simp [fullRowsBelow] at hj
  | succ m ih =>
    simp only [fullRowsBelow] at hj ⊢
    split_ifs at hj ⊢ with hfull
    · cases j with
      | zero => omega
      | succ j' =>
        have hj' : j' < (fullRowsBelow map m).length := by simpa using hj
        cases i with
        | zero =>
          simp only [List.getD_cons_zero, List.getD_cons_succ]
          exact (fullRowsBelow_getD map m j' hj').2.1
        | succ i' =>
          simp only [List.getD_cons_succ]
          exact ih i' j' (by omega) hj'
    · exact ih i j hij hj

theorem fullRowsBelow_exists (map : Grid) (n r : Nat) (hr : r < n)
    (hfull : rowFull map (r : Int)) :
    ∃ k, k < (fullRowsBelow map n).length ∧ (fullRowsBelow map n).getD k 0 = (r : Int) := by
  induction n with
  | zero => omega
  | succ m ih =>
    simp only [fullRowsBelow]
    by_cases hm : r = m
    · subst hm
      rw [if_pos hfull]
      exact ⟨0, by simp, by simp⟩
    · obtain ⟨k, hk, hget⟩ := ih (by omega)
      split_ifs
      · exact ⟨k + 1, by simpa using hk, by simpa using hget⟩
      · exact ⟨k, hk, hget⟩

theorem fullRowsBelow_length (map : Grid) (n : Nat) :
    (fullRowsBelow map n).length
      = ((List.range n).filter (fun (r : Nat) => decide (rowFull map (r : Int)))).length := by
  induction n with
  | zero => rfl
  | succ m ih =>
    rw [List.range_succ, List.filter_append, List.length_append, ← ih]
    simp only [fullRowsBelow]
    by_cases hfull : rowFull map (m : Int)
    · simp [hfull]
    · simp [hfull]

theorem checkFullLineLoop_spec (n : Nat) (s : LineScan) :
    (checkFullLineLoop n s).num = s.num + (fullRowsBelow s.map n).length ∧
    (∀ i, i ≤ s.num → (checkFullLineLoop n s).fullLineNumber i = s.fullLineNumber i) ∧
    (∀ k : Nat, k < (fullRowsBelow s.map n).length →
      (checkFullLineLoop n s).fullLineNumber (s.num + 1 + k)
        = (fullRowsBelow s.map n).getD k 0) ∧
    (∀ r c, (checkFullLineLoop n s).map r c
      = if 0 ≤ r ∧ r < n ∧ rowFull s.map r ∧ 0 ≤ c ∧ c < 10 then 0 else s.map r c) := by
  induction n generalizing s with
  | zero =>
    refine ⟨by simp [checkFullLineLoop, fullRowsBelow], fun i _ => rfl, ?_, ?_⟩
    · intro k hk
      simp [fullRowsBelow] at hk
    · intro r c
      simp only [checkFullLineLoop]
      rw [if_neg]
      push_cast
      omega
  | succ m ih =>
    simp only [checkFullLineLoop]
    by_cases hfull : rowFull s.map (m : Int)
    · have hrow : checkFullLineRow s (m : Int) =
          { num := s.num + 1
            fullLineNumber := fun i => if i = s.num + 1 then (m : Int) else s.fullLineNumber i
            map := zeroLine s.map (m : Int) } := by
        unfold checkFullLineRow
        rw [if_pos ((isLineFull_ne_zero_iff _ _).mpr hfull)]
      rw [hrow]
      have hL : fullRowsBelow (zeroLine s.map (m : Int)) m = fullRowsBelow s.map m :=
        fullRowsBelow_congr _ _ m (fun r hr c => by
          rw [zeroLine_apply, if_neg]
          omega)
      obtain ⟨h1, h2, h3, h4⟩ := ih
        { num := s.num + 1
          fullLineNumber := fun i => if i = s.num + 1 then (m : Int) else s.fullLineNumber i
          map := zeroLine s.map (m : Int) }
      dsimp only at h1 h2 h3 h4
      simp only [hL] at h1 h3
      have hcons : fullRowsBelow s.map (m + 1) = (m : Int) :: fullRowsBelow s.map m := by
        simp only [fullRowsBelow, if_pos hfull]
      rw [hcons]
      refine ⟨?_, ?_, ?_, ?_⟩
      · rw [h1, List.length_cons]
        push_cast
        omega
      · intro i hi
        rw [h2 i (by omega), if_neg (by omega)]
      · intro k hk
        cases k with
        | zero =>
          rw [h2 _ (by push_cast; omega)]
          simp
        | succ j =>
          have := h3 j (by simpa using hk)
          rw [List.getD_cons_succ, ← this]
          congr 1
          push_cast
          omega
      · intro r c
        rw [h4]
        by_cases hrm : r = (m : Int)
        · subst hrm
          by_cases hc : 0 ≤ c ∧ c < 10
          · simp [zeroLine_apply, hfull, hc]
          · simp [zeroLine_apply, hc]
        · have hrf : rowFull (zeroLine s.map (m : Int)) r ↔ rowFull s.map r :=
            rowFull_congr _ _ r (fun c => by rw [zeroLine_apply, if_neg]; omega)
          have hlt : r < ((m + 1 : Nat) : Int) ↔ r < (m : Int) := by
            push_cast
            omega
          simp only [hrf, zeroLine_apply, hrm, false_and, if_false, hlt]
    · have hrow : checkFullLineRow s (m : Int) = s := by
        unfold checkFullLineRow
        rw [if_neg (fun h => hfull ((isLineFull_ne_zero_iff _ _).mp h))]
      rw [hrow]
      obtain ⟨h1, h2, h3, h4⟩ := ih s
      have hcons : fullRowsBelow s.map (m + 1) = fullRowsBelow s.map m := by
        simp only [fullRowsBelow, if_neg hfull]
      rw [hcons]
      refine ⟨h1, h2, h3, ?_⟩
      intro r c
      rw [h4]
      by_cases hrm : r = (m : Int)
      · subst hrm
        simp [hfull]
      · have hlt : r < ((m + 1 : Nat) : Int) ↔ r < (m : Int) := by
          push_cast
          omega
        simp only [hlt]

theorem fullRowsBelow_skip (map : Grid) (a n : Nat) (han : a ≤ n)
    (h : ∀ r : Nat, a ≤ r → r < n → ¬ rowFull map (r : Int)) :
    fullRowsBelow map n = fullRowsBelow map a := by
  induction n with
  | zero =>
    have : a = 0 := by omega
    rw [this]
  | succ m ih =>
    by_cases ham : a = m + 1
    · rw [ham]
    · simp only [fullRowsBelow]
      rw [if_neg (h m (by omega) (by omega))]
      exact ih (by omega) (fun r h1 h2 => h r h1 (by omega))

/-- The scan of `checkFullLine` over the whole map. -/
theorem checkFullLine_spec (fullLineNumber : Int → Int) (map : Grid) :
    (checkFullLine fullLineNumber map).num = (fullRowsBelow map 20).length ∧
    (∀ k : Nat, k < (fullRowsBelow map 20).length →
      (checkFullLine fullLineNumber map).fullLineNumber (1 + (k : Int))
        = (fullRowsBelow map 20).getD k 0) ∧
    (∀ r c, (checkFullLine fullLineNumber map).map r c
      = if 0 ≤ r ∧ r < 20 ∧ rowFull map r ∧ 0 ≤ c ∧ c < 10 then 0 else map r c) := by
  obtain ⟨h1, _, h3, h4⟩ := checkFullLineLoop_spec 20
    { num := 0, fullLineNumber := fullLineNumber, map := map }
  dsimp only at h1 h3 h4
  unfold checkFullLine
  refine ⟨by rw [h1]; omega, ?_, ?_⟩
  · intro k hk
    have := h3 k hk
    have e : (0 : Int) + 1 + (k : Int) = 1 + (k : Int) := by omega
    rw [e] at this
    exact this
  · intro r c
    rw [h4]
    simp only [Nat.cast_ofNat]

/-- C4: on a 20x10 map with at most 4 full rows, `checkFullLine` returns the
number of rows whose 10 cells are all nonzero, sets every cell of exactly those
rows to 0 and leaves every other cell unchanged, and records exactly the
indices of those rows in `fullLineNumber[1..count]`: every recorded slot is one
of the slots 1..4 and holds a full row in 0..19, every full row is recorded, and
no row is recorded twice. -/
theorem checkFullLine_detects_full_rows (fullLineNumber : Int → Int) (map : Grid)
    (hfour : fullRowCount map ≤ 4) :
    (checkFullLine fullLineNumber map).num = fullRowCount map ∧
    (∀ r c, (checkFullLine fullLineNumber map).map r c
      = if 0 ≤ r ∧ r < 20 ∧ rowFull map r ∧ 0 ≤ c ∧ c < 10 then 0 else map r c) ∧
    (∀ i, 1 ≤ i → i ≤ (checkFullLine fullLineNumber map).num →
      i ≤ 4 ∧ 0 ≤ (checkFullLine fullLineNumber map).fullLineNumber i ∧
      (checkFullLine fullLineNumber map).fullLineNumber i < 20 ∧
      rowFull map ((checkFullLine fullLineNumber map).fullLineNumber i)) ∧
    (∀ r, 0 ≤ r → r < 20 → rowFull map r →
      ∃ i, 1 ≤ i ∧ i ≤ (checkFullLine fullLineNumber map).num ∧
        (checkFullLine fullLineNumber map).fullLineNumber i = r) ∧
    (∀ i j, 1 ≤ i → i ≤ (checkFullLine fullLineNumber map).num →
      1 ≤ j → j ≤ (checkFullLine fullLineNumber map).num →
      (checkFullLine fullLineNumber map).fullLineNumber i
        = (checkFullLine fullLineNumber map).fullLineNumber j → i = j) := by
  obtain ⟨hnum, hfln, hmap⟩ := checkFullLine_spec fullLineNumber map
  have hlen : (fullRowsBelow map 20).length = fullRowCount map := by
    rw [fullRowsBelow_length]
    rfl
  have hidx : ∀ i : Int, 1 ≤ i → i ≤ (checkFullLine fullLineNumber map).num →
      ∃ k : Nat, k < (fullRowsBelow map 20).length ∧ i = 1 + (k : Int) ∧
        (checkFullLine fullLineNumber map).fullLineNumber i
          = (fullRowsBelow map 20).getD k 0 := by
    intro i h1 h2
    refine ⟨(i - 1).toNat, by omega, by omega, ?_⟩
    have := hfln (i - 1).toNat (by omega)
    have e : 1 + (((i - 1).toNat : Nat) : Int) = i := by omega
    rw [e] at this
    exact this
  refine ⟨by rw [hnum, hlen], hmap, ?_, ?_, ?_⟩
  · intro i h1 h2
    obtain ⟨k, hk, hik, hget⟩ := hidx i h1 h2
    have := fullRowsBelow_getD map 20 k hk
    rw [hget]
    exact ⟨by omega, this.1, by simpa using this.2.1, this.2.2⟩
  · intro r h0 h20 hfull
    lift r to ℕ using h0
    obtain ⟨k, hk, hget⟩ := fullRowsBelow_exists map 20 r (by omega) hfull
    exact ⟨1 + (k : Int), by omega, by omega, by rw [hfln k hk, hget]⟩
  · intro i j hi1 hi2 hj1 hj2 heq
    obtain ⟨k, hk, hik, hgetk⟩ := hidx i hi1 hi2
    obtain ⟨l, hl, hjl, hgetl⟩ := hidx j hj1 hj2
    rw [hgetk, hgetl] at heq
    rcases Nat.lt_trichotomy k l with h | h | h
    · have := fullRowsBelow_strict map 20 k l h hl
      omega
    · omega
    · have := fullRowsBelow_strict map 20 l k h hk
      omega


/-- C4 at a concrete input: on `lineMap`, whose full rows are 3 and 7,
`checkFullLine` returns 2 and records row 7 in slot 1 and row 3 in slot 2. -/
theorem checkFullLine_detects_full_rows_witness :
    fullRowCount lineMap ≤ 4 ∧
    (checkFullLine zeroLines lineMap).num = fullRowCount lineMap ∧
    (checkFullLine zeroLines lineMap).num = 2 ∧
    (checkFullLine zeroLines lineMap).fullLineNumber 1 = 7 ∧
    (checkFullLine zeroLines lineMap).fullLineNumber 2 = 3 :=
  ⟨by decide, (checkFullLine_detects_full_rows zeroLines lineMap (by decide)).1,
    by decide, by decide, by decide⟩

theorem letLineDisappear_two (fullLineNumber : Int → Int) (map : Grid) (a b : Nat)
    (h2 : fullLineNumber 2 = (a : Int)) (h1 : fullLineNumber 1 = (b : Int)) :
    letLineDisappear fullLineNumber 2 map = shiftLoop b (shiftLoop a map) := by
  have e2 : ((1 : Nat) : Int) + 1 = 2 := by norm_num
  have e1 : ((0 : Nat) : Int) + 1 = 1 := by norm_num
  have t : (2 : Int).toNat = 2 := rfl
  unfold letLineDisappear
  rw [t]
  simp only [letLineDisappearLoop, e1, e2, h1, h2, Int.toNat_ofNat]

theorem fullRowsBelow_two (map : Grid) (r1 r2 : Nat) (h12 : r1 < r2) (h20 : r2 < 20)
    (hf1 : rowFull map (r1 : Int)) (hf2 : rowFull map (r2 : Int))
    (hother : ∀ r : Nat, r < 20 → r ≠ r1 → r ≠ r2 → ¬ rowFull map (r : Int)) :
    fullRowsBelow map 20 = [(r2 : Int), (r1 : Int)] := by
  rw [fullRowsBelow_skip map (r2 + 1) 20 (by omega)
    (fun r h1 h2 => hother r h2 (by omega) (by omega))]
  simp only [fullRowsBelow, if_pos hf2]
  rw [fullRowsBelow_skip map (r1 + 1) r2 (by omega)
    (fun r h1 h2 => hother r (by omega) (by omega) (by omega))]
  simp only [fullRowsBelow, if_pos hf1]
  rw [fullRowsBelow_skip map 0 r1 (by omega)
    (fun r h1 h2 => hother r (by omega) (by omega) (by omega))]
  rfl

/-- C3, amended: on a 20x10 map with exactly two full rows r1 < r2,
`checkFullLine` returns 2 and zeroes rows r1 and r2; after `letLineDisappear` on
the recorded rows every original row above r1 sits two rows lower, every
original row strictly between r1 and r2 sits one row lower, and the rows below
r2 are unchanged; each of the two topmost rows holds what row 0 held before the
call, or zeros when row 0 is itself the full row r1. -/
theorem line_clear_two_full_rows (fullLineNumber : Int → Int) (map : Grid) (r1 r2 : Int)
    (h0 : 0 ≤ r1) (h12 : r1 < r2) (h20 : r2 < 20)
    (hf1 : rowFull map r1) (hf2 : rowFull map r2)
    (hother : ∀ r, 0 ≤ r → r < 20 → r ≠ r1 → r ≠ r2 → ¬ rowFull map r) :
    (checkFullLine fullLineNumber map).num = 2 ∧
    (∀ c, 0 ≤ c → c < 10 →
      (checkFullLine fullLineNumber map).map r1 c = 0 ∧
      (checkFullLine fullLineNumber map).map r2 c = 0) ∧
    (∀ r c, 0 ≤ r → r < r1 → 0 ≤ c → c < 10 →
      letLineDisappear (checkFullLine fullLineNumber map).fullLineNumber
        (checkFullLine fullLineNumber map).num (checkFullLine fullLineNumber map).map
        (r + 2) c = map r c) ∧
    (∀ r c, r1 < r → r < r2 → 0 ≤ c → c < 10 →
      letLineDisappear (checkFullLine fullLineNumber map).fullLineNumber
        (checkFullLine fullLineNumber map).num (checkFullLine fullLineNumber map).map
        (r + 1) c = map r c) ∧
    (∀ r c, r2 < r → r < 20 → 0 ≤ c → c < 10 →
      letLineDisappear (checkFullLine fullLineNumber map).fullLineNumber
        (checkFullLine fullLineNumber map).num (checkFullLine fullLineNumber map).map
        r c = map r c) ∧
    (∀ c, 0 ≤ c → c < 10 →
      letLineDisappear (checkFullLine fullLineNumber map).fullLineNumber
        (checkFullLine fullLineNumber map).num (checkFullLine fullLineNumber map).map
        0 c = (if r1 = 0 then 0 else map 0 c) ∧
      letLineDisappear (checkFullLine fullLineNumber map).fullLineNumber
        (checkFullLine fullLineNumber map).num (checkFullLine fullLineNumber map).map
        1 c = (if r1 = 0 then 0 else map 0 c)) := by
  have h0' : 0 ≤ r2 := by omega
  lift r1 to ℕ using h0
  lift r2 to ℕ using h0'
  have hL : fullRowsBelow map 20 = [(r2 : Int), (r1 : Int)] :=
    fullRowsBelow_two map r1 r2 (by omega) (by omega) hf1 hf2
      (fun r h1 h2 h3 => hother r (by omega) (by omega) (by omega) (by omega))
  obtain ⟨hnum, hfln, hmap⟩ := checkFullLine_spec fullLineNumber map
  rw [hL] at hnum hfln
  have hnum2 : (checkFullLine fullLineNumber map).num = 2 := by
    rw [hnum]
    rfl
  have hs1 : (checkFullLine fullLineNumber map).fullLineNumber 1 = (r2 : Int) := by
    have := hfln 0 (by simp)
    simpa using this
  have hs2 : (checkFullLine fullLineNumber map).fullLineNumber 2 = (r1 : Int) := by
    have := hfln 1 (by simp)
    simpa using this
  have hfull : ∀ r : Int, 0 ≤ r → r < 20 → (rowFull map r ↔ r = r1 ∨ r = r2) := by
    intro r hr0 hr20
    constructor
    · intro hf
      by_contra hne
      push_neg at hne
      exact hother r hr0 hr20 hne.1 hne.2 hf
    · rintro (h | h)
      · rw [h]; exact hf1
      · rw [h]; exact hf2
  have hz : ∀ r c : Int, 0 ≤ c → c < 10 → (checkFullLine fullLineNumber map).map r c
      = if r = r1 ∨ r = r2 then 0 else map r c := by
    intro r c hc0 hc1
    rw [hmap]
    by_cases hr : 0 ≤ r ∧ r < 20
    · simp only [hr.1, hr.2, hfull r hr.1 hr.2, hc0, hc1, true_and, and_true]
    · rw [if_neg (fun h => hr ⟨h.1, h.2.1⟩), if_neg (by omega)]
  have hfinal : ∀ r c : Int, 0 ≤ c → c < 10 →
      letLineDisappear (checkFullLine fullLineNumber map).fullLineNumber
        (checkFullLine fullLineNumber map).num (checkFullLine fullLineNumber map).map r c
      = if 1 ≤ r ∧ r ≤ r2 then
          (if 2 ≤ r ∧ r ≤ (r1 : Int) + 1 then
            (if r - 2 = r1 ∨ r - 2 = r2 then 0 else map (r - 2) c)
          else (if r - 1 = r1 ∨ r - 1 = r2 then 0 else map (r - 1) c))
        else
          (if 1 ≤ r ∧ r ≤ r1 then
            (if r - 1 = r1 ∨ r - 1 = r2 then 0 else map (r - 1) c)
          else (if r = r1 ∨ r = r2 then 0 else map r c)) := by
    intro r c hc0 hc1
    rw [hnum2, letLineDisappear_two _ _ r1 r2 hs2 hs1]
    simp only [shiftLoop_apply, hc0, hc1, and_true]
    have e : r - 1 - 1 = r - 2 := by omega
    have e1 : (1 ≤ r - 1 ∧ r - 1 ≤ (r1 : Int)) ↔ (2 ≤ r ∧ r ≤ (r1 : Int) + 1) := by omega
    simp only [e, e1, hz _ _ hc0 hc1]
  refine ⟨hnum2, ?_, ?_, ?_, ?_, ?_⟩
  · intro c hc0 hc1
    rw [hz _ _ hc0 hc1, hz _ _ hc0 hc1]
    simp
  · intro r c hr0 hr1 hc0 hc1
    rw [hfinal _ _ hc0 hc1]
    have e : r + 2 - 2 = r := by omega
    rw [if_pos (by omega), if_pos (by omega), e, if_neg (by omega)]
  · intro r c hr1 hr2 hc0 hc1
    rw [hfinal _ _ hc0 hc1]
    have e : r + 1 - 1 = r := by omega
    rw [if_pos (by omega), if_neg (by omega), e, if_neg (by omega)]
  · intro r c hr1 hr2 hc0 hc1
    rw [hfinal _ _ hc0 hc1]
    rw [if_neg (by omega), if_neg (by omega), if_neg (by omega)]
  · intro c hc0 hc1
    rw [hfinal _ _ hc0 hc1, hfinal _ _ hc0 hc1]
    constructor
    · rw [if_neg (by omega), if_neg (by omega)]
      by_cases h : (r1 : Int) = 0
      · rw [if_pos (by omega), if_pos h]
      · rw [if_neg (by omega), if_neg h]
    · rw [if_pos (by omega), if_neg (by omega)]
      by_cases h : (r1 : Int) = 0
      · rw [if_pos (by omega), if_pos h]
      · rw [if_neg (by omega), if_neg h]
        norm_num

/-- C3, as stated, fails: `lineMap` has exactly the two full rows 3 and 7 and an
occupied cell (value 3) in row 0, column 0; after `checkFullLine` and
`letLineDisappear` the two topmost rows are not empty: both hold the value 3 in
column 0. -/
theorem top_rows_not_empty :
    rowFull lineMap 3 ∧ rowFull lineMap 7 ∧
    (∀ r : Nat, r < 20 → (r : Int) ≠ 3 → (r : Int) ≠ 7 → ¬ rowFull lineMap (r : Int)) ∧
    letLineDisappear (checkFullLine zeroLines lineMap).fullLineNumber
      (checkFullLine zeroLines lineMap).num (checkFullLine zeroLines lineMap).map 0 0 = 3 ∧
    letLineDisappear (checkFullLine zeroLines lineMap).fullLineNumber
      (checkFullLine zeroLines lineMap).num (checkFullLine zeroLines lineMap).map 1 0 = 3 := by
  refine ⟨by decide, by decide, by decide, by decide, by decide⟩

/-- The amended C3 on `lineMap` (rows 3 and 7 full): the count is 2, and row 2
of the original map, above both full rows, ends up two rows lower. -/
theorem line_clear_two_full_rows_witness :
    rowFull lineMap 3 ∧ rowFull lineMap 7 ∧
    (checkFullLine zeroLines lineMap).num = 2 ∧
    (∀ r c, 0 ≤ r → r < 3 → 0 ≤ c → c < 10 →
      letLineDisappear (checkFullLine zeroLines lineMap).fullLineNumber
        (checkFullLine zeroLines lineMap).num (checkFullLine zeroLines lineMap).map
        (r + 2) c = lineMap r c) :=
  ⟨by decide, by decide,
    (line_clear_two_full_rows zeroLines lineMap 3 7 (by decide) (by decide) (by decide)
      (by decide) (by decide) (by decide)).1,
    (line_clear_two_full_rows zeroLines lineMap 3 7 (by decide) (by decide) (by decide)
      (by decide) (by decide) (by decide)).2.2.1⟩

/-! ### Score bookkeeping and liveness -/

/-- C11: a round resolution that clears n lines with 1 <= n <= 4 at level l in
0..3 raises the score by exactly `score_add[n-1][l]`, an entry inside the table
and read with the level l held before the level is recomputed, and raises the
line count by n; a resolution with n = 0 leaves score, line count and level
(all the globals) unchanged. -/
theorem score_bookkeeping (outside : Int → Int → Int) (g : Globals) (n : Int)
    (hn1 : 1 ≤ n) (hn4 : n ≤ 4) (hl : 0 ≤ g.lvl ∧ g.lvl ≤ 3) :
    (lineClearUpdate outside g n).scr
      = g.scr + score_add.getD (levelNum * (n - 1) + g.lvl).toNat 0 ∧
    scoreAddAt outside (n - 1) g.lvl = score_add.getD (levelNum * (n - 1) + g.lvl).toNat 0 ∧
    scoreIndexInside (n - 1) g.lvl ∧
    (lineClearUpdate outside g n).lin = g.lin + n ∧
    lineClearUpdate outside g 0 = g := by
  have hin : scoreIndexInside (n - 1) g.lvl := by
    unfold scoreIndexInside maxLineDisappear levelNum
    omega
  have hread : scoreAddAt outside (n - 1) g.lvl
      = score_add.getD (levelNum * (n - 1) + g.lvl).toNat 0 := by
    unfold scoreAddAt
    rw [if_pos hin]
  refine ⟨?_, hread, hin, lineClearUpdate_lin outside g n, lineClearUpdate_zero outside g⟩
  rw [← hread]
  unfold lineClearUpdate
  have hn0 : n ≠ 0 := by omega
  simp only [ne_eq, hn0, not_false_eq_true, if_true]
  split_ifs <;> rfl

/-- C11 at a concrete input: four lines cleared at level 3 with score 100 add
`score_add[3][3] = 4800`. -/
theorem score_bookkeeping_witness :
    (lineClearUpdate zeroOutside { scr := 100, lvl := 3, lin := 7 } 4).scr = 100 + 4800 ∧
    (lineClearUpdate zeroOutside { scr := 100, lvl := 3, lin := 7 } 4).lin = 7 + 4 :=
  ⟨(score_bookkeeping zeroOutside { scr := 100, lvl := 3, lin := 7 } 4
      (by decide) (by decide) (by decide)).1,
    (score_bookkeeping zeroOutside { scr := 100, lvl := 3, lin := 7 } 4
      (by decide) (by decide) (by decide)).2.2.2.1⟩

theorem connectionCheck_inner (l : ArbiterLocals) (g : Globals)
    (h0 : 0 ≤ l.roundNum) (h98 : l.roundNum < 99) :
    (connectionCheck (l, g)).1.roundNum = l.roundNum + 1 ∧
    (connectionCheck (l, g)).1.connectionErrorTime
      = l.connectionErrorTime + (if statesInSync g.myState g.buddyState then 0 else 1) ∧
    (connectionCheck (l, g)).2.connected = g.connected := by
  have hr : Int.tmod (l.roundNum + 1) 100 = l.roundNum + 1 := by
    rw [Int.tmod_eq_emod (by omega) (by omega)]
    omega
  have hne : ¬ (l.roundNum + 1 = 0) := by omega
  unfold connectionCheck
  simp only [hr, hne, if_false]
  by_cases hs : statesInSync g.myState g.buddyState
  · simp [hs]
  · simp [hs]

theorem connectionCheck_boundary (l : ArbiterLocals) (g : Globals)
    (h99 : l.roundNum = 99) :
    (connectionCheck (l, g)).1.roundNum = 0 ∧
    (connectionCheck (l, g)).1.connectionErrorTime = 0 ∧
    (connectionCheck (l, g)).2.connected = (if l.connectionErrorTime ≤ 80 then 1 else 0) := by
  have hr : Int.tmod (l.roundNum + 1) 100 = 0 := by
    rw [h99]
    rfl
  unfold connectionCheck
  simp only [hr, if_true]
  exact ⟨trivial, trivial, trivial⟩

theorem connectionTicks_inner (seen : List (Int × Int)) (l : ArbiterLocals) (g : Globals)
    (h0 : 0 ≤ l.roundNum) (hlen : l.roundNum + seen.length < 100) :
    (connectionTicks (l, g) seen).1.roundNum = l.roundNum + seen.length ∧
    (connectionTicks (l, g) seen).1.connectionErrorTime
      = l.connectionErrorTime + disagreements seen ∧
    (connectionTicks (l, g) seen).2.connected = g.connected := by
  induction seen generalizing l g with
  | nil => simp [connectionTicks, disagreements]
  | cons p rest ih =>
    have hlen' : l.roundNum + (rest.length + 1 : Nat) < 100 := by simpa using hlen
    obtain ⟨c1, c2, c3⟩ := connectionCheck_inner l
      { g with myState := p.1, buddyState := p.2 } h0 (by push_cast at hlen'; omega)
    have := ih (connectionCheck (l, { g with myState := p.1, buddyState := p.2 })).1
      (connectionCheck (l, { g with myState := p.1, buddyState := p.2 })).2
      (by rw [c1]; omega) (by rw [c1]; push_cast at hlen'; omega)
    simp only [connectionTicks, List.foldl_cons] at this ⊢
    obtain ⟨t1, t2, t3⟩ := this
    refine ⟨?_, ?_, ?_⟩
    · rw [t1, c1, List.length_cons]
      push_cast
      omega
    · rw [t2, c2]
      unfold disagreements
      simp only [List.filter_cons]
      by_cases hs : statesInSync p.1 p.2
      · simp [hs]
      · simp [hs]
        omega
    · rw [t3, c3]

/-- C12: in the connection check of one arbiter tick, on the 100th tick of a
window (`roundNum` = 99 before the tick) `connected` becomes 1 iff
`connectionErrorTime` <= 80 (0 otherwise) and `connectionErrorTime` is reset to
0; on every other tick `connected` is unchanged. Hence a window of 99 counted
ticks followed by the boundary tick ends with `connected` = 1 iff at most 80 of
the counted ticks were disagreements: exactly 81 give 0 and exactly 80 give 1. -/
theorem liveness_threshold (l l0 : ArbiterLocals) (g g0 : Globals)
    (window : List (Int × Int)) (last : Int × Int)
    (hr : 0 ≤ l.roundNum ∧ l.roundNum ≤ 99)
    (h0 : l0.roundNum = 0) (hc0 : l0.connectionErrorTime = 0)
    (hlen : window.length = 99) :
    (l.roundNum = 99 →
      ((connectionCheck (l, g)).2.connected = 1 ↔ l.connectionErrorTime ≤ 80) ∧
      ((connectionCheck (l, g)).2.connected = 0 ↔ ¬ l.connectionErrorTime ≤ 80) ∧
      (connectionCheck (l, g)).1.connectionErrorTime = 0 ∧
      (connectionCheck (l, g)).1.roundNum = 0) ∧
    (l.roundNum ≠ 99 →
      (connectionCheck (l, g)).2.connected = g.connected ∧
      (connectionCheck (l, g)).1.roundNum = l.roundNum + 1) ∧
    ((connectionTicks (l0, g0) (window ++ [last])).2.connected
      = if disagreements window ≤ 80 then 1 else 0) ∧
    (connectionTicks (l0, g0) (window ++ [last])).1.connectionErrorTime = 0 ∧
    (disagreements window = 81 →
      (connectionTicks (l0, g0) (window ++ [last])).2.connected = 0) ∧
    (disagreements window = 80 →
      (connectionTicks (l0, g0) (window ++ [last])).2.connected = 1) := by
  have hwin : (connectionTicks (l0, g0) (window ++ [last])).2.connected
        = (if disagreements window ≤ 80 then 1 else 0) ∧
      (connectionTicks (l0, g0) (window ++ [last])).1.connectionErrorTime = 0 := by
    obtain ⟨t1, t2, _⟩ := connectionTicks_inner window l0 g0 (by omega)
      (by rw [h0, hlen]; norm_num)
    have hstep : connectionTicks (l0, g0) (window ++ [last])
        = connectionCheck ((connectionTicks (l0, g0) window).1,
            { (connectionTicks (l0, g0) window).2 with
              myState := last.1, buddyState := last.2 }) := by
      simp only [connectionTicks, List.foldl_append, List.foldl_cons, List.foldl_nil]
    obtain ⟨b1, b2, b3⟩ := connectionCheck_boundary (connectionTicks (l0, g0) window).1
      { (connectionTicks (l0, g0) window).2 with myState := last.1, buddyState := last.2 }
      (by rw [t1, h0, hlen]; norm_num)
    rw [hstep]
    refine ⟨?_, b2⟩
    rw [b3, t2, hc0]
    by_cases hd : disagreements window ≤ 80
    · rw [if_pos hd, if_pos (by omega)]
    · rw [if_neg hd, if_neg (by omega)]
  refine ⟨?_, ?_, hwin.1, hwin.2, ?_, ?_⟩
  · intro h99
    obtain ⟨b1, b2, b3⟩ := connectionCheck_boundary l g h99
    rw [b3]
    refine ⟨?_, ?_, b2, b1⟩
    · by_cases hc : l.connectionErrorTime ≤ 80
      · simp [hc]
      · simp [hc]
    · by_cases hc : l.connectionErrorTime ≤ 80
      · simp [hc]
      · simp [hc]
  · intro hne
    obtain ⟨c1, _, c3⟩ := connectionCheck_inner l g hr.1 (by omega)
    exact ⟨c3, c1⟩
  · intro h81
    rw [hwin.1, h81]
    rfl
  · intro h80
    rw [hwin.1, h80]
    rfl

/-- C12 at concrete windows: `window81` counts 81 disagreements and ends with
`connected` = 0; `window80` counts 80 and ends with `connected` = 1 (from a
board that was connected, respectively not connected, before). -/
theorem liveness_threshold_witness :
    disagreements window81 = 81 ∧
    (connectionTicks ({}, { connected := 1 }) (window81 ++ [(3, 3)])).2.connected = 0 ∧
    disagreements window80 = 80 ∧
    (connectionTicks ({}, { connected := 0 }) (window80 ++ [(3, 3)])).2.connected = 1 :=
  ⟨by decide,
    (liveness_threshold {} {} {} { connected := 1 } window81 (3, 3) (by decide) rfl rfl
      (by decide)).2.2.2.2.1 (by decide),
    by decide,
    (liveness_threshold {} {} {} { connected := 0 } window80 (3, 3) (by decide) rfl rfl
      (by decide)).2.2.2.2.2 (by decide)⟩

/-- C13: on a non-boundary tick (`roundNum` goes from 0 to 1) with this board in
`inGame` (3) and the peer in `initGame` (2), both in the set {initGame, inGame,
nextRound}, the connection check increments `connectionErrorTime` from 0 to 1;
with the two states swapped the counter is left unchanged. -/
theorem liveness_counts_peer_in_initGame :
    currentState.inGame.toInt = 3 ∧ currentState.initGame.toInt = 2 ∧
    ({} : ArbiterLocals).connectionErrorTime = 0 ∧
    (connectionCheck ({}, { myState := 3, buddyState := 2 })).1.roundNum = 1 ∧
    (connectionCheck ({}, { myState := 3, buddyState := 2 })).1.connectionErrorTime = 1 ∧
    (connectionCheck ({}, { myState := 2, buddyState := 3 })).1.connectionErrorTime = 0 := by
  decide

/-! ### State machine -/

/-- C14: from `gameMenu`, with the level in 0..3: button A returns `initGame`
and sets the mode to `singlePlayer` whatever `connected` is; button C returns
`select` with mode `doublePlayerSelect` iff `connected` is nonzero, and with
`connected` = 0 leaves state, mode and level (all the globals) unchanged;
button B raises the level by 1 unless it is 3 and button D lowers it by 1
unless it is 0, both staying in `gameMenu`; the events E and system_refresh
leave state and globals unchanged. -/
theorem menu_transitions (g : Globals) (hl : 0 ≤ g.lvl ∧ g.lvl ≤ 3) :
    ((getState g currentState.gameMenu button.A).1 = currentState.initGame ∧
      (getState g currentState.gameMenu button.A).2.mode = currentMode.singlePlayer ∧
      (getState g currentState.gameMenu button.A).2.lvl = g.lvl) ∧
    ((getState g currentState.gameMenu button.C).1 = currentState.select ↔ g.connected ≠ 0) ∧
    (g.connected ≠ 0 →
      (getState g currentState.gameMenu button.C).2.mode = currentMode.doublePlayerSelect ∧
      (getState g currentState.gameMenu button.C).2.lvl = g.lvl) ∧
    (g.connected = 0 → getState g currentState.gameMenu button.C = (currentState.gameMenu, g)) ∧
    ((getState g currentState.gameMenu button.B).1 = currentState.gameMenu ∧
      (getState g currentState.gameMenu button.B).2.lvl
        = (if g.lvl = 3 then g.lvl else g.lvl + 1) ∧
      (getState g currentState.gameMenu button.B).2.mode = g.mode) ∧
    ((getState g currentState.gameMenu button.D).1 = currentState.gameMenu ∧
      (getState g currentState.gameMenu button.D).2.lvl
        = (if g.lvl = 0 then g.lvl else g.lvl - 1) ∧
      (getState g currentState.gameMenu button.D).2.mode = g.mode) ∧
    getState g currentState.gameMenu button.E = (currentState.gameMenu, g) ∧
    getState g currentState.gameMenu button.system_refresh = (currentState.gameMenu, g) := by
  refine ⟨?_, ?_, ?_, ?_, ?_, ?_, ?_, ?_⟩
  · simp [getState]
  · by_cases hc : g.connected = 0
    · simp [getState, hc, adjustLevel]
    · simp [getState, hc]
  · intro hc
    simp [getState, hc]
  · intro hc
    simp [getState, hc, adjustLevel]
  · by_cases h3 : g.lvl = 3
    · simp [getState, adjustLevel, h3]
    · have : g.lvl < 3 := by omega
      simp [getState, adjustLevel, h3, this]
  · by_cases h0 : g.lvl = 0
    · simp [getState, adjustLevel, h0]
    · have : 0 < g.lvl := by omega
      simp [getState, adjustLevel, h0, this]
  · simp [getState, adjustLevel]
  · simp [getState, adjustLevel]

/-- C14 at a concrete input: at level 3 button B leaves the level at 3, and at
level 2 it raises it to 3. -/
theorem menu_transitions_witness :
    (getState { lvl := 3 } currentState.gameMenu button.B).2.lvl = 3 ∧
    (getState { lvl := 2 } currentState.gameMenu button.B).2.lvl = 3 ∧
    (getState { lvl := 2 } currentState.gameMenu button.A).1 = currentState.initGame :=
  ⟨(menu_transitions { lvl := 3 } (by decide)).2.2.2.2.1.2.1,
    (menu_transitions { lvl := 2 } (by decide)).2.2.2.2.1.2.1,
    (menu_transitions { lvl := 2 } (by decide)).1.1⟩

/-- C15: from `select` with `connected` = 0, `getState` returns `gameMenu` for
every button, with the level reset to 0 and the mode to `modeSelect`. With
`connected` nonzero, button A returns `initGame` with mode `doublePlayerRotate`
if the relayed flag `buddyA` is set and `doublePlayerMove` otherwise, and button
C returns `initGame` with mode `doublePlayerMove` if `buddyC` is set and
`doublePlayerRotate` otherwise. Hence, for two connected boards on the selection
screen, when the player of board X presses A (or C) with the relayed flags of X
cleared, and board Y sees that press relayed, the arbiter of each board
publishes the event A (or C) and `getState` leaves the boards in opposite
modes: X in `doublePlayerMove` and Y in `doublePlayerRotate` for A, the reverse
for C. -/
theorem select_assigns_complementary_roles (g : Globals) (privateButton : button)
    (lX lY : ArbiterLocals) (gX gY : Globals)
    (hmX : gX.mode = currentMode.doublePlayerSelect)
    (hmY : gY.mode = currentMode.doublePlayerSelect)
    (hcX : gX.connected ≠ 0) (hcY : gY.connected ≠ 0)
    (hfX : gX.buddyA = 0 ∧ gX.buddyC = 0)
    (hownX : lX.pressedA = 1 ∧ lX.pressedC = 1)
    (hquietX : gX.buddyAState = 1 ∧ gX.buddyCState = 1)
    (hrelY : lY.buddyPressedA = 1 ∧ lY.buddyPressedC = 1) :
    (g.connected = 0 →
      getState g currentState.select privateButton
        = (currentState.gameMenu, systemInit g) ∧
      (systemInit g).lvl = 0 ∧ (systemInit g).mode = currentMode.modeSelect) ∧
    (g.connected ≠ 0 →
      (getState g currentState.select button.A).1 = currentState.initGame ∧
      (getState g currentState.select button.A).2.mode
        = (if g.buddyA ≠ 0 then currentMode.doublePlayerRotate
            else currentMode.doublePlayerMove) ∧
      (getState g currentState.select button.C).1 = currentState.initGame ∧
      (getState g currentState.select button.C).2.mode
        = (if g.buddyC ≠ 0 then currentMode.doublePlayerMove
            else currentMode.doublePlayerRotate)) ∧
    ((externalButtonA (localButtonA 0 (lX, gX))).2.publicButton = button.A ∧
      (getState (externalButtonA (localButtonA 0 (lX, gX))).2 currentState.select
        button.A).2.mode = currentMode.doublePlayerMove ∧
      (gY.buddyAState = 0 →
        (externalButtonA (localButtonA 1 (lY, gY))).2.publicButton = button.A ∧
        (getState (externalButtonA (localButtonA 1 (lY, gY))).2 currentState.select
          button.A).2.mode = currentMode.doublePlayerRotate)) ∧
    ((externalButtonC (localButtonC 0 (lX, gX))).2.publicButton = button.C ∧
      (getState (externalButtonC (localButtonC 0 (lX, gX))).2 currentState.select
        button.C).2.mode = currentMode.doublePlayerRotate ∧
      (gY.buddyCState = 0 →
        (externalButtonC (localButtonC 1 (lY, gY))).2.publicButton = button.C ∧
        (getState (externalButtonC (localButtonC 1 (lY, gY))).2 currentState.select
          button.C).2.mode = currentMode.doublePlayerMove)) := by
  refine ⟨?_, ?_, ⟨?_, ?_, ?_⟩, ⟨?_, ?_, ?_⟩⟩
  · intro hc
    simp [getState, hc, systemInit]
  · intro hc
    by_cases hA : g.buddyA = 0 <;> by_cases hC : g.buddyC = 0 <;>
      simp [getState, hc, hA, hC]
  · simp [localButtonA, externalButtonA, hmX, hownX.1, hquietX.1]
  · simp [localButtonA, externalButtonA, getState, hmX, hownX.1, hquietX.1, hcX, hfX.1]
  · intro hp
    simp [localButtonA, externalButtonA, getState, hmY, hrelY.1, hp, hcY]
  · simp [localButtonC, externalButtonC, hmX, hownX.2, hquietX.2]
  · simp [localButtonC, externalButtonC, getState, hmX, hownX.2, hquietX.2, hcX, hfX.2]
  · intro hp
    simp [localButtonC, externalButtonC, getState, hmY, hrelY.2, hp, hcY]

/-- C15 at concrete boards: from `selectBoard`, whose own player presses A, the
mode becomes `doublePlayerMove`; from `selectBoardPeerA`, which sees the press
relayed, it becomes `doublePlayerRotate`. -/
theorem select_assigns_complementary_roles_witness :
    (getState (externalButtonA (localButtonA 0 ({}, selectBoard))).2 currentState.select
      button.A).2.mode = currentMode.doublePlayerMove ∧
    (getState (externalButtonA (localButtonA 1 ({}, selectBoardPeerA))).2 currentState.select
      button.A).2.mode = currentMode.doublePlayerRotate :=
  ⟨(select_assigns_complementary_roles {} button.A {} {} selectBoard selectBoardPeerA
      rfl rfl (by decide) (by decide) (by decide) (by decide) (by decide)
      (by decide)).2.2.1.2.1,
    ((select_assigns_complementary_roles {} button.A {} {} selectBoard selectBoardPeerA
      rfl rfl (by decide) (by decide) (by decide) (by decide) (by decide)
      (by decide)).2.2.1.2.2 rfl).2⟩

/-- C16: from `initGame`, for every button, `getState` returns `gameMenu` iff the
mode is `doublePlayerMove` or `doublePlayerRotate` and `connected` = 0, and
`inGame` otherwise. Hence from `gameMenu` the event A gives `initGame` with mode
`singlePlayer`, and any event after it gives `inGame` with the mode still
`singlePlayer`, for every value of `connected`. -/
theorem single_game_start (g : Globals) (privateButton next : button) :
    ((getState g currentState.initGame privateButton).1 = currentState.gameMenu ↔
      (g.mode = currentMode.doublePlayerMove ∨ g.mode = currentMode.doublePlayerRotate) ∧
        g.connected = 0) ∧
    ((getState g currentState.initGame privateButton).1 = currentState.inGame ↔
      ¬ ((g.mode = currentMode.doublePlayerMove ∨ g.mode = currentMode.doublePlayerRotate) ∧
        g.connected = 0)) ∧
    (getState g currentState.gameMenu button.A).1 = currentState.initGame ∧
    (getState g currentState.gameMenu button.A).2.mode = currentMode.singlePlayer ∧
    (getState (getState g currentState.gameMenu button.A).2
      (getState g currentState.gameMenu button.A).1 next).1 = currentState.inGame ∧
    (getState (getState g currentState.gameMenu button.A).2
      (getState g currentState.gameMenu button.A).1 next).2.mode
        = currentMode.singlePlayer := by
  have hlost : linkLost g ↔
      (g.mode = currentMode.doublePlayerMove ∨ g.mode = currentMode.doublePlayerRotate) ∧
        g.connected = 0 := by
    unfold linkLost
    exact and_comm
  refine ⟨?_, ?_, ?_, ?_, ?_, ?_⟩
  · rw [← hlost]
    by_cases h : linkLost g <;> simp [getState, h]
  · rw [← hlost]
    by_cases h : linkLost g <;> simp [getState, h]
  · simp [getState]
  · simp [getState]
  · simp [getState, linkLost]
  · simp [getState, linkLost]

/-- C18: from `inGame`, `getState` returns a state for each of the six events:
`gameMenu` when the mode is `doublePlayerMove` or `doublePlayerRotate` and
`connected` = 0; otherwise `nextRound` on system_refresh, `inGame` on A, B, C
and D, and `gamePause` on E. -/
theorem playing_transitions (g : Globals) (privateButton : button) :
    (getState g currentState.inGame privateButton).1 =
      (if (g.mode = currentMode.doublePlayerMove ∨ g.mode = currentMode.doublePlayerRotate) ∧
          g.connected = 0 then currentState.gameMenu
        else if privateButton = button.system_refresh then currentState.nextRound
        else if privateButton = button.E then currentState.gamePause
        else currentState.inGame) := by
  have hlost : linkLost g ↔
      (g.mode = currentMode.doublePlayerMove ∨ g.mode = currentMode.doublePlayerRotate) ∧
        g.connected = 0 := by
    unfold linkLost
    exact and_comm
  rw [← if_congr hlost rfl rfl]
  by_cases h : linkLost g <;> cases privateButton <;> simp [getState, h]

/-- C19, as stated, fails: in mode `doublePlayerMove`, connected and with no game
over, `getState` from `nextRound` on the event system_refresh returns
`nextRound`, not `inGame`; and in mode `doublePlayerRotate`, a double mode, the
pause event E returns `inGame`, not `gamePause`. -/
theorem round_resolved_stays_in_nextRound :
    (getState { mode := currentMode.doublePlayerMove, connected := 1, isGameOver := 0 }
      currentState.nextRound button.system_refresh).1 = currentState.nextRound ∧
    (getState { mode := currentMode.doublePlayerMove, connected := 1, isGameOver := 0 }
      currentState.nextRound button.system_refresh).1 ≠ currentState.inGame ∧
    (getState { mode := currentMode.doublePlayerRotate, connected := 1, isGameOver := 0 }
      currentState.nextRound button.E).1 = currentState.inGame := by
  decide

/-- C19, amended: from `nextRound`, `getState` returns `gameOver` if `isGameOver`
is set; otherwise `gameMenu` when the mode is `doublePlayerMove` or
`doublePlayerRotate` and `connected` = 0; otherwise, in mode `doublePlayerMove`,
`gamePause` on the pause event E and `nextRound` on every other event; and
`inGame` in every other mode. -/
theorem round_resolved_transitions (g : Globals) (privateButton : button) :
    (getState g currentState.nextRound privateButton).1 =
      (if g.isGameOver ≠ 0 then currentState.gameOver
        else if (g.mode = currentMode.doublePlayerMove ∨
            g.mode = currentMode.doublePlayerRotate) ∧ g.connected = 0 then
          currentState.gameMenu
        else if g.mode = currentMode.doublePlayerMove then
          (if privateButton = button.E then currentState.gamePause
            else currentState.nextRound)
        else currentState.inGame) := by
  have hlost : linkLost g ↔
      (g.mode = currentMode.doublePlayerMove ∨ g.mode = currentMode.doublePlayerRotate) ∧
        g.connected = 0 := by
    unfold linkLost
    exact and_comm
  rw [← if_congr (Iff.rfl) rfl (if_congr hlost rfl rfl)]
  by_cases hover : g.isGameOver = 0 <;> by_cases h : linkLost g <;>
    by_cases hm : g.mode = currentMode.doublePlayerMove <;>
    by_cases hE : privateButton = button.E <;> simp [getState, hover, h, hm, hE]

/-- C20, as stated, fails: in mode `doublePlayerMove` with `connected` = 1,
`getState` from `gamePause` on button D returns `nextRound`, not `inGame`. -/
theorem paused_resume_double_move :
    (getState { mode := currentMode.doublePlayerMove, connected := 1 }
      currentState.gamePause button.D).1 = currentState.nextRound ∧
    (getState { mode := currentMode.doublePlayerMove, connected := 1 }
      currentState.gamePause button.D).1 ≠ currentState.inGame := by
  decide

/-- C20, amended: from `gamePause`, in mode `doublePlayerMove` or
`doublePlayerRotate` with `connected` = 0 every event returns `gameMenu`;
otherwise button D (resume) returns `inGame`, except in mode `doublePlayerMove`
where it returns `nextRound`, button B returns `gameOver`, button A returns
`initGame`, and every other event returns `gamePause`. -/
theorem paused_transitions (g : Globals) (privateButton : button) :
    (getState g currentState.gamePause privateButton).1 =
      (if (g.mode = currentMode.doublePlayerMove ∨ g.mode = currentMode.doublePlayerRotate) ∧
          g.connected = 0 then currentState.gameMenu
        else if privateButton = button.D then
          (if g.mode = currentMode.doublePlayerMove then currentState.nextRound
            else currentState.inGame)
        else if privateButton = button.B then currentState.gameOver
        else if privateButton = button.A then currentState.initGame
        else currentState.gamePause) := by
  have hlost : linkLost g ↔
      (g.mode = currentMode.doublePlayerMove ∨ g.mode = currentMode.doublePlayerRotate) ∧
        g.connected = 0 := by
    unfold linkLost
    exact and_comm
  rw [← if_congr hlost rfl rfl]
  by_cases h : linkLost g <;> by_cases hm : g.mode = currentMode.doublePlayerMove <;>
    cases privateButton <;> simp [getState, h, hm]

/-- C17: for every centre (cx, cy), `tetrisShape` on a block of type 0 sets the
four cells to (cx-1, cy), (cx, cy), (cx, cy+1), (cx+1, cy+1) and the successor
type to 1, leaving centre, type and colour as they are; so a block of type 0
spawned by `tetrisInit` (centre (4, 0)) has the cells (3,0), (4,0), (4,1), (5,1)
and successor type 1. -/
theorem shape_of_type_zero (b : tetrisBlock) (rand1 rand2 : Nat)
    (ht : b.type = 0) (hr : rand1 % 28 = 0) :
    tetrisShape b =
      { center := b.center
        position0 := { x := b.center.x - 1, y := b.center.y }
        position1 := { x := b.center.x, y := b.center.y }
        position2 := { x := b.center.x, y := b.center.y + 1 }
        position3 := { x := b.center.x + 1, y := b.center.y + 1 }
        type := 0, next_type := 1, color_num := b.color_num } ∧
    tetrisInit b rand1 rand2 =
      { center := { x := 4, y := 0 }
        position0 := { x := 3, y := 0 }
        position1 := { x := 4, y := 0 }
        position2 := { x := 4, y := 1 }
        position3 := { x := 5, y := 1 }
        type := 0, next_type := 1, color_num := ((rand2 % 4 : Nat) : Int) + 1 } := by
  constructor
  · obtain ⟨c, p0, p1, p2, p3, t, nt, col⟩ := b
    simp only at ht
    subst ht
    simp [tetrisShape, shapeCase, sub_eq_add_neg]
  · unfold tetrisInit
    rw [hr]
    simp [tetrisShape, shapeCase]

/-- C17 at a concrete input: `leftWallBlock`, of type 0 with centre (1, 0), is
what `tetrisShape` computes, and a spawn with `rand()` values 28 and 5 gives the
block of type 0 at centre (4, 0) with colour 2. -/
theorem shape_of_type_zero_witness :
    tetrisShape leftWallBlock = leftWallBlock ∧
    tetrisInit midBlock 28 5 =
      { center := { x := 4, y := 0 }
        position0 := { x := 3, y := 0 }
        position1 := { x := 4, y := 0 }
        position2 := { x := 4, y := 1 }
        position3 := { x := 5, y := 1 }
        type := 0, next_type := 1, color_num := 2 } :=
  ⟨(shape_of_type_zero leftWallBlock 28 5 rfl (by decide)).1,
    (shape_of_type_zero midBlock 28 5 rfl (by decide)).2⟩

/-- C21: from `gameOver`, each of the buttons A, B, C, D, E returns `gameMenu`
and resets the level to 0, the mode to `modeSelect` and the four piece-type
sentinels (`currentType`, `nextType`, `buddyCurrentType`, `buddyNextType`) to
-1; the event system_refresh returns `gameOver` and changes no variable. -/
theorem game_over_transitions (g : Globals) (privateButton : button) :
    (privateButton ≠ button.system_refresh →
      (getState g currentState.gameOver privateButton).1 = currentState.gameMenu ∧
      (getState g currentState.gameOver privateButton).2.lvl = 0 ∧
      (getState g currentState.gameOver privateButton).2.mode = currentMode.modeSelect ∧
      (getState g currentState.gameOver privateButton).2.currentType = -1 ∧
      (getState g currentState.gameOver privateButton).2.nextType = -1 ∧
      (getState g currentState.gameOver privateButton).2.buddyCurrentType = -1 ∧
      (getState g currentState.gameOver privateButton).2.buddyNextType = -1) ∧
    getState g currentState.gameOver button.system_refresh = (currentState.gameOver, g) := by
  constructor
  · intro hb
    simp [getState, hb, systemInit]
  · simp [getState]

/-- C21 at a concrete input: button C after a game over at level 2 in mode
`singlePlayer`. -/
theorem game_over_transitions_witness :
    (getState { lvl := 2, mode := currentMode.singlePlayer, currentType := 5 }
      currentState.gameOver button.C).1 = currentState.gameMenu ∧
    (getState { lvl := 2, mode := currentMode.singlePlayer, currentType := 5 }
      currentState.gameOver button.C).2.lvl = 0 ∧
    (getState { lvl := 2, mode := currentMode.singlePlayer, currentType := 5 }
      currentState.gameOver button.C).2.currentType = -1 :=
  ⟨((game_over_transitions { lvl := 2, mode := currentMode.singlePlayer, currentType := 5 }
      button.C).1 (by decide)).1,
    ((game_over_transitions { lvl := 2, mode := currentMode.singlePlayer, currentType := 5 }
      button.C).1 (by decide)).2.1,
    ((game_over_transitions { lvl := 2, mode := currentMode.singlePlayer, currentType := 5 }
      button.C).1 (by decide)).2.2.2.1⟩

/-- C22, as stated, fails: in state `nextRound` and mode `doublePlayerMove` with
`connected` = 0 and `isGameOver` set, `getState` returns `gameOver`, not
`gameMenu`; and in state `initGame` with mode `doublePlayerSelect` and
`connected` = 0 it returns `inGame`. -/
theorem lost_link_game_over_first :
    (getState { mode := currentMode.doublePlayerMove, connected := 0, isGameOver := 1 }
      currentState.nextRound button.system_refresh).1 = currentState.gameOver ∧
    (getState { mode := currentMode.doublePlayerMove, connected := 0, isGameOver := 1 }
      currentState.nextRound button.system_refresh).1 ≠ currentState.gameMenu ∧
    (getState { mode := currentMode.doublePlayerSelect, connected := 0 }
      currentState.initGame button.system_refresh).1 = currentState.inGame := by
  decide

/-- C22, amended: with `connected` = 0, `getState` returns `gameMenu` for every
button from state `select` in every mode, and, when the mode is
`doublePlayerMove` or `doublePlayerRotate`, from the states `initGame`, `inGame`
and `gamePause` for every value of `isGameOver`, and from `nextRound` when
`isGameOver` is 0 (with `isGameOver` set, `nextRound` returns `gameOver`). -/
theorem lost_link_forces_menu (g : Globals) (privateButton : button)
    (hc : g.connected = 0) :
    (getState g currentState.select privateButton).1 = currentState.gameMenu ∧
    (g.mode = currentMode.doublePlayerMove ∨ g.mode = currentMode.doublePlayerRotate →
      (getState g currentState.initGame privateButton).1 = currentState.gameMenu ∧
      (getState g currentState.inGame privateButton).1 = currentState.gameMenu ∧
      (getState g currentState.gamePause privateButton).1 = currentState.gameMenu ∧
      (g.isGameOver = 0 →
        (getState g currentState.nextRound privateButton).1 = currentState.gameMenu) ∧
      (g.isGameOver ≠ 0 →
        (getState g currentState.nextRound privateButton).1 = currentState.gameOver)) := by
  constructor
  · simp [getState, hc]
  · intro hm
    have hlost : linkLost g := ⟨hc, hm⟩
    refine ⟨?_, ?_, ?_, ?_, ?_⟩
    · simp [getState, hlost]
    · simp [getState, hlost]
    · simp [getState, hlost]
    · intro ho
      simp [getState, hlost, ho]
    · intro ho
      simp [getState, ho]

/-- The amended C22 at a concrete input: mode `doublePlayerRotate`, link lost,
state `inGame`, button A. -/
theorem lost_link_forces_menu_witness :
    (getState { mode := currentMode.doublePlayerRotate, connected := 0 }
      currentState.inGame button.A).1 = currentState.gameMenu :=
  ((lost_link_forces_menu { mode := currentMode.doublePlayerRotate, connected := 0 }
    button.A rfl).2 (Or.inr rfl)).2.1

/-- C23: from the states `initGame`, `inGame`, `nextRound`, `gamePause` and
`gameOver`, for every button and every value of the globals (`connected` and
`isGameOver` included), a call of `getState` that does not return `gameMenu`
leaves all the globals, so `mode` and `globalSpeed`, unchanged; and a call that
returns `gameMenu` performs the reset of `systemInit`. So `mode` is only
written by the transitions out of `gameMenu` and `select` and by that reset. -/
theorem mode_fixed_during_game (g : Globals) (state : currentState)
    (privateButton : button)
    (hs : state ≠ currentState.gameMenu ∧ state ≠ currentState.select) :
    ((getState g state privateButton).1 ≠ currentState.gameMenu →
      (getState g state privateButton).2 = g ∧
      (getState g state privateButton).2.mode = g.mode ∧
      (getState g state privateButton).2.globalSpeed = g.globalSpeed) ∧
    ((getState g state privateButton).1 = currentState.gameMenu →
      (getState g state privateButton).2 = systemInit g) := by
  obtain ⟨h1, h2⟩ := hs
  cases state <;> first | exact absurd rfl h1 | exact absurd rfl h2 | skip
  all_goals
    cases privateButton <;> simp only [getState] <;> split_ifs <;> simp

/-- C23 at a concrete input: in mode `doublePlayerMove`, connected, the pause
event from `nextRound` returns `gamePause` with the mode unchanged. -/
theorem mode_fixed_during_game_witness :
    (getState { mode := currentMode.doublePlayerMove, connected := 1 }
      currentState.nextRound button.E).1 = currentState.gamePause ∧
    (getState { mode := currentMode.doublePlayerMove, connected := 1 }
      currentState.nextRound button.E).2.mode = currentMode.doublePlayerMove :=
  ⟨by decide,
    ((mode_fixed_during_game { mode := currentMode.doublePlayerMove, connected := 1 }
      currentState.nextRound button.E (by decide)).1 (by decide)).2.1⟩

/-! ### Game-over test, sentinel and synchronisation -/

/-- C24: for every block, `checkGameOver` returns 1 iff at least one of its four
cells has y = 0, and 0 otherwise; the block is not modified. -/
theorem checkGameOver_spec (b : tetrisBlock) :
    ((checkGameOver b).1 = 1 ↔
      (b.position0.y = 0 ∨ b.position1.y = 0 ∨ b.position2.y = 0 ∨ b.position3.y = 0)) ∧
    ((checkGameOver b).1 = 0 ↔
      ¬ (b.position0.y = 0 ∨ b.position1.y = 0 ∨ b.position2.y = 0 ∨ b.position3.y = 0)) ∧
    (checkGameOver b).2 = b := by
  unfold checkGameOver
  split_ifs <;> simp_all

/-- C25: the frame of `idleSender`, whose `currentType` and `nextType` are -1,
carries the bytes 255 for them; after the receiver has decoded the frame from
cursor 0, `buddyCurrentType` and `buddyNextType` are 255, not -1, and the wait
condition of `initGameSetting` is false. -/
theorem sentinel_lost_on_the_wire :
    idleSender.currentType = -1 ∧ idleSender.nextType = -1 ∧
    (receiveDataRun ({}, rxStart) (sendData idleSender 1 1 1 1 1)).1.buddyCurrentType = 255 ∧
    (receiveDataRun ({}, rxStart) (sendData idleSender 1 1 1 1 1)).1.buddyNextType = 255 ∧
    ¬ peerHasNoPiece (receiveDataRun ({}, rxStart) (sendData idleSender 1 1 1 1 1)).1 := by
  decide

theorem wellFormed_tetrisShape (b : tetrisBlock) (h0 : 0 ≤ b.type) (h1 : b.type ≤ 27) :
    wellFormed (tetrisShape b) := by
  refine ⟨by rw [tetrisShape_type]; exact h0, by rw [tetrisShape_type]; exact h1, ?_⟩
  exact tetrisShape_congr b (tetrisShape b) (tetrisShape_center b) (tetrisShape_type b)
    (tetrisShape_color_num b) h0 h1

/-- C27: after `tetrisSynchronization` the active block has centre
(buddyCurrentX, buddyCurrentY), type buddyCurrentType and colour
buddyCurrentColor, and the on-deck block has type buddyNextType and colour
buddyNextColor with its centre unchanged. When the two adopted types are in
0..27, the cells and successor type of both blocks are those `tetrisShape`
derives from the adopted type and centre, and the result is the same for any
other blocks and globals that agree on the six mirror fields and on the centre
of the on-deck block. -/
theorem synchronization_adopts_peer (g g' : Globals)
    (currentTetris nextTetris currentTetris' nextTetris' : tetrisBlock)
    (hx : g'.buddyCurrentX = g.buddyCurrentX) (hy : g'.buddyCurrentY = g.buddyCurrentY)
    (ht : g'.buddyCurrentType = g.buddyCurrentType)
    (hco : g'.buddyCurrentColor = g.buddyCurrentColor)
    (hnt : g'.buddyNextType = g.buddyNextType)
    (hnc : g'.buddyNextColor = g.buddyNextColor)
    (hcen : nextTetris'.center = nextTetris.center) :
    ((tetrisSynchronization g currentTetris nextTetris).1.center
        = { x := g.buddyCurrentX, y := g.buddyCurrentY } ∧
      (tetrisSynchronization g currentTetris nextTetris).1.type = g.buddyCurrentType ∧
      (tetrisSynchronization g currentTetris nextTetris).1.color_num = g.buddyCurrentColor ∧
      (tetrisSynchronization g currentTetris nextTetris).2.type = g.buddyNextType ∧
      (tetrisSynchronization g currentTetris nextTetris).2.color_num = g.buddyNextColor ∧
      (tetrisSynchronization g currentTetris nextTetris).2.center = nextTetris.center) ∧
    (0 ≤ g.buddyCurrentType ∧ g.buddyCurrentType ≤ 27 →
      wellFormed (tetrisSynchronization g currentTetris nextTetris).1 ∧
      (tetrisSynchronization g' currentTetris' nextTetris').1
        = (tetrisSynchronization g currentTetris nextTetris).1) ∧
    (0 ≤ g.buddyNextType ∧ g.buddyNextType ≤ 27 →
      wellFormed (tetrisSynchronization g currentTetris nextTetris).2 ∧
      (tetrisSynchronization g' currentTetris' nextTetris').2
        = (tetrisSynchronization g currentTetris nextTetris).2) := by
  refine ⟨?_, ?_, ?_⟩
  · simp only [tetrisSynchronization, tetrisShape_center, tetrisShape_type,
      tetrisShape_color_num, and_self]
  · intro hr
    constructor
    · exact wellFormed_tetrisShape _ hr.1 hr.2
    · simp only [tetrisSynchronization]
      exact tetrisShape_congr _ _ (by simp only [hx, hy]) ht hco hr.1 hr.2
  · intro hr
    constructor
    · exact wellFormed_tetrisShape _ hr.1 hr.2
    · simp only [tetrisSynchronization]
      exact tetrisShape_congr _ _ hcen hnt hnc hr.1 hr.2

/-- C27 at a concrete input: `mirrorBoard` holds a piece of type 4 at (6, 9);
synchronising `midBlock` and `leftWallBlock` gives the active block of type 4
with cells (5,9), (6,9), (7,9), (7,10), whatever the blocks were before. -/
theorem synchronization_adopts_peer_witness :
    (tetrisSynchronization mirrorBoard midBlock leftWallBlock).1 =
      { center := { x := 6, y := 9 }
        position0 := { x := 5, y := 9 }
        position1 := { x := 6, y := 9 }
        position2 := { x := 7, y := 9 }
        position3 := { x := 7, y := 10 }
        type := 4, next_type := 7, color_num := 3 } ∧
    (tetrisSynchronization mirrorBoard topBlock leftWallBlock).1
      = (tetrisSynchronization mirrorBoard midBlock leftWallBlock).1 :=
  ⟨by decide,
    ((synchronization_adopts_peer mirrorBoard mirrorBoard midBlock leftWallBlock topBlock
      leftWallBlock rfl rfl rfl rfl rfl rfl rfl).2.1 (by decide)).2⟩

/-! ### Decoder resynchronisation -/

theorem receiveDataRun_append (s : Globals × RxLocals) (xs ys : List Nat) :
    receiveDataRun s (xs ++ ys) = receiveDataRun (receiveDataRun s xs) ys := by
  simp only [receiveDataRun, List.foldl_append]

/-- While the cursor is at 0, bytes other than START leave the decoder as it is. -/
theorem receiveDataRun_skip (bytes : List Nat) (g : Globals) (buffer : Nat → Nat)
    (h : ∀ x ∈ bytes, x ≠ startByte) :
    receiveDataRun (g, { pos := 0, buffer := buffer }) bytes
      = (g, { pos := 0, buffer := buffer }) := by
  induction bytes with
  | nil => rfl
  | cons x rest ih =>
    have hx : x ≠ startByte := h x (List.mem_cons_self x rest)
    have hstep : receiveDataStep (g, { pos := 0, buffer := buffer }) x
        = (g, { pos := 0, buffer := buffer }) := by
      simp [receiveDataStep, hx]
    simp only [receiveDataRun, List.foldl_cons, hstep]
    exact ih (fun y hy => h y (List.mem_cons_of_mem x hy))

/-- From a cursor p in 1..15, the 16 - p next bytes bring the cursor back to 0,
whatever they are. -/
theorem receiveDataRun_drain (bytes : List Nat) (g : Globals) (p : Nat) (buffer : Nat → Nat)
    (hp : 1 ≤ p) (hlen : p + bytes.length = 16) (h15 : p ≤ 15) :
    ∃ g1 buffer1, receiveDataRun (g, { pos := p, buffer := buffer }) bytes
      = (g1, { pos := 0, buffer := buffer1 }) := by
  induction bytes generalizing g p buffer with
  | nil =>
    simp only [List.length_nil] at hlen
    omega
  | cons x rest ih =>
    simp only [List.length_cons] at hlen
    by_cases hlast : p = 15
    · have hrest : rest = [] := List.length_eq_zero.mp (by omega)
      subst hrest
      subst hlast
      refine ⟨(receiveDataStep (g, { pos := 15, buffer := buffer }) x).1, buffer, ?_⟩
      simp only [receiveDataRun, List.foldl_cons, List.foldl_nil]
      by_cases hacc : frameAccepted buffer x = true
      · simp [receiveDataStep, hacc]
      · simp [receiveDataStep, hacc]
    · have hstep : receiveDataStep (g, { pos := p, buffer := buffer }) x
          = (g, { pos := p + 1, buffer := setBuffer buffer p x }) := by
        have h0 : p ≠ 0 := by omega
        have h14 : p ≤ 14 := by omega
        simp [receiveDataStep, h0, h14]
      obtain ⟨g1, b1, h1⟩ := ih g (p + 1) (setBuffer buffer p x) (by omega) (by omega)
        (by omega)
      refine ⟨g1, b1, ?_⟩
      simp only [receiveDataRun, List.foldl_cons] at h1 ⊢
      rw [hstep]
      exact h1

/-- A frame of `sendData` decoded from cursor 0 sets the mirror to the sent
values and leaves the cursor at 0. -/
theorem receiveDataRun_frame (gs gr : Globals) (buffer : Nat → Nat)
    (a b c d e : Nat)
    (ha : a ≤ 1) (hb : b ≤ 1) (hc : c ≤ 1) (hd : d ≤ 1) (he : e ≤ 1)
    (hst : 0 ≤ gs.myState ∧ gs.myState ≤ 255)
    (hx : 0 ≤ gs.currentX ∧ gs.currentX ≤ 255)
    (hy : 0 ≤ gs.currentY ∧ gs.currentY ≤ 255)
    (hty : 0 ≤ gs.currentType ∧ gs.currentType ≤ 255)
    (hco : 0 ≤ gs.currentColor ∧ gs.currentColor ≤ 255)
    (hnt : 0 ≤ gs.nextType ∧ gs.nextType ≤ 255)
    (hnc : 0 ≤ gs.nextColor ∧ gs.nextColor ≤ 255) :
    mirror (receiveDataRun (gr, { pos := 0, buffer := buffer }) (sendData gs a b c d e)).1
      = [(a : Int), b, c, d, e, gs.myState, gs.currentX, gs.currentY,
          gs.currentType, gs.currentColor, gs.nextType, gs.nextColor] ∧
    (receiveDataRun (gr, { pos := 0, buffer := buffer }) (sendData gs a b c d e)).2.pos
      = 0 := by
  have hu : ∀ v : Int, 0 ≤ v → v ≤ 255 → ((uartByte v : Nat) : Int) = v := by
    intro v h0 h1
    unfold uartByte
    omega
  have hemod : e % 256 = e := Nat.mod_eq_of_lt (by omega)
  interval_cases a <;> interval_cases b <;> interval_cases c <;> interval_cases d <;>
    simp [receiveDataRun, sendData, receiveDataStep, setBuffer, frameAccepted, cBool,
      startByte, stopByte, mirror, hemod, hu _ hst.1 hst.2, hu _ hx.1 hx.2,
      hu _ hy.1 hy.2, hu _ hty.1 hty.2, hu _ hco.1 hco.2, hu _ hnt.1 hnt.2,
      hu _ hnc.1 hnc.2]

/-- The bytes of a frame after its first one are all different from START when
the buttons are bits and no field equals 0xAA. -/
theorem sendData_tail_no_start (gs : Globals) (a b c d e : Nat)
    (ha : a ≤ 1) (hb : b ≤ 1) (hc : c ≤ 1) (hd : d ≤ 1) (he : e ≤ 1)
    (hst : gs.myState ≠ 170) (hx : gs.currentX ≠ 170) (hy : gs.currentY ≠ 170)
    (hty : gs.currentType ≠ 170) (hco : gs.currentColor ≠ 170)
    (hnt : gs.nextType ≠ 170) (hnc : gs.nextColor ≠ 170)
    (hr : (0 ≤ gs.myState ∧ gs.myState ≤ 255) ∧ (0 ≤ gs.currentX ∧ gs.currentX ≤ 255) ∧
      (0 ≤ gs.currentY ∧ gs.currentY ≤ 255) ∧ (0 ≤ gs.currentType ∧ gs.currentType ≤ 255) ∧
      (0 ≤ gs.currentColor ∧ gs.currentColor ≤ 255) ∧
      (0 ≤ gs.nextType ∧ gs.nextType ≤ 255) ∧ (0 ≤ gs.nextColor ∧ gs.nextColor ≤ 255)) :
    ∀ x ∈ (sendData gs a b c d e).tail, x ≠ startByte := by
  have hu : ∀ v : Int, 0 ≤ v → v ≤ 255 → v ≠ 170 → uartByte v ≠ 170 := by
    intro v h0 h1 h2
    unfold uartByte
    omega
  obtain ⟨r1, r2, r3, r4, r5, r6, r7⟩ := hr
  have u1 := hu _ r1.1 r1.2 hst
  have u2 := hu _ r2.1 r2.2 hx
  have u3 := hu _ r3.1 r3.2 hy
  have u4 := hu _ r4.1 r4.2 hty
  have u5 := hu _ r5.1 r5.2 hco
  have u6 := hu _ r6.1 r6.2 hnt
  have u7 := hu _ r7.1 r7.2 hnc
  have hxor : ∀ m n : Nat, m ≤ 1 → n ≤ 1 → (m ^^^ n) % 256 ≠ startByte := by
    intro m n hm hn
    interval_cases m <;> interval_cases n <;> decide
  intro x hxm
  simp only [sendData, List.tail_cons, List.mem_cons, List.mem_singleton,
    List.not_mem_nil, or_false] at hxm
  rcases hxm with h | h | h | h | h | h | h | h | h | h | h | h | h | h | h <;> subst h
  · unfold startByte; omega
  · unfold startByte; omega
  · unfold startByte; omega
  · unfold startByte; omega
  · unfold startByte; omega
  · exact u1
  · exact hxor a b ha hb
  · exact hxor c d hc hd
  · exact u2
  · exact u3
  · exact u4
  · exact u5
  · exact u6
  · exact u7
  · decide

theorem sendData_length (gs : Globals) (a b c d e : Nat) :
    (sendData gs a b c d e).length = 16 := by
  simp [sendData]

theorem rx_at_zero (t : Globals × RxLocals) (h : t.2.pos = 0) :
    t = (t.1, { pos := 0, buffer := t.2.buffer }) := by
  obtain ⟨g, ⟨p, b⟩⟩ := t
  simp only at h
  subst h
  rfl

/-- From every decoder state with cursor at most 15, the cursor is at 0 again
after some number k of further bytes with 1 <= k <= 16. -/
theorem receiveDataRun_returns_to_zero (s : Globals × RxLocals) (stream : List Nat)
    (hpos : s.2.pos ≤ 15) (hlen : 16 ≤ stream.length) :
    ∃ k, 1 ≤ k ∧ k ≤ 16 ∧ (receiveDataRun s (stream.take k)).2.pos = 0 := by
  obtain ⟨g, ⟨p, buf⟩⟩ := s
  simp only at hpos
  by_cases hp : p = 0
  · subst hp
    cases stream with
    | nil => simp at hlen
    | cons x rest =>
      simp only [List.length_cons] at hlen
      by_cases hx : x = startByte
      · refine ⟨16, by omega, by omega, ?_⟩
        have hstep : receiveDataStep (g, { pos := 0, buffer := buf }) x
            = (g, { pos := 1, buffer := setBuffer buf 0 x }) := by
          simp [receiveDataStep, hx]
        obtain ⟨g1, b1, h1⟩ := receiveDataRun_drain (rest.take 15) g 1 (setBuffer buf 0 x)
          (by omega) (by rw [List.length_take]; omega) (by omega)
        have htake : (x :: rest).take 16 = x :: rest.take 15 := rfl
        rw [htake]
        simp only [receiveDataRun, List.foldl_cons] at h1 ⊢
        rw [hstep, h1]
      · refine ⟨1, by omega, by omega, ?_⟩
        have htake : (x :: rest).take 1 = [x] := rfl
        rw [htake]
        simp [receiveDataRun, receiveDataStep, hx]
  · obtain ⟨g1, b1, h1⟩ := receiveDataRun_drain (stream.take (16 - p)) g p buf
      (by omega) (by rw [List.length_take]; omega) hpos
    exact ⟨16 - p, by omega, by omega, by rw [h1]⟩

/-- Whatever the decoder state, after one valid frame the cursor is at 0. -/
theorem receiveDataRun_frame_resync (s : Globals × RxLocals) (gs : Globals)
    (a b c d e : Nat) (hpos : s.2.pos ≤ 15)
    (ha : a ≤ 1) (hb : b ≤ 1) (hc : c ≤ 1) (hd : d ≤ 1) (he : e ≤ 1)
    (hst : gs.myState ≠ 170) (hx : gs.currentX ≠ 170) (hy : gs.currentY ≠ 170)
    (hty : gs.currentType ≠ 170) (hco : gs.currentColor ≠ 170)
    (hnt : gs.nextType ≠ 170) (hnc : gs.nextColor ≠ 170)
    (hr : (0 ≤ gs.myState ∧ gs.myState ≤ 255) ∧ (0 ≤ gs.currentX ∧ gs.currentX ≤ 255) ∧
      (0 ≤ gs.currentY ∧ gs.currentY ≤ 255) ∧ (0 ≤ gs.currentType ∧ gs.currentType ≤ 255) ∧
      (0 ≤ gs.currentColor ∧ gs.currentColor ≤ 255) ∧
      (0 ≤ gs.nextType ∧ gs.nextType ≤ 255) ∧ (0 ≤ gs.nextColor ∧ gs.nextColor ≤ 255)) :
    ∃ g1 buffer1, receiveDataRun s (sendData gs a b c d e)
      = (g1, { pos := 0, buffer := buffer1 }) := by
  obtain ⟨g, ⟨p, buf⟩⟩ := s
  simp only at hpos
  by_cases hp : p = 0
  · subst hp
    have h := (receiveDataRun_frame gs g buf a b c d e ha hb hc hd he hr.1 hr.2.1 hr.2.2.1
      hr.2.2.2.1 hr.2.2.2.2.1 hr.2.2.2.2.2.1 hr.2.2.2.2.2.2).2
    exact ⟨_, _, rx_at_zero _ h⟩
  · have hlenF := sendData_length gs a b c d e
    obtain ⟨g1, b1, h1⟩ := receiveDataRun_drain ((sendData gs a b c d e).take (16 - p)) g p buf
      (by omega) (by rw [List.length_take]; omega) hpos
    refine ⟨g1, b1, ?_⟩
    have hsplit : sendData gs a b c d e
        = (sendData gs a b c d e).take (16 - p) ++ (sendData gs a b c d e).drop (16 - p) :=
      (List.take_append_drop _ _).symm
    rw [hsplit, receiveDataRun_append, h1]
    apply receiveDataRun_skip
    intro x hxm
    have htail := sendData_tail_no_start gs a b c d e ha hb hc hd he hst hx hy hty hco hnt hnc hr
    apply htail x
    obtain ⟨n, hn⟩ : ∃ n, 16 - p = n + 1 := ⟨15 - p, by omega⟩
    rw [hn] at hxm
    cases hF : sendData gs a b c d e with
    | nil => rw [hF] at hlenF; simp at hlenF
    | cons y ys =>
      rw [hF] at hxm
      simp only [List.drop_succ_cons] at hxm
      simp only [List.tail_cons]
      exact List.mem_of_mem_drop hxm

/-- C26: from every decoder state (cursor 0..15, any buffer, any mirror) and
for every byte stream, the cursor is back at 0 after some k further bytes with
1 <= k <= 16; and two consecutive copies of a valid frame (as `sendData` emits
it for button levels in {0,1} and fields in 0..255 other than 0xAA) end with the
cursor at 0 and the mirror equal to the fields of the frame. -/
theorem decoder_self_heals (s : Globals × RxLocals) (stream : List Nat) (gs : Globals)
    (a b c d e : Nat) (hpos : s.2.pos ≤ 15) (hlen : 16 ≤ stream.length)
    (ha : a ≤ 1) (hb : b ≤ 1) (hc : c ≤ 1) (hd : d ≤ 1) (he : e ≤ 1)
    (hst : gs.myState ≠ 170) (hx : gs.currentX ≠ 170) (hy : gs.currentY ≠ 170)
    (hty : gs.currentType ≠ 170) (hco : gs.currentColor ≠ 170)
    (hnt : gs.nextType ≠ 170) (hnc : gs.nextColor ≠ 170)
    (hr : (0 ≤ gs.myState ∧ gs.myState ≤ 255) ∧ (0 ≤ gs.currentX ∧ gs.currentX ≤ 255) ∧
      (0 ≤ gs.currentY ∧ gs.currentY ≤ 255) ∧ (0 ≤ gs.currentType ∧ gs.currentType ≤ 255) ∧
      (0 ≤ gs.currentColor ∧ gs.currentColor ≤ 255) ∧
      (0 ≤ gs.nextType ∧ gs.nextType ≤ 255) ∧ (0 ≤ gs.nextColor ∧ gs.nextColor ≤ 255)) :
    (∃ k, 1 ≤ k ∧ k ≤ 16 ∧ (receiveDataRun s (stream.take k)).2.pos = 0) ∧
    mirror (receiveDataRun s (sendData gs a b c d e ++ sendData gs a b c d e)).1
      = [(a : Int), b, c, d, e, gs.myState, gs.currentX, gs.currentY,
          gs.currentType, gs.currentColor, gs.nextType, gs.nextColor] ∧
    (receiveDataRun s (sendData gs a b c d e ++ sendData gs a b c d e)).2.pos = 0 := by
  refine ⟨receiveDataRun_returns_to_zero s stream hpos hlen, ?_⟩
  obtain ⟨g1, b1, h1⟩ := receiveDataRun_frame_resync s gs a b c d e hpos ha hb hc hd he
    hst hx hy hty hco hnt hnc hr
  rw [receiveDataRun_append, h1]
  exact receiveDataRun_frame gs g1 b1 a b c d e ha hb hc hd he hr.1 hr.2.1 hr.2.2.1
    hr.2.2.2.1 hr.2.2.2.2.1 hr.2.2.2.2.2.1 hr.2.2.2.2.2.2

/-- C26 at a concrete input: from `rxMidFrame` (cursor 9) two copies of the
frame of `sentGlobals` restore the cursor and set the mirror to the frame. -/
theorem decoder_self_heals_witness :
    rxMidFrame.pos = 9 ∧
    mirror (receiveDataRun ({}, rxMidFrame)
      (sendData sentGlobals 1 0 1 1 0 ++ sendData sentGlobals 1 0 1 1 0)).1
      = [1, 0, 1, 1, 0, 3, 4, 5, 7, 2, 12, 1] ∧
    (receiveDataRun ({}, rxMidFrame)
      (sendData sentGlobals 1 0 1 1 0 ++ sendData sentGlobals 1 0 1 1 0)).2.pos = 0 :=
  ⟨rfl, (decoder_self_heals ({}, rxMidFrame) (List.replicate 16 0) sentGlobals 1 0 1 1 0
    (by decide) (by decide) (by decide) (by decide) (by decide) (by decide) (by decide)
    (by decide) (by decide) (by decide) (by decide) (by decide) (by decide) (by decide)
    (by decide)).2⟩

/-! ### Peer waits -/

/-- C28: with a mirror that never changes and holds -1 in `buddyCurrentType` and
`buddyNextType`, the wait loop of `initGameSetting` is still running after any
number of evaluations of its condition: it has no retry ceiling. The first wait
loop of the `nextRound` handler, which counts its retries, exits within 202
evaluations for every sequence of mirror values. -/
theorem initGameWait_unbounded (fuel start : Nat) (currentTetris : tetrisBlock)
    (mirrorAt : Nat → Globals) :
    initGameWait (fun _ => systemInit {}) fuel start = none ∧
    (nextRoundWait currentTetris mirrorAt 202 0 0).isSome = true := by
  constructor
  · induction fuel generalizing start with
    | zero => rfl
    | succ n ih =>
      simp only [initGameWait]
      rw [if_pos (by decide)]
      exact ih (start + 1)
  · have key : ∀ (fuel : Nat) (count : Int) (i : Nat), 0 ≤ count → count ≤ 201 →
        201 - count < fuel → (nextRoundWait currentTetris mirrorAt fuel count i).isSome = true := by
      intro fuel
      induction fuel with
      | zero => intro count i h0 h1 h2; omega
      | succ n ih =>
        intro count i h0 h1 h2
        simp only [nextRoundWait]
        split_ifs with hcond hover
        · rfl
        · exact ih (count + 1) (i + 1) (by omega) (by omega) (by omega)
        · rfl
    exact key 202 0 0 (by omega) (by omega) (by omega)

/-! ### Debounce -/

theorem debounce_fires_iff (level pressed : Int) :
    (debounce level pressed).1 = true ↔ level = 0 ∧ pressed = 1 := by
  unfold debounce
  split_ifs with h1 h2
  · simp [h1]
  · simp [h1]
  · simp [h1]

theorem debounce_flag_after_fire (level pressed : Int)
    (h : (debounce level pressed).1 = true) : (debounce level pressed).2 = 0 := by
  have := (debounce_fires_iff level pressed).mp h
  unfold debounce
  rw [if_pos this]

theorem debounce_flag_stays (level pressed : Int) (hp : pressed ≠ 1) (hl : level ≠ 1) :
    (debounce level pressed).2 = pressed := by
  unfold debounce
  rw [if_neg (fun h => hp h.2), if_neg hl]

/-- A source whose flag is not 1 fires only after it has read the level 1. -/
theorem debounceFires_needs_release (levels : List Int) (pressed : Int) (j : Nat)
    (hp : pressed ≠ 1) (hj : (debounceFires pressed levels)[j]? = some true) :
    ∃ k, k < j ∧ levels[k]? = some 1 := by
  induction levels generalizing pressed j with
  | nil => simp [debounceFires] at hj
  | cons lv rest ih =>
    cases j with
    | zero =>
      simp only [debounceFires, List.getElem?_cons_zero, Option.some.injEq] at hj
      exact absurd ((debounce_fires_iff lv pressed).mp hj).2 hp
    | succ j' =>
      simp only [debounceFires, List.getElem?_cons_succ] at hj
      by_cases hl : lv = 1
      · exact ⟨0, by omega, by simp [hl]⟩
      · rw [debounce_flag_stays lv pressed hp hl] at hj
        obtain ⟨k, hk, hlev⟩ := ih pressed j' hp hj
        exact ⟨k + 1, by omega, by simpa using hlev⟩

theorem debounceFires_reads_zero (levels : List Int) (pressed : Int) (i : Nat)
    (hi : (debounceFires pressed levels)[i]? = some true) : levels[i]? = some 0 := by
  induction levels generalizing pressed i with
  | nil => simp [debounceFires] at hi
  | cons lv rest ih =>
    cases i with
    | zero =>
      simp only [debounceFires, List.getElem?_cons_zero, Option.some.injEq] at hi
      simp [((debounce_fires_iff lv pressed).mp hi).1]
    | succ i' =>
      simp only [debounceFires, List.getElem?_cons_succ] at hi ⊢
      exact ih _ i' hi

theorem debounceFires_release_between (levels : List Int) (pressed : Int) (i j : Nat)
    (hij : i < j) (hi : (debounceFires pressed levels)[i]? = some true)
    (hj : (debounceFires pressed levels)[j]? = some true) :
    ∃ k, i < k ∧ k < j ∧ levels[k]? = some 1 := by
  induction levels generalizing pressed i j with
  | nil => simp [debounceFires] at hi
  | cons lv rest ih =>
    cases j with
    | zero => omega
    | succ j' =>
      simp only [debounceFires, List.getElem?_cons_succ] at hj
      cases i with
      | zero =>
        simp only [debounceFires, List.getElem?_cons_zero, Option.some.injEq] at hi
        rw [debounce_flag_after_fire lv pressed hi] at hj
        obtain ⟨k, hk, hlev⟩ := debounceFires_needs_release rest 0 j' (by decide) hj
        exact ⟨k + 1, by omega, by omega, by simpa using hlev⟩
      | succ i' =>
        simp only [debounceFires, List.getElem?_cons_succ] at hi
        obtain ⟨k, hk1, hk2, hlev⟩ := ih _ i' j' (by omega) hi hj
        exact ⟨k + 1, by omega, by omega, by simpa using hlev⟩

theorem localButtonA_debounce (level : Int) (l : ArbiterLocals) (g : Globals)
    (hen : g.mode = currentMode.modeSelect ∨ g.mode = currentMode.singlePlayer ∨
      g.mode = currentMode.doublePlayerRotate ∨ g.mode = currentMode.doublePlayerSelect) :
    localButtonA level (l, g) =
      ({ l with pressedA := (debounce level l.pressedA).2 },
        if (debounce level l.pressedA).1 = true then
          { g with publicButton := button.A, inputReceived := true }
        else g) := by
  unfold localButtonA debounce
  simp only [hen, if_true]
  split_ifs <;> first | rfl | simp_all

theorem externalButtonA_debounce (l : ArbiterLocals) (g : Globals)
    (hen : g.mode = currentMode.doublePlayerMove ∨ g.mode = currentMode.doublePlayerSelect ∨
      g.mode = currentMode.modeSelect ∨
      (g.myState = currentState.gamePause.toInt ∧ g.mode = currentMode.doublePlayerRotate)) :
    externalButtonA (l, g) =
      ({ l with buddyPressedA := (debounce g.buddyAState l.buddyPressedA).2 },
        if (debounce g.buddyAState l.buddyPressedA).1 = true then
          { g with publicButton := button.A, buddyA := 1, inputReceived := true }
        else g) := by
  unfold externalButtonA debounce
  simp only [hen, if_true]
  split_ifs <;> first | rfl | simp_all

theorem localButtonB_debounce (level : Int) (l : ArbiterLocals) (g : Globals)
    (hen : g.mode = currentMode.singlePlayer ∨ g.mode = currentMode.doublePlayerMove ∨
      g.mode = currentMode.doublePlayerSelect ∨ g.mode = currentMode.modeSelect ∨
      (g.mode = currentMode.doublePlayerRotate ∧ g.myState = currentState.gamePause.toInt)) :
    localButtonB level (l, g) =
      ({ l with pressedB := (debounce level l.pressedB).2 },
        if (debounce level l.pressedB).1 = true then
          { g with publicButton := button.B, inputReceived := true }
        else g) := by
  unfold localButtonB debounce
  simp only [hen, if_true]
  split_ifs <;> first | rfl | simp_all

theorem externalButtonB_debounce (l : ArbiterLocals) (g : Globals)
    (hen : g.mode = currentMode.doublePlayerRotate ∨ g.mode = currentMode.doublePlayerSelect ∨
      g.mode = currentMode.modeSelect) :
    externalButtonB (l, g) =
      ({ l with buddyPressedB := (debounce g.buddyBState l.buddyPressedB).2 },
        if (debounce g.buddyBState l.buddyPressedB).1 = true then
          { g with publicButton := button.B, buddyB := 1, inputReceived := true }
        else g) := by
  unfold externalButtonB debounce
  simp only [hen, if_true]
  split_ifs <;> first | rfl | simp_all

theorem localButtonC_debounce (level : Int) (l : ArbiterLocals) (g : Globals)
    (hen : g.mode = currentMode.singlePlayer ∨ g.mode = currentMode.doublePlayerMove ∨
      g.mode = currentMode.doublePlayerSelect ∨ g.mode = currentMode.modeSelect) :
    localButtonC level (l, g) =
      ({ l with pressedC := (debounce level l.pressedC).2 },
        if (debounce level l.pressedC).1 = true then
          { g with publicButton := button.C, inputReceived := true }
        else g) := by
  unfold localButtonC debounce
  simp only [hen, if_true]
  split_ifs <;> first | rfl | simp_all

theorem externalButtonC_debounce (l : ArbiterLocals) (g : Globals)
    (hen : g.mode = currentMode.doublePlayerRotate ∨ g.mode = currentMode.doublePlayerSelect ∨
      g.mode = currentMode.modeSelect) :
    externalButtonC (l, g) =
      ({ l with buddyPressedC := (debounce g.buddyCState l.buddyPressedC).2 },
        if (debounce g.buddyCState l.buddyPressedC).1 = true then
          { g with publicButton := button.C, buddyC := 1, inputReceived := true }
        else g) := by
  unfold externalButtonC debounce
  simp only [hen, if_true]
  split_ifs <;> first | rfl | simp_all

theorem localButtonD_debounce (level : Int) (l : ArbiterLocals) (g : Globals)
    (hen : g.mode = currentMode.singlePlayer ∨ g.mode = currentMode.doublePlayerMove ∨
      g.mode = currentMode.doublePlayerSelect ∨ g.mode = currentMode.modeSelect ∨
      (g.mode = currentMode.doublePlayerRotate ∧ g.myState = currentState.gamePause.toInt)) :
    localButtonD level (l, g) =
      ({ l with pressedD := (debounce level l.pressedD).2 },
        if (debounce level l.pressedD).1 = true then
          { g with publicButton := button.D, inputReceived := true }
        else g) := by
  unfold localButtonD debounce
  simp only [hen, if_true]
  split_ifs <;> first | rfl | simp_all

theorem externalButtonD_debounce (l : ArbiterLocals) (g : Globals)
    (hen : g.mode = currentMode.doublePlayerRotate ∨ g.mode = currentMode.doublePlayerSelect ∨
      g.mode = currentMode.modeSelect) :
    externalButtonD (l, g) =
      ({ l with buddyPressedD := (debounce g.buddyDState l.buddyPressedD).2 },
        if (debounce g.buddyDState l.buddyPressedD).1 = true then
          { g with publicButton := button.D, buddyD := 1, inputReceived := true }
        else g) := by
  unfold externalButtonD debounce
  simp only [hen, if_true]
  split_ifs <;> first | rfl | simp_all

theorem localButtonE_debounce (level : Int) (l : ArbiterLocals) (g : Globals)
    (hen : g.mode = currentMode.singlePlayer ∨ g.mode = currentMode.doublePlayerRotate) :
    localButtonE level (l, g) =
      ({ l with pressedE := (debounce level l.pressedE).2 },
        if (debounce level l.pressedE).1 = true then
          { g with publicButton := button.E, inputReceived := true }
        else g) := by
  unfold localButtonE debounce
  simp only [hen, if_true]
  split_ifs <;> first | rfl | simp_all

theorem externalButtonE_debounce (l : ArbiterLocals) (g : Globals)
    (hen : g.mode = currentMode.doublePlayerRotate) :
    externalButtonE (l, g) =
      ({ l with buddyPressedE := (debounce g.buddyEState l.buddyPressedE).2 },
        if (debounce g.buddyEState l.buddyPressedE).1 = true then
          { g with publicButton := button.E, buddyE := 1, inputReceived := true }
        else g) := by
  unfold externalButtonE debounce
  simp only [hen, if_true]
  split_ifs <;> first | rfl | simp_all

/-! ### Single-player mode -/

theorem localButtonA_single (level : Int) (s t : ArbiterLocals × Globals)
    (h : singlePair s t) :
    singlePair (localButtonA level s) (localButtonA level t) ∧
    relayFlags (localButtonA level s).2 = relayFlags s.2 := by
  obtain ⟨l, g⟩ := s
  obtain ⟨l', g'⟩ := t
  obtain ⟨hm, hm', h1, h2, h3, h4, h5, h6, h7⟩ := h
  simp only at hm hm' h1 h2 h3 h4 h5 h6 h7
  unfold singlePair sameLocalView relayFlags localButtonA
  simp only [hm, hm', h1]
  split_ifs <;> simp_all

theorem externalButtonA_single (s t : ArbiterLocals × Globals)
    (h : singlePair s t) :
    singlePair (externalButtonA s) (externalButtonA t) ∧
    relayFlags (externalButtonA s).2 = relayFlags s.2 := by
  obtain ⟨l, g⟩ := s
  obtain ⟨l', g'⟩ := t
  obtain ⟨hm, hm', h1, h2, h3, h4, h5, h6, h7⟩ := h
  simp only at hm hm' h1 h2 h3 h4 h5 h6 h7
  unfold singlePair sameLocalView relayFlags externalButtonA
  simp [hm, hm', h1, h2, h3, h4, h5, h6, h7]

theorem localButtonB_single (level : Int) (s t : ArbiterLocals × Globals)
    (h : singlePair s t) :
    singlePair (localButtonB level s) (localButtonB level t) ∧
    relayFlags (localButtonB level s).2 = relayFlags s.2 := by
  obtain ⟨l, g⟩ := s
  obtain ⟨l', g'⟩ := t
  obtain ⟨hm, hm', h1, h2, h3, h4, h5, h6, h7⟩ := h
  simp only at hm hm' h1 h2 h3 h4 h5 h6 h7
  unfold singlePair sameLocalView relayFlags localButtonB
  simp only [hm, hm', h1, h2, h3, h4, h5]
  split_ifs <;> simp_all

theorem externalButtonB_single (s t : ArbiterLocals × Globals)
    (h : singlePair s t) :
    singlePair (externalButtonB s) (externalButtonB t) ∧
    relayFlags (externalButtonB s).2 = relayFlags s.2 := by
  obtain ⟨l, g⟩ := s
  obtain ⟨l', g'⟩ := t
  obtain ⟨hm, hm', h1, h2, h3, h4, h5, h6, h7⟩ := h
  simp only at hm hm' h1 h2 h3 h4 h5 h6 h7
  unfold singlePair sameLocalView relayFlags externalButtonB
  simp [hm, hm', h1, h2, h3, h4, h5, h6, h7]

theorem localButtonC_single (level : Int) (s t : ArbiterLocals × Globals)
    (h : singlePair s t) :
    singlePair (localButtonC level s) (localButtonC level t) ∧
    relayFlags (localButtonC level s).2 = relayFlags s.2 := by
  obtain ⟨l, g⟩ := s
  obtain ⟨l', g'⟩ := t
  obtain ⟨hm, hm', h1, h2, h3, h4, h5, h6, h7⟩ := h
  simp only at hm hm' h1 h2 h3 h4 h5 h6 h7
  unfold singlePair sameLocalView relayFlags localButtonC
  simp only [hm, hm', h1, h2, h3, h4, h5]
  split_ifs <;> simp_all

theorem externalButtonC_single (s t : ArbiterLocals × Globals)
    (h : singlePair s t) :
    singlePair (externalButtonC s) (externalButtonC t) ∧
    relayFlags (externalButtonC s).2 = relayFlags s.2 := by
  obtain ⟨l, g⟩ := s
  obtain ⟨l', g'⟩ := t
  obtain ⟨hm, hm', h1, h2, h3, h4, h5, h6, h7⟩ := h
  simp only at hm hm' h1 h2 h3 h4 h5 h6 h7
  unfold singlePair sameLocalView relayFlags externalButtonC
  simp [hm, hm', h1, h2, h3, h4, h5, h6, h7]

theorem localButtonD_single (level : Int) (s t : ArbiterLocals × Globals)
    (h : singlePair s t) :
    singlePair (localButtonD level s) (localButtonD level t) ∧
    relayFlags (localButtonD level s).2 = relayFlags s.2 := by
  obtain ⟨l, g⟩ := s
  obtain ⟨l', g'⟩ := t
  obtain ⟨hm, hm', h1, h2, h3, h4, h5, h6, h7⟩ := h
  simp only at hm hm' h1 h2 h3 h4 h5 h6 h7
  unfold singlePair sameLocalView relayFlags localButtonD
  simp only [hm, hm', h1, h2, h3, h4, h5]
  split_ifs <;> simp_all

theorem externalButtonD_single (s t : ArbiterLocals × Globals)
    (h : singlePair s t) :
    singlePair (externalButtonD s) (externalButtonD t) ∧
    relayFlags (externalButtonD s).2 = relayFlags s.2 := by
  obtain ⟨l, g⟩ := s
  obtain ⟨l', g'⟩ := t
  obtain ⟨hm, hm', h1, h2, h3, h4, h5, h6, h7⟩ := h
  simp only at hm hm' h1 h2 h3 h4 h5 h6 h7
  unfold singlePair sameLocalView relayFlags externalButtonD
  simp [hm, hm', h1, h2, h3, h4, h5, h6, h7]

theorem localButtonE_single (level : Int) (s t : ArbiterLocals × Globals)
    (h : singlePair s t) :
    singlePair (localButtonE level s) (localButtonE level t) ∧
    relayFlags (localButtonE level s).2 = relayFlags s.2 := by
  obtain ⟨l, g⟩ := s
  obtain ⟨l', g'⟩ := t
  obtain ⟨hm, hm', h1, h2, h3, h4, h5, h6, h7⟩ := h
  simp only at hm hm' h1 h2 h3 h4 h5 h6 h7
  unfold singlePair sameLocalView relayFlags localButtonE
  simp only [hm, hm', h1, h2, h3, h4, h5]
  split_ifs <;> simp_all

theorem externalButtonE_single (s t : ArbiterLocals × Globals)
    (h : singlePair s t) :
    singlePair (externalButtonE s) (externalButtonE t) ∧
    relayFlags (externalButtonE s).2 = relayFlags s.2 := by
  obtain ⟨l, g⟩ := s
  obtain ⟨l', g'⟩ := t
  obtain ⟨hm, hm', h1, h2, h3, h4, h5, h6, h7⟩ := h
  simp only at hm hm' h1 h2 h3 h4 h5 h6 h7
  unfold singlePair sameLocalView relayFlags externalButtonE
  simp [hm, hm', h1, h2, h3, h4, h5, h6, h7]

theorem connectionCheck_single (s t : ArbiterLocals × Globals)
    (h : singlePair s t) :
    singlePair (connectionCheck s) (connectionCheck t) ∧
    relayFlags (connectionCheck s).2 = relayFlags s.2 := by
  obtain ⟨l, g⟩ := s
  obtain ⟨l', g'⟩ := t
  obtain ⟨hm, hm', h1, h2, h3, h4, h5, h6, h7⟩ := h
  simp only at hm hm' h1 h2 h3 h4 h5 h6 h7
  unfold singlePair sameLocalView relayFlags connectionCheck
  simp only []
  split_ifs <;> simp_all

theorem pauseFromBuddy_single (s t : ArbiterLocals × Globals)
    (h : singlePair s t) :
    singlePair (pauseFromBuddy s) (pauseFromBuddy t) ∧
    relayFlags (pauseFromBuddy s).2 = relayFlags s.2 := by
  obtain ⟨l, g⟩ := s
  obtain ⟨l', g'⟩ := t
  obtain ⟨hm, hm', h1, h2, h3, h4, h5, h6, h7⟩ := h
  simp only at hm hm' h1 h2 h3 h4 h5 h6 h7
  unfold singlePair sameLocalView relayFlags pauseFromBuddy
  simp [hm, hm', h1, h2, h3, h4, h5, h6, h7]

theorem leavePauseFromBuddy_single (s t : ArbiterLocals × Globals)
    (h : singlePair s t) :
    singlePair (leavePauseFromBuddy s) (leavePauseFromBuddy t) ∧
    relayFlags (leavePauseFromBuddy s).2 = relayFlags s.2 := by
  obtain ⟨l, g⟩ := s
  obtain ⟨l', g'⟩ := t
  obtain ⟨hm, hm', h1, h2, h3, h4, h5, h6, h7⟩ := h
  simp only at hm hm' h1 h2 h3 h4 h5 h6 h7
  unfold singlePair sameLocalView relayFlags leavePauseFromBuddy
  simp [hm, hm', h1, h2, h3, h4, h5, h6, h7]

theorem buttonInputTick_single (lv : ButtonLevels) (s t : ArbiterLocals × Globals)
    (h : singlePair s t) :
    singlePair (buttonInputTick lv s) (buttonInputTick lv t) ∧
    relayFlags (buttonInputTick lv s).2 = relayFlags s.2 := by
  obtain ⟨p1, r1⟩ := localButtonA_single lv.levelA s t h
  obtain ⟨p2, r2⟩ := externalButtonA_single _ _ p1
  obtain ⟨p3, r3⟩ := localButtonB_single lv.levelB _ _ p2
  obtain ⟨p4, r4⟩ := externalButtonB_single _ _ p3
  obtain ⟨p5, r5⟩ := localButtonC_single lv.levelC _ _ p4
  obtain ⟨p6, r6⟩ := externalButtonC_single _ _ p5
  obtain ⟨p7, r7⟩ := localButtonD_single lv.levelD _ _ p6
  obtain ⟨p8, r8⟩ := externalButtonD_single _ _ p7
  obtain ⟨p9, r9⟩ := localButtonE_single lv.levelE _ _ p8
  obtain ⟨p10, r10⟩ := externalButtonE_single _ _ p9
  obtain ⟨p11, r11⟩ := pauseFromBuddy_single _ _ p10
  obtain ⟨p12, r12⟩ := leavePauseFromBuddy_single _ _ p11
  obtain ⟨p13, r13⟩ := connectionCheck_single _ _ p12
  refine ⟨p13, ?_⟩
  rw [← r1, ← r2, ← r3, ← r4, ← r5, ← r6, ← r7, ← r8, ← r9, ← r10, ← r11, ← r12, ← r13]
  rfl

/-- C30: in mode `singlePlayer`, for the same five local button levels, two
states of the arbiter that agree on the five local debounce flags, on
`publicButton` and on the wakeup semaphore, whatever their peer mirrors
(`buddyAState .. buddyEState`, `buddyState`) and peer debounce flags, agree
after one tick on the published button, on the wakeup semaphore and on the five
local debounce flags; the tick leaves the mode at `singlePlayer`, and the
relayed flags `buddyA .. buddyE` are what they were before it. -/
theorem single_player_ignores_peer (lv : ButtonLevels) (s t : ArbiterLocals × Globals)
    (h : singlePair s t) :
    sameLocalView (buttonInputTick lv s) (buttonInputTick lv t) ∧
    (buttonInputTick lv s).2.mode = currentMode.singlePlayer ∧
    relayFlags (buttonInputTick lv s).2 = relayFlags s.2 := by
  obtain ⟨hp, hr⟩ := buttonInputTick_single lv s t h
  exact ⟨hp.2.2, hp.1, hr⟩

/-- C30 at a concrete input: in mode `singlePlayer` with button C pressed, a
board that sees every button of the peer pressed and the peer paused publishes
the same event C as a board with a silent peer, and sets no relayed flag. -/
theorem single_player_ignores_peer_witness :
    (buttonInputTick { levelA := 1, levelB := 1, levelC := 0, levelD := 1, levelE := 1 }
      ({}, { mode := currentMode.singlePlayer, buddyAState := 0, buddyBState := 0,
              buddyCState := 0, buddyDState := 0, buddyEState := 0,
              buddyState := 5 })).2.publicButton = button.C ∧
    sameLocalView
      (buttonInputTick { levelA := 1, levelB := 1, levelC := 0, levelD := 1, levelE := 1 }
        ({}, { mode := currentMode.singlePlayer, buddyAState := 0, buddyBState := 0,
                buddyCState := 0, buddyDState := 0, buddyEState := 0, buddyState := 5 }))
      (buttonInputTick { levelA := 1, levelB := 1, levelC := 0, levelD := 1, levelE := 1 }
        ({}, { mode := currentMode.singlePlayer })) ∧
    relayFlags
      (buttonInputTick { levelA := 1, levelB := 1, levelC := 0, levelD := 1, levelE := 1 }
        ({}, { mode := currentMode.singlePlayer, buddyAState := 0, buddyBState := 0,
                buddyCState := 0, buddyDState := 0, buddyEState := 0,
                buddyState := 5 })).2 = [0, 0, 0, 0, 0] :=
  ⟨by decide,
    (single_player_ignores_peer
      { levelA := 1, levelB := 1, levelC := 0, levelD := 1, levelE := 1 }
      ({}, { mode := currentMode.singlePlayer, buddyAState := 0, buddyBState := 0,
              buddyCState := 0, buddyDState := 0, buddyEState := 0, buddyState := 5 })
      ({}, { mode := currentMode.singlePlayer })
      ⟨rfl, rfl, rfl, rfl, rfl, rfl, rfl, rfl, rfl⟩).1,
    (single_player_ignores_peer
      { levelA := 1, levelB := 1, levelC := 0, levelD := 1, levelE := 1 }
      ({}, { mode := currentMode.singlePlayer, buddyAState := 0, buddyBState := 0,
              buddyCState := 0, buddyDState := 0, buddyEState := 0, buddyState := 5 })
      ({}, { mode := currentMode.singlePlayer })
      ⟨rfl, rfl, rfl, rfl, rfl, rfl, rfl, rfl, rfl⟩).2.2⟩

/-! ### Containment, rotation cycles and the acceptance test on bits -/

theorem tetrisRotate_cond (b : tetrisBlock) (map : Grid) :
    (getLeft (tetrisShape { b with type := b.next_type }) < 0 ∨
      getRight (tetrisShape { b with type := b.next_type }) > 9 ∨
      noCollision (tetrisShape { b with type := b.next_type }) map = 0) ↔
      rotationBlocked (tetrisShape { b with type := b.next_type }) map := by
  unfold rotationBlocked
  rw [getLeft_neg_iff, getRight_gt_iff, noCollision_eq_zero_iff]

theorem tetrisRotate_accepted (b : tetrisBlock) (map : Grid)
    (h : ¬ rotationBlocked (tetrisShape { b with type := b.next_type }) map) :
    tetrisRotate b map = tetrisShape { b with type := b.next_type } := by
  unfold tetrisRotate
  simp only []
  rw [if_neg (fun hc => h ((tetrisRotate_cond b map).mp hc))]

theorem tetrisRotate_blocked (b : tetrisBlock) (map : Grid) (hwf : wellFormed b)
    (h : rotationBlocked (tetrisShape { b with type := b.next_type }) map) :
    tetrisRotate b map = b := by
  unfold tetrisRotate
  simp only []
  rw [if_pos ((tetrisRotate_cond b map).mpr h)]
  refine tetrisShape_restore b _ hwf ?_ rfl ?_
  · show (tetrisShape { b with type := b.next_type }).center = b.center
    rw [tetrisShape_center]
  · show (tetrisShape { b with type := b.next_type }).color_num = b.color_num
    rw [tetrisShape_color_num]

theorem tetrisShape_next_type (b : tetrisBlock) (h0 : 0 ≤ b.type) (h1 : b.type ≤ 27) :
    (tetrisShape b).next_type = successorType b.type := by
  have hs := shapeCase_isSome b.type h0 h1
  unfold tetrisShape successorType
  cases h : shapeCase b.type with
  | none => rw [h] at hs; cases hs
  | some s => rfl

theorem successorType_range (t : Int) (h0 : 0 ≤ t) (h1 : t ≤ 27) :
    0 ≤ successorType t ∧ successorType t ≤ 27 := by
  interval_cases t <;> decide

theorem successorType_four (t : Int) (h0 : 0 ≤ t) (h1 : t ≤ 27) :
    successorType (successorType (successorType (successorType t))) = t := by
  interval_cases t <;> rfl

/-- An accepted rotation of a well-formed block gives a well-formed block with
the same centre and colour whose type is the successor of the old type. -/
theorem rotated_wellFormed (b : tetrisBlock) (hwf : wellFormed b) :
    wellFormed (tetrisShape { b with type := b.next_type }) ∧
    (tetrisShape { b with type := b.next_type }).type = successorType b.type ∧
    (tetrisShape { b with type := b.next_type }).center = b.center ∧
    (tetrisShape { b with type := b.next_type }).color_num = b.color_num := by
  have hn : b.next_type = successorType b.type := by
    have := tetrisShape_next_type b hwf.1 hwf.2.1
    rw [hwf.2.2] at this
    exact this
  have hr := successorType_range b.type hwf.1 hwf.2.1
  refine ⟨?_, ?_, ?_, ?_⟩
  · apply wellFormed_tetrisShape
    · show 0 ≤ b.next_type
      rw [hn]; exact hr.1
    · show b.next_type ≤ 27
      rw [hn]; exact hr.2
  · rw [tetrisShape_type]
    exact hn
  · rw [tetrisShape_center]
  · rw [tetrisShape_color_num]
theorem getLeft_pos_iff (b : tetrisBlock) :
    getLeft b > 0 ↔
      (0 < b.position0.x ∧ 0 < b.position1.x ∧ 0 < b.position2.x ∧ 0 < b.position3.x) := by
  unfold getLeft
  simp only []
  split_ifs <;> omega

theorem getRight_lt_iff (b : tetrisBlock) :
    getRight b < 9 ↔
      (b.position0.x < 9 ∧ b.position1.x < 9 ∧ b.position2.x < 9 ∧ b.position3.x < 9) := by
  unfold getRight
  simp only []
  split_ifs <;> omega

/-- The cells `tetrisShape` computes for a block with the type of a well-formed
block `b` and a centre `d` columns and `e` rows away are the cells of `b`
moved by `d` columns and `e` rows. -/
theorem tetrisShape_translate (b b' : tetrisBlock) (d e : Int) (hwf : wellFormed b)
    (ht : b'.type = b.type) (hx : b'.center.x = b.center.x + d)
    (hy : b'.center.y = b.center.y + e) :
    (tetrisShape b').position0 = { x := b.position0.x + d, y := b.position0.y + e } ∧
    (tetrisShape b').position1 = { x := b.position1.x + d, y := b.position1.y + e } ∧
    (tetrisShape b').position2 = { x := b.position2.x + d, y := b.position2.y + e } ∧
    (tetrisShape b').position3 = { x := b.position3.x + d, y := b.position3.y + e } := by
  have hs := shapeCase_isSome b.type hwf.1 hwf.2.1
  have hb := hwf.2.2
  unfold tetrisShape at hb ⊢
  rw [ht]
  cases h : shapeCase b.type with
  | none => rw [h] at hs; cases hs
  | some s =>
    rw [h] at hb
    simp only [] at hb ⊢
    have e0 := congrArg tetrisBlock.position0 hb
    have e1 := congrArg tetrisBlock.position1 hb
    have e2 := congrArg tetrisBlock.position2 hb
    have e3 := congrArg tetrisBlock.position3 hb
    simp only [] at e0 e1 e2 e3
    rw [← e0, ← e1, ← e2, ← e3, hx, hy]
    simp only [point.mk.injEq]
    omega

/-- The centre after the `switch` of `tetrisMove`: it moves by `d` columns and
`e` rows, where a move to the left needs `min > 0` and a move to the right
needs `max < 9`. -/
theorem moveCenter_offset (b : tetrisBlock) (direct : direction) :
    ∃ d e : Int, (moveCenter b direct).center.x = b.center.x + d ∧
      (moveCenter b direct).center.y = b.center.y + e ∧
      ((d = 0 ∧ (e = 0 ∨ e = 1)) ∨ (d = -1 ∧ e = 0 ∧ getLeft b > 0) ∨
        (d = 1 ∧ e = 0 ∧ getRight b < 9)) := by
  unfold moveCenter
  cases direct
  · exact ⟨0, 1, by simp, by simp, by simp⟩
  · by_cases h : getLeft b > 0
    · exact ⟨-1, 0, by simp [h]; omega, by simp [h], by simp [h]⟩
    · exact ⟨0, 0, by simp [h], by simp [h], by simp⟩
  · by_cases h : getRight b < 9
    · exact ⟨1, 0, by simp [h], by simp [h], by simp [h]⟩
    · exact ⟨0, 0, by simp [h], by simp [h], by simp⟩

/-- C33: for every well-formed block whose four cells have x in 0..9, every
map and every direction, the block left by `tetrisMove` and the block left by
`tetrisRotate` again have their four cells with x in 0..9, on the accepting
and on the rejecting path alike. -/
theorem horizontal_containment (b : tetrisBlock) (map : Grid) (direct : direction)
    (hwf : wellFormed b) (hin : columnsInside b) :
    columnsInside (tetrisMove b direct map).2.1 ∧ columnsInside (tetrisRotate b map) := by
  constructor
  · unfold tetrisMove
    simp only []
    split_ifs with h
    · show columnsInside (tetrisShape { tetrisShape (moveCenter b direct) with center := b.center })
      rw [tetrisMove_restored b direct hwf]
      exact hin
    · show columnsInside (tetrisShape (moveCenter b direct))
      obtain ⟨d, e, hx, hy, hd⟩ := moveCenter_offset b direct
      obtain ⟨p0, p1, p2, p3⟩ :=
        tetrisShape_translate b (moveCenter b direct) d e hwf (moveCenter_type b direct) hx hy
      rw [getLeft_pos_iff, getRight_lt_iff] at hd
      unfold columnsInside at hin ⊢
      rw [p0, p1, p2, p3]
      simp only []
      omega
  · by_cases h : rotationBlocked (tetrisShape { b with type := b.next_type }) map
    · rw [tetrisRotate_blocked b map hwf h]
      exact hin
    · rw [tetrisRotate_accepted b map h]
      unfold rotationBlocked at h
      unfold columnsInside
      omega

/-- C33 at concrete inputs: `leftWallBlock`, whose leftmost cell is in column
0, keeps its cells in columns 0..9 when moved left on the empty map and when
rotated there. -/
theorem horizontal_containment_witness :
    wellFormed leftWallBlock ∧ columnsInside leftWallBlock ∧
    columnsInside (tetrisMove leftWallBlock direction.left emptyMap).2.1 ∧
    columnsInside (tetrisRotate leftWallBlock emptyMap) :=
  ⟨by decide, by decide,
    horizontal_containment leftWallBlock emptyMap direction.left (by decide) (by decide)⟩

/-- C35: for every receive buffer whose bytes 1, 2, 3, 4, 7 and 8 are each 0
or 1 and every final byte at cursor position 15, the acceptance test of
`receiveData` holds iff the final byte is STOP and buffer[7] = buffer[1] XOR
buffer[2] and buffer[8] = buffer[3] XOR buffer[4]; when it holds the step
overwrites the twelve mirror fields with buffer[1..6] and buffer[9..14], and
when it does not the globals are left as they are; in both cases the cursor
returns to 0. -/
theorem acceptance_on_bits (g : Globals) (buffer : Nat → Nat) (input : Nat)
    (h1 : buffer 1 ≤ 1) (h2 : buffer 2 ≤ 1) (h3 : buffer 3 ≤ 1) (h4 : buffer 4 ≤ 1)
    (h7 : buffer 7 ≤ 1) (h8 : buffer 8 ≤ 1) :
    (frameAccepted buffer input = true ↔
      (input = stopByte ∧ buffer 7 = buffer 1 ^^^ buffer 2 ∧
        buffer 8 = buffer 3 ^^^ buffer 4)) ∧
    ((input = stopByte ∧ buffer 7 = buffer 1 ^^^ buffer 2 ∧
        buffer 8 = buffer 3 ^^^ buffer 4) →
      mirror (receiveDataStep (g, { pos := 15, buffer := buffer }) input).1
        = [(buffer 1 : Int), (buffer 2 : Int), (buffer 3 : Int), (buffer 4 : Int),
            (buffer 5 : Int), (buffer 6 : Int), (buffer 9 : Int), (buffer 10 : Int),
            (buffer 11 : Int), (buffer 12 : Int), (buffer 13 : Int), (buffer 14 : Int)]) ∧
    (¬ (input = stopByte ∧ buffer 7 = buffer 1 ^^^ buffer 2 ∧
        buffer 8 = buffer 3 ^^^ buffer 4) →
      (receiveDataStep (g, { pos := 15, buffer := buffer }) input).1 = g) ∧
    (receiveDataStep (g, { pos := 15, buffer := buffer }) input).2.pos = 0 := by
  have key : frameAccepted buffer input = true ↔
      (input = stopByte ∧ buffer 7 = buffer 1 ^^^ buffer 2 ∧
        buffer 8 = buffer 3 ^^^ buffer 4) := by
    unfold frameAccepted
    simp only [Bool.and_eq_true, decide_eq_true_eq, and_assoc]
    generalize buffer 1 = b1 at h1
    generalize buffer 2 = b2 at h2
    generalize buffer 3 = b3 at h3
    generalize buffer 4 = b4 at h4
    generalize buffer 7 = b7 at h7
    generalize buffer 8 = b8 at h8
    interval_cases b1 <;> interval_cases b2 <;> interval_cases b7 <;>
      interval_cases b3 <;> interval_cases b4 <;> interval_cases b8 <;>
      simp [cBool]
  refine ⟨key, ?_, ?_, ?_⟩
  · intro h
    have ha := key.mpr h
    simp [receiveDataStep, ha, mirror]
  · intro h
    have ha : frameAccepted buffer input = false := by
      cases hf : frameAccepted buffer input
      · rfl
      · exact absurd (key.mp hf) h
    simp [receiveDataStep, ha]
  · cases hf : frameAccepted buffer input <;> simp [receiveDataStep, hf]

/-- C35 at a concrete input: the buffer `bitBuffer` of bits with final byte
STOP is accepted, and the step writes its bytes into the mirror. -/
theorem acceptance_on_bits_witness :
    frameAccepted bitBuffer stopByte = true ∧
    mirror (receiveDataStep ({}, { pos := 15, buffer := bitBuffer }) stopByte).1
      = [1, 0, 0, 0, 0, 3, 0, 0, 0, 0, 0, 0] :=
  ⟨(acceptance_on_bits {} bitBuffer stopByte (by decide) (by decide) (by decide) (by decide)
      (by decide) (by decide)).1.mpr ⟨rfl, by decide, by decide⟩,
    (acceptance_on_bits {} bitBuffer stopByte (by decide) (by decide) (by decide) (by decide)
      (by decide) (by decide)).2.1 ⟨rfl, by decide, by decide⟩⟩

/-- C36: the successor map of `tetrisShape` (the value it gives to `next_type`)
sends every type in 0..27 to a type in 0..27, and applied four times it returns
the original type for each of the 28 types; and four rotations of a well-formed
block that `tetrisRotate` accepts, on any four maps, give back the block itself:
its type, its four cells, its centre, successor type and colour. -/
theorem rotation_cycles_close :
    (∀ b : tetrisBlock, 0 ≤ b.type → b.type ≤ 27 →
      (tetrisShape b).next_type = successorType b.type) ∧
    (∀ t : Int, 0 ≤ t → t ≤ 27 →
      0 ≤ successorType t ∧ successorType t ≤ 27 ∧
      successorType (successorType (successorType (successorType t))) = t) ∧
    (∀ (b : tetrisBlock) (m1 m2 m3 m4 : Grid), wellFormed b →
      ¬ rotationBlocked (tetrisShape { b with type := b.next_type }) m1 →
      ¬ rotationBlocked (tetrisShape { tetrisRotate b m1 with
          type := (tetrisRotate b m1).next_type }) m2 →
      ¬ rotationBlocked (tetrisShape { tetrisRotate (tetrisRotate b m1) m2 with
          type := (tetrisRotate (tetrisRotate b m1) m2).next_type }) m3 →
      ¬ rotationBlocked (tetrisShape { tetrisRotate (tetrisRotate (tetrisRotate b m1) m2) m3 with
          type := (tetrisRotate (tetrisRotate (tetrisRotate b m1) m2) m3).next_type }) m4 →
      tetrisRotate (tetrisRotate (tetrisRotate (tetrisRotate b m1) m2) m3) m4 = b) := by
  refine ⟨tetrisShape_next_type, ?_, ?_⟩
  · intro t h0 h1
    exact ⟨(successorType_range t h0 h1).1, (successorType_range t h0 h1).2,
      successorType_four t h0 h1⟩
  · intro b m1 m2 m3 m4 hwf a1 a2 a3 a4
    have e1 := tetrisRotate_accepted b m1 a1
    obtain ⟨w1, t1, c1, k1⟩ := rotated_wellFormed b hwf
    rw [← e1] at w1 t1 c1 k1
    generalize tetrisRotate b m1 = b1 at *
    have e2 := tetrisRotate_accepted b1 m2 a2
    obtain ⟨w2, t2, c2, k2⟩ := rotated_wellFormed b1 w1
    rw [← e2] at w2 t2 c2 k2
    generalize tetrisRotate b1 m2 = b2 at *
    have e3 := tetrisRotate_accepted b2 m3 a3
    obtain ⟨w3, t3, c3, k3⟩ := rotated_wellFormed b2 w2
    rw [← e3] at w3 t3 c3 k3
    generalize tetrisRotate b2 m3 = b3 at *
    have e4 := tetrisRotate_accepted b3 m4 a4
    obtain ⟨w4, t4, c4, k4⟩ := rotated_wellFormed b3 w3
    rw [← e4] at w4 t4 c4 k4
    generalize tetrisRotate b3 m4 = b4 at *
    have hb4 : tetrisShape b4 = b4 := w4.2.2
    rw [← hb4]
    refine tetrisShape_restore b b4 hwf ?_ ?_ ?_
    · rw [c4, c3, c2, c1]
    · rw [t4, t3, t2, t1]
      exact successorType_four b.type hwf.1 hwf.2.1
    · rw [k4, k3, k2, k1]

/-- C36 at a concrete input: `hookBlock` of type 4 on the empty map goes
through the types 7, 6, 5 and is back to itself after the fourth rotation. -/
theorem rotation_cycles_close_witness :
    wellFormed hookBlock ∧
    (tetrisRotate hookBlock emptyMap).type = 7 ∧
    (tetrisRotate (tetrisRotate hookBlock emptyMap) emptyMap).type = 6 ∧
    (tetrisRotate (tetrisRotate (tetrisRotate hookBlock emptyMap) emptyMap) emptyMap).type = 5 ∧
    tetrisRotate (tetrisRotate (tetrisRotate (tetrisRotate hookBlock emptyMap) emptyMap)
      emptyMap) emptyMap = hookBlock :=
  ⟨by decide, by decide, by decide, by decide,
    rotation_cycles_close.2.2 hookBlock emptyMap emptyMap emptyMap emptyMap
      (by decide) (by decide) (by decide) (by decide) (by decide)⟩
/-! ### Floor and spawn position -/

/-- C31: the well-formed block `floorBlock` has its four cells inside the
20x10 array, two of them in row 19. On the map that is 0 everywhere
`tetrisMove` with direction down returns 1 and leaves the block one row lower,
with the cells (4,20) and (5,20) outside the array; on `belowFloorMap`, which
holds the same values in the whole array and differs only at the place read as
`map[20][4]`, the same call returns 0. So the call reads a cell of row 20, and a
block in row 19 is not reported as landed by the array alone. -/
theorem floor_not_contained :
    wellFormed floorBlock ∧ cellsInside floorBlock ∧ floorBlock.position2.y = 19 ∧
    (tetrisMove floorBlock direction.down emptyMap).1 = 1 ∧
    (tetrisMove floorBlock direction.down emptyMap).2.1.position2 = { x := 4, y := 20 } ∧
    (tetrisMove floorBlock direction.down emptyMap).2.1.position3 = { x := 5, y := 20 } ∧
    ¬ cellsInside (tetrisMove floorBlock direction.down emptyMap).2.1 ∧
    sameInside emptyMap belowFloorMap ∧
    (tetrisMove floorBlock direction.down belowFloorMap).1 = 0 ∧
    (tetrisMove floorBlock direction.down belowFloorMap).2.1 = floorBlock := by
  refine ⟨by decide, by decide, by decide, by decide, by decide, by decide, by decide, ?_,
    by decide, by decide⟩
  intro r c _ h19 _ _
  have h : ¬ (r = 20 ∧ c = 4) := by omega
  simp only [emptyMap, belowFloorMap, if_neg h]

/-- C32: `tetrisInit` with a first random value of 1 gives the block of type 1
at centre (4, 0), whose cell 0 is (4, -1), above row 0 of the array;
`printTetrisOnMap` on this block writes its colour at the place `map[-1][4]`
and `clearTetrisPosition` writes 0 there. The types whose freshly spawned block
has a cell outside the array are 1, 3, 5, 6, 7, 8, 9, 11, 12, 13, 14, 17, 20, 22
and 26; for every type the x of the four cells is in 0..9. -/
theorem spawn_above_grid :
    tetrisInit midBlock 1 0 =
      { center := { x := 4, y := 0 }
        position0 := { x := 4, y := -1 }
        position1 := { x := 3, y := 0 }
        position2 := { x := 4, y := 0 }
        position3 := { x := 3, y := 1 }
        type := 1, next_type := 0, color_num := 1 } ∧
    ¬ cellsInside (tetrisInit midBlock 1 0) ∧
    emptyMap (-1) 4 = 0 ∧
    printTetrisOnMap (tetrisInit midBlock 1 0) emptyMap (-1) 4 = 1 ∧
    fivesMap (-1) 4 = 5 ∧
    clearTetrisPosition (tetrisInit midBlock 1 0) fivesMap (-1) 4 = 0 ∧
    (List.range 28).filter
        (fun (t : Nat) => !decide (cellsInside (tetrisInit midBlock t 0)))
      = [1, 3, 5, 6, 7, 8, 9, 11, 12, 13, 14, 17, 20, 22, 26] ∧
    (List.range 28).all
        (fun (t : Nat) => decide (columnsInside (tetrisInit midBlock t 0))) = true := by
  refine ⟨by decide, by decide, by decide, by decide, by decide, by decide, by decide,
    by decide⟩

/-! ### Compaction of the map against the reference -/

theorem shiftSource_toNat (e q : Int) : shiftSource (e.toNat : Int) q = shiftSource e q := by
  unfold shiftSource
  split_ifs <;> omega

theorem shiftLoop_source (e : Int) (map : Grid) (r c : Int) (hc : 0 ≤ c ∧ c < 10) :
    shiftLoop e.toNat map r c = map (shiftSource e r) c := by
  rw [shiftLoop_apply, ← shiftSource_toNat]
  unfold shiftSource
  by_cases h : 1 ≤ r ∧ r ≤ (e.toNat : Int)
  · rw [if_pos ⟨h.1, h.2, hc.1, hc.2⟩, if_pos h]
  · rw [if_neg (fun hh => h ⟨hh.1, hh.2.1⟩), if_neg h]

theorem shiftLoop_outside (e : Nat) (map : Grid) (r c : Int) (hc : ¬ (0 ≤ c ∧ c < 10)) :
    shiftLoop e map r c = map r c := by
  rw [shiftLoop_apply, if_neg (fun hh => hc ⟨hh.2.2.1, hh.2.2.2⟩)]

theorem rowSource_cons (e : Int) (rows : List Int) (r : Int) :
    rowSource (e :: rows) r = rowSource rows (shiftSource e r) := rfl

theorem rowSource_append (rows : List Int) (e r : Int) :
    rowSource (rows ++ [e]) r = shiftSource e (rowSource rows r) := by
  simp [rowSource, List.foldl_append]

theorem rowSource_of_nonpos (rows : List Int) (r : Int) (h : r ≤ 0) :
    rowSource rows r = r := by
  induction rows with
  | nil => rfl
  | cons e t ih =>
    rw [rowSource_cons]
    have : shiftSource e r = r := by
      unfold shiftSource
      rw [if_neg (by omega)]
    rw [this, ih]

/-- The loop of `letLineDisappear` as a whole: inside columns 0..9 every row
holds the row of the input map named by `rowSource` over the recorded rows
`fullLineNumber[1 .. num]`; the other columns are left as they are. -/
theorem letLineDisappearLoop_apply (fullLineNumber : Int → Int) (num : Nat) (map : Grid)
    (r c : Int) :
    letLineDisappearLoop fullLineNumber num map r c
      = if 0 ≤ c ∧ c < 10 then
          map (rowSource ((List.range num).map
            (fun (j : Nat) => fullLineNumber ((j : Int) + 1))) r) c
        else map r c := by
  induction num generalizing map with
  | zero => simp [letLineDisappearLoop, rowSource]
  | succ n ih =>
    simp only [letLineDisappearLoop]
    rw [ih]
    by_cases hc : 0 ≤ c ∧ c < 10
    · rw [if_pos hc, if_pos hc, shiftLoop_source _ _ _ _ hc, List.range_succ, List.map_append,
        List.map_singleton, rowSource_append]
    · rw [if_neg hc, if_neg hc, shiftLoop_outside _ _ _ _ hc]

theorem range_map_getD (rows : List Int) (f : Nat → Int)
    (h : ∀ j : Nat, j < rows.length → f j = rows.getD j 0) :
    (List.range rows.length).map f = rows := by
  induction rows generalizing f with
  | nil => rfl
  | cons a t ih =>
    rw [List.length_cons, List.range_succ_eq_map, List.map_cons, List.map_map]
    have h0 : f 0 = a := by
      have := h 0 (by simp)
      simpa using this
    have ht : List.map (f ∘ Nat.succ) (List.range t.length) = t := by
      apply ih
      intro j hj
      have := h (j + 1) (by simpa using hj)
      simpa using this
    rw [h0, ht]

theorem rowSource_above (map : Grid) (n : Nat) (r : Int) (h : (n : Int) ≤ r) :
    rowSource (fullRowsBelow map n) r = r := by
  induction n with
  | zero => rfl
  | succ m ih =>
    have hm : (m : Int) ≤ r := by push_cast at h; omega
    simp only [fullRowsBelow]
    split_ifs
    · rw [rowSource_cons]
      have : shiftSource (m : Int) r = r := by
        unfold shiftSource
        rw [if_neg (by push_cast at h; omega)]
      rw [this]
      exact ih hm
    · exact ih hm

theorem nonFullBelow_succ (map : Grid) (n : Nat) :
    nonFullBelow map (n + 1)
      = if rowFull map (n : Int) then nonFullBelow map n
        else nonFullBelow map n ++ [(n : Int)] := by
  unfold nonFullBelow
  rw [List.range_succ, List.filter_append, List.map_append]
  by_cases hfull : rowFull map (n : Int)
  · simp [hfull]
  · simp [hfull]

theorem rows_count (map : Grid) (n : Nat) :
    (fullRowsBelow map n).length + (nonFullBelow map n).length = n := by
  induction n with
  | zero => rfl
  | succ m ih =>
    rw [nonFullBelow_succ]
    simp only [fullRowsBelow]
    split_ifs
    · simp only [List.length_cons]
      omega
    · simp only [List.length_append, List.length_singleton]
      omega

/-- The rows above the compacted block: as many rows as there are full rows
take their content from row 0. -/
theorem rowSource_top (map : Grid) (n r : Nat) (h : r < (fullRowsBelow map n).length) :
    rowSource (fullRowsBelow map n) (r : Int) = 0 := by
  induction n generalizing r with
  | zero => simp [fullRowsBelow] at h
  | succ m ih =>
    have hcount := rows_count map m
    simp only [fullRowsBelow] at h ⊢
    split_ifs at h ⊢ with hfull
    · rw [rowSource_cons]
      simp only [List.length_cons] at h
      cases r with
      | zero =>
        have : shiftSource (m : Int) ((0 : Nat) : Int) = 0 := by
          simp [shiftSource]
        rw [this]
        exact rowSource_of_nonpos _ 0 (le_refl 0)
      | succ q =>
        have : shiftSource (m : Int) ((q + 1 : Nat) : Int) = (q : Int) := by
          unfold shiftSource
          rw [if_pos (by push_cast; omega)]
          push_cast
          omega
        rw [this]
        exact ih q (by omega)
    · exact ih r h

/-- The compacted block: below the top rows, row `r` takes its content from
the non-full row of rank `r - k`, where `k` is the number of full rows. -/
theorem rowSource_rest (map : Grid) (n r : Nat) (hk : (fullRowsBelow map n).length ≤ r)
    (hr : r < n) :
    rowSource (fullRowsBelow map n) (r : Int)
      = (nonFullBelow map n).getD (r - (fullRowsBelow map n).length) 0 := by
  induction n generalizing r with
  | zero => omega
  | succ m ih =>
    have hcount := rows_count map m
    rw [nonFullBelow_succ]
    simp only [fullRowsBelow] at hk ⊢
    split_ifs at hk ⊢ with hfull
    · rw [rowSource_cons]
      simp only [List.length_cons] at hk ⊢
      cases r with
      | zero => omega
      | succ q =>
        have : shiftSource (m : Int) ((q + 1 : Nat) : Int) = (q : Int) := by
          unfold shiftSource
          rw [if_pos (by push_cast; omega)]
          push_cast
          omega
        rw [this, ih q (by omega) (by omega)]
        have e : q + 1 - ((fullRowsBelow map m).length + 1)
            = q - (fullRowsBelow map m).length := by omega
        rw [e]
    · by_cases hrm : r = m
      · subst hrm
        rw [rowSource_above map r (r : Int) (le_refl _)]
        have e : r - (fullRowsBelow map r).length = (nonFullBelow map r).length := by omega
        rw [e, List.getD_append_right _ _ _ _ (le_refl _)]
        simp
      · rw [ih r hk (by omega), List.getD_append _ _ _ _ (by omega)]

theorem nonFullBelow_getD (map : Grid) (n j : Nat) (hj : j < (nonFullBelow map n).length) :
    0 ≤ (nonFullBelow map n).getD j 0 ∧ (nonFullBelow map n).getD j 0 < (n : Int) ∧
      ¬ rowFull map ((nonFullBelow map n).getD j 0) := by
  have hmem : (nonFullBelow map n).getD j 0 ∈ nonFullBelow map n := by
    rw [List.getD_eq_getElem _ _ hj]
    exact List.getElem_mem hj
  unfold nonFullBelow at hmem
  rw [List.mem_map] at hmem
  obtain ⟨q, hq, hqe⟩ := hmem
  rw [List.mem_filter, List.mem_range] at hq
  have hqe' : (nonFullBelow map n).getD j 0 = (q : Int) := hqe.symm
  rw [hqe']
  refine ⟨by omega, by omega, ?_⟩
  simpa using hq.2
theorem letLineDisappearLoop_row_zero (fullLineNumber : Int → Int) (num : Nat) (map : Grid)
    (c : Int) : letLineDisappearLoop fullLineNumber num map 0 c = map 0 c := by
  rw [letLineDisappearLoop_apply, rowSource_of_nonpos _ 0 (le_refl 0)]
  split_ifs <;> rfl

/-- C34: on a map whose row 0 is all zero and which has at most 4 full rows,
`checkFullLine` uses at most the slots 1..4 of `fullLineNumber`, and
`checkFullLine` followed by `letLineDisappear` on its results yields the
reference compaction: as many all-zero rows on top as there were full rows,
followed by the non-full rows of the original map in their original order
(cells outside the 20x10 array untouched). And for every array
`fullLineNumber`, every `num` and every map, `letLineDisappear` leaves every
cell of row 0 as it was. -/
theorem compaction_equals_reference (fullLineNumber : Int → Int) (map : Grid)
    (hrow0 : ∀ c : Int, 0 ≤ c → c < 10 → map 0 c = 0) (hk : fullRowCount map ≤ 4) :
    (checkFullLine fullLineNumber map).num ≤ 4 ∧
    letLineDisappear (checkFullLine fullLineNumber map).fullLineNumber
        (checkFullLine fullLineNumber map).num (checkFullLine fullLineNumber map).map
      = compactReference map ∧
    (∀ (recorded : Int → Int) (num : Int) (m : Grid) (c : Int),
      letLineDisappear recorded num m 0 c = m 0 c) := by
  obtain ⟨hnum, hfln, hmap⟩ := checkFullLine_spec fullLineNumber map
  have hlen : (fullRowsBelow map 20).length = fullRowCount map := by
    rw [fullRowsBelow_length]
    rfl
  have hcount := rows_count map 20
  refine ⟨?_, ?_, ?_⟩
  · rw [hnum, hlen]
    exact_mod_cast hk
  · have hrec : (List.range (fullRowsBelow map 20).length).map
        (fun (j : Nat) => (checkFullLine fullLineNumber map).fullLineNumber ((j : Int) + 1))
        = fullRowsBelow map 20 := by
      apply range_map_getD
      intro j hj
      rw [add_comm]
      exact hfln j hj
    funext r c
    unfold letLineDisappear
    rw [hnum, Int.toNat_ofNat, letLineDisappearLoop_apply, hrec]
    unfold compactReference
    by_cases hc : 0 ≤ c ∧ c < 10
    · rw [if_pos hc]
      by_cases hr : 0 ≤ r ∧ r < 20
      · rw [if_pos ⟨hr.1, hr.2, hc.1, hc.2⟩]
        obtain ⟨hr0, hr20⟩ := hr
        lift r to ℕ using hr0
        have hr20' : r < 20 := by omega
        by_cases hrk : r < (fullRowsBelow map 20).length
        · have hlt : (r : Int) < (fullRowCount map : Int) := by
            rw [← hlen]
            exact_mod_cast hrk
          rw [rowSource_top map 20 r hrk, hmap, if_pos hlt]
          split_ifs
          · rfl
          · exact hrow0 c hc.1 hc.2
        · obtain ⟨q0, q1, q2⟩ := nonFullBelow_getD map 20 (r - (fullRowsBelow map 20).length)
            (by omega)
          have hnl : ¬ ((r : Int) < (fullRowCount map : Int)) := by
            rw [← hlen]
            exact_mod_cast hrk
          rw [if_neg hnl, rowSource_rest map 20 r (by omega) hr20', hmap,
            if_neg (fun hh => q2 hh.2.2.1), Int.toNat_ofNat, hlen]
      · have hsrc : rowSource (fullRowsBelow map 20) r = r := by
          by_cases hneg : r ≤ 0
          · exact rowSource_of_nonpos _ r hneg
          · exact rowSource_above map 20 r (by push_cast; omega)
        rw [hsrc, hmap, if_neg (fun hh => hr ⟨hh.1, hh.2.1⟩),
          if_neg (fun hh => hr ⟨hh.1, hh.2.1⟩)]
    · rw [if_neg hc, if_neg (fun hh => hc ⟨hh.2.2.1, hh.2.2.2⟩), hmap,
        if_neg (fun hh => hc ⟨hh.2.2.2.1, hh.2.2.2.2⟩)]
  · intro recorded num m c
    unfold letLineDisappear
    exact letLineDisappearLoop_row_zero recorded num.toNat m c

/-- C34 at a concrete input: on `fourLineMap`, with row 0 empty and the four
full rows 3, 7, 8 and 19, the result is the reference compaction; there the
cell of row 18 has moved to row 19, the cells of row 5 to row 8, and rows 0..3
are empty. -/
theorem compaction_equals_reference_witness :
    fullRowCount fourLineMap = 4 ∧
    letLineDisappear (checkFullLine zeroLines fourLineMap).fullLineNumber
        (checkFullLine zeroLines fourLineMap).num (checkFullLine zeroLines fourLineMap).map
      = compactReference fourLineMap ∧
    compactReference fourLineMap 19 9 = 4 ∧
    compactReference fourLineMap 8 0 = 2 ∧ compactReference fourLineMap 8 1 = 2 ∧
    compactReference fourLineMap 8 2 = 0 ∧
    compactReference fourLineMap 3 0 = 0 ∧ compactReference fourLineMap 7 0 = 0 :=
  ⟨by decide,
    (compaction_equals_reference zeroLines fourLineMap (by decide) (by decide)).2.1,
    by decide, by decide, by decide, by decide, by decide, by decide⟩

/-! ### Debounce over runs of `buttonInput` -/

/-- One iteration of the loop of `buttonInput` is the blocks of the ten sources
in the order `sourceOrder`, then the two pause blocks and the connection
check. -/
theorem buttonInputTick_eq_runBlocks (lv : ButtonLevels) (s : ArbiterLocals × Globals) :
    buttonInputTick lv s
      = connectionCheck (leavePauseFromBuddy (pauseFromBuddy (runBlocks lv sourceOrder s))) := by
  simp only [buttonInputTick, runBlocks, sourceOrder, List.foldl_cons, List.foldl_nil,
    Source.block]

theorem sourceOrder_split (src : Source) :
    sourceOrder = sourcesBefore src ++ src :: sourcesAfter src ∧
      src ∉ sourcesBefore src ∧ src ∉ sourcesAfter src := by
  cases src <;> exact ⟨rfl, by simp [sourcesBefore, sourceOrder], by simp [sourcesAfter, sourceOrder]⟩

theorem sameReads_refl (g : Globals) : sameReads g g :=
  ⟨rfl, rfl, rfl, rfl, rfl, rfl, rfl⟩

theorem sameReads_trans (g h k : Globals) (a : sameReads g h) (b : sameReads h k) :
    sameReads g k := by
  obtain ⟨a1, a2, a3, a4, a5, a6, a7⟩ := a
  obtain ⟨b1, b2, b3, b4, b5, b6, b7⟩ := b
  exact ⟨b1.trans a1, b2.trans a2, b3.trans a3, b4.trans a4, b5.trans a5, b6.trans a6,
    b7.trans a7⟩

/-- No block of a source writes what the blocks read of the globals. -/
theorem block_sameReads (x : Source) (lv : ButtonLevels) (s : ArbiterLocals × Globals) :
    sameReads s.2 (x.block lv s).2 := by
  cases x <;>
    simp only [Source.block, localButtonA, externalButtonA, localButtonB, externalButtonB,
      localButtonC, externalButtonC, localButtonD, externalButtonD, localButtonE,
      externalButtonE] <;>
    split_ifs <;> exact ⟨rfl, rfl, rfl, rfl, rfl, rfl, rfl⟩

/-- The block of a source writes no flag but the one of its source. -/
theorem block_flag_other (x src : Source) (lv : ButtonLevels) (s : ArbiterLocals × Globals)
    (h : x ≠ src) : src.flag (x.block lv s).1 = src.flag s.1 := by
  cases x <;>
    simp only [Source.block, localButtonA, externalButtonA, localButtonB, externalButtonB,
      localButtonC, externalButtonC, localButtonD, externalButtonD, localButtonE,
      externalButtonE] <;>
    split_ifs <;> cases src <;> first | rfl | exact absurd rfl h

/-- The block of a source applies the rule `debounce` to the flag of its source
when the mode enables it, and leaves the flag otherwise. -/
theorem block_flag_own (src : Source) (lv : ButtonLevels) (s : ArbiterLocals × Globals) :
    src.flag (src.block lv s).1
      = if src.enabled s.2 then (debounce (src.level lv s.2) (src.flag s.1)).2
        else src.flag s.1 := by
  cases src <;>
    simp only [Source.block, Source.enabled, Source.level, Source.flag, debounce,
      localButtonA, externalButtonA, localButtonB, externalButtonB,
      localButtonC, externalButtonC, localButtonD, externalButtonD, localButtonE,
      externalButtonE] <;>
    split_ifs <;> rfl

theorem enabled_congr (src : Source) (g h : Globals) (a : sameReads g h) :
    src.enabled h ↔ src.enabled g := by
  obtain ⟨a1, a2, _, _, _, _, _⟩ := a
  cases src <;> simp only [Source.enabled, a1, a2]

theorem level_congr (src : Source) (lv : ButtonLevels) (g h : Globals) (a : sameReads g h) :
    src.level lv h = src.level lv g := by
  obtain ⟨_, _, a3, a4, a5, a6, a7⟩ := a
  cases src <;> simp only [Source.level, a3, a4, a5, a6, a7]

theorem runBlocks_sameReads (lv : ButtonLevels) (srcs : List Source)
    (s : ArbiterLocals × Globals) : sameReads s.2 (runBlocks lv srcs s).2 := by
  induction srcs generalizing s with
  | nil => exact sameReads_refl s.2
  | cons x rest ih =>
    exact sameReads_trans _ _ _ (block_sameReads x lv s) (ih (x.block lv s))

theorem runBlocks_flag (lv : ButtonLevels) (srcs : List Source) (src : Source)
    (s : ArbiterLocals × Globals) (h : src ∉ srcs) :
    src.flag (runBlocks lv srcs s).1 = src.flag s.1 := by
  induction srcs generalizing s with
  | nil => rfl
  | cons x rest ih =>
    have hx : x ≠ src := fun e => h (by simp [e])
    have hr : src ∉ rest := fun e => h (by simp [e])
    show src.flag (runBlocks lv rest (x.block lv s)).1 = src.flag s.1
    rw [ih (x.block lv s) hr, block_flag_other x src lv s hx]

theorem runBlocks_append (lv : ButtonLevels) (xs ys : List Source)
    (s : ArbiterLocals × Globals) :
    runBlocks lv (xs ++ ys) s = runBlocks lv ys (runBlocks lv xs s) := by
  simp [runBlocks, List.foldl_append]

theorem tail_flag (src : Source) (s : ArbiterLocals × Globals) :
    src.flag (connectionCheck (leavePauseFromBuddy (pauseFromBuddy s))).1 = src.flag s.1 := by
  have h1 : (pauseFromBuddy s).1 = s.1 := by
    unfold pauseFromBuddy
    simp only []
    split_ifs <;> rfl
  have h2 : (leavePauseFromBuddy (pauseFromBuddy s)).1 = (pauseFromBuddy s).1 := by
    unfold leavePauseFromBuddy
    simp only []
    split_ifs <;> rfl
  have h3 : ∀ t : ArbiterLocals × Globals, src.flag (connectionCheck t).1 = src.flag t.1 := by
    intro t
    unfold connectionCheck
    simp only []
    split_ifs <;> cases src <;> rfl
  rw [h3, h2, h1]
/-- The firing branch of a block: it assigns the event of the source to
`publicButton`, gives the semaphore and clears the flag of the source. -/
theorem block_publishes (src : Source) (lv : ButtonLevels) (s : ArbiterLocals × Globals)
    (h : src.publishes lv s) :
    (src.block lv s).2.publicButton = src.event ∧ (src.block lv s).2.inputReceived = true ∧
      src.flag (src.block lv s).1 = 0 := by
  obtain ⟨he, h0, h1⟩ := h
  cases src <;>
    simp only [Source.enabled, Source.level, Source.flag] at he h0 h1 <;>
    simp only [Source.block, Source.event, Source.flag, localButtonA, externalButtonA,
      localButtonB, externalButtonB, localButtonC, externalButtonC, localButtonD,
      externalButtonD, localButtonE, externalButtonE] <;>
    rw [if_pos he, if_pos ⟨h0, h1⟩] <;> exact ⟨rfl, rfl, rfl⟩

/-- Outside its firing branch a block leaves the globals as they are. -/
theorem block_silent (src : Source) (lv : ButtonLevels) (s : ArbiterLocals × Globals)
    (h : ¬ src.publishes lv s) : (src.block lv s).2 = s.2 := by
  unfold Source.publishes at h
  cases src <;>
    simp only [Source.enabled, Source.level, Source.flag] at h <;>
    simp only [Source.block, localButtonA, externalButtonA,
      localButtonB, externalButtonB, localButtonC, externalButtonC, localButtonD,
      externalButtonD, localButtonE, externalButtonE] <;>
    split_ifs with a b c <;> first | rfl | exact absurd ⟨a, b⟩ h

/-- In the state in which its block starts, a source sees the mode, the level
and the flag it would see at the start of the tick. -/
theorem stateBefore_publishes (src : Source) (lv : ButtonLevels)
    (s : ArbiterLocals × Globals) :
    src.publishes lv (stateBefore src lv s) ↔ src.publishes lv s := by
  have hr := runBlocks_sameReads lv (sourcesBefore src) s
  unfold Source.publishes stateBefore
  rw [enabled_congr src _ _ hr, level_congr src lv _ _ hr,
    runBlocks_flag lv _ src s (sourceOrder_split src).2.1]

/-- The flag of a source after a whole iteration of the loop is the one its own
block has left. -/
theorem buttonInputTick_flag (src : Source) (lv : ButtonLevels)
    (s : ArbiterLocals × Globals) :
    src.flag (buttonInputTick lv s).1
      = if src.publishes lv s then 0
        else if src.enabled s.2 ∧ src.level lv s.2 = 1 then 1
        else src.flag s.1 := by
  obtain ⟨hsplit, hb, ha⟩ := sourceOrder_split src
  have hr := runBlocks_sameReads lv (sourcesBefore src) s
  have hf := runBlocks_flag lv _ src s hb
  rw [buttonInputTick_eq_runBlocks, tail_flag, hsplit, runBlocks_append]
  show src.flag (runBlocks lv (sourcesAfter src)
    (src.block lv (runBlocks lv (sourcesBefore src) s))).1 = _
  rw [runBlocks_flag _ _ _ _ ha, block_flag_own, level_congr src lv _ _ hr, hf]
  simp only [enabled_congr src _ _ hr]
  unfold Source.publishes debounce
  split_ifs <;> first | rfl | simp_all

theorem readsLevel_succ (src : Source) (t : ButtonLevels × Globals)
    (rest : List (ButtonLevels × Globals)) (k : Nat) (v : Int) :
    readsLevel src (t :: rest) (k + 1) v ↔ readsLevel src rest k v := by
  simp [readsLevel]

theorem runPublishes_zero (src : Source) (l : ArbiterLocals) (t : ButtonLevels × Globals)
    (rest : List (ButtonLevels × Globals))
    (h : (runPublishes src l (t :: rest))[0]? = some true) : src.publishes t.1 (l, t.2) := by
  simp only [runPublishes, List.getElem?_cons_zero, Option.some.injEq, decide_eq_true_eq] at h
  exact (stateBefore_publishes src t.1 (l, t.2)).mp h

theorem runPublishes_succ (src : Source) (l : ArbiterLocals) (t : ButtonLevels × Globals)
    (rest : List (ButtonLevels × Globals)) (j : Nat) :
    (runPublishes src l (t :: rest))[j + 1]?
      = (runPublishes src (buttonInputTick t.1 (l, t.2)).1 rest)[j]? := by
  simp only [runPublishes, List.getElem?_cons_succ]

/-- A firing of a source in a run reads the level 0 on an enabled tick. -/
theorem runPublishes_reads_zero (src : Source) (l : ArbiterLocals)
    (ticks : List (ButtonLevels × Globals)) (j : Nat)
    (h : (runPublishes src l ticks)[j]? = some true) : readsLevel src ticks j 0 := by
  induction ticks generalizing l j with
  | nil => simp [runPublishes] at h
  | cons t rest ih =>
    cases j with
    | zero =>
      have hp := runPublishes_zero src l t rest h
      exact ⟨t, by simp, hp.1, hp.2.1⟩
    | succ q =>
      rw [runPublishes_succ] at h
      exact (readsLevel_succ src t rest q 0).mpr (ih _ q h)

/-- A source whose flag is not 1 fires only after an enabled tick on which it
has read the level 1. -/
theorem runPublishes_needs_release (src : Source) (l : ArbiterLocals)
    (ticks : List (ButtonLevels × Globals)) (j : Nat) (hp : src.flag l ≠ 1)
    (h : (runPublishes src l ticks)[j]? = some true) :
    ∃ k, k < j ∧ readsLevel src ticks k 1 := by
  induction ticks generalizing l j with
  | nil => simp [runPublishes] at h
  | cons t rest ih =>
    cases j with
    | zero => exact absurd (runPublishes_zero src l t rest h).2.2 hp
    | succ q =>
      rw [runPublishes_succ] at h
      by_cases he : src.enabled t.2 ∧ src.level t.1 t.2 = 1
      · exact ⟨0, by omega, t, by simp, he.1, he.2⟩
      · have hflag : src.flag (buttonInputTick t.1 (l, t.2)).1 = src.flag l := by
          rw [buttonInputTick_flag, if_neg (fun hh => hp hh.2.2), if_neg he]
        obtain ⟨k, hk, hlev⟩ := ih _ q (by rw [hflag]; exact hp) h
        exact ⟨k + 1, by omega, (readsLevel_succ src t rest k 1).mpr hlev⟩

/-- Between two firings of a source in a run there is an enabled tick on which
it has read the level 1. -/
theorem runPublishes_release_between (src : Source) (l : ArbiterLocals)
    (ticks : List (ButtonLevels × Globals)) (i j : Nat) (hij : i < j)
    (hi : (runPublishes src l ticks)[i]? = some true)
    (hj : (runPublishes src l ticks)[j]? = some true) :
    ∃ k, i < k ∧ k < j ∧ readsLevel src ticks k 1 := by
  induction ticks generalizing l i j with
  | nil => simp [runPublishes] at hi
  | cons t rest ih =>
    cases j with
    | zero => omega
    | succ q =>
      rw [runPublishes_succ] at hj
      cases i with
      | zero =>
        have hp := runPublishes_zero src l t rest hi
        have hflag : src.flag (buttonInputTick t.1 (l, t.2)).1 = 0 := by
          rw [buttonInputTick_flag, if_pos hp]
        obtain ⟨k, hk, hlev⟩ :=
          runPublishes_needs_release src _ rest q (by rw [hflag]; decide) hj
        exact ⟨k + 1, by omega, by omega, (readsLevel_succ src t rest k 1).mpr hlev⟩
      | succ p =>
        rw [runPublishes_succ] at hi
        obtain ⟨k, hk1, hk2, hlev⟩ := ih _ p q (by omega) hi hj
        exact ⟨k + 1, by omega, by omega, (readsLevel_succ src t rest k 1).mpr hlev⟩
/-- Over ticks that all enable the source, its firings in the run are the ones
the rule `debounce` gives on the levels read, from the flag of the source. -/
theorem runPublishes_eq_debounceFires (src : Source) (l : ArbiterLocals)
    (ticks : List (ButtonLevels × Globals)) (hen : ∀ t ∈ ticks, src.enabled t.2) :
    runPublishes src l ticks
      = debounceFires (src.flag l) (ticks.map (fun t => src.level t.1 t.2)) := by
  induction ticks generalizing l with
  | nil => rfl
  | cons t rest ih =>
    have het : src.enabled t.2 := hen t (by simp)
    have hrest : ∀ u ∈ rest, src.enabled u.2 := fun u hu => hen u (by simp [hu])
    have hflag : src.flag (buttonInputTick t.1 (l, t.2)).1
        = (debounce (src.level t.1 t.2) (src.flag l)).2 := by
      rw [buttonInputTick_flag]
      unfold Source.publishes debounce
      split_ifs <;> first | rfl | simp_all
    have hfire : decide (src.publishes t.1 (stateBefore src t.1 (l, t.2)))
        = (debounce (src.level t.1 t.2) (src.flag l)).1 := by
      rw [Bool.eq_iff_iff, decide_eq_true_eq, stateBefore_publishes, debounce_fires_iff]
      unfold Source.publishes
      exact ⟨fun h => h.2, fun h => ⟨het, h⟩⟩
    simp only [runPublishes, List.map_cons, debounceFires]
    rw [hfire, ih _ hrest, hflag]

/-- C29: for each of the ten sources (the local GPIO level and the peer mirror
level of the buttons A..E) and every run of the loop of `buttonInput`, from any
locals, with any levels on the pins and any globals left by the other tasks at
the start of each tick. The firing branch of the block of the source publishes
the event of its button, gives the semaphore and clears the flag of the source,
and outside that branch the block leaves the globals untouched. The branch is
taken on a tick exactly when the mode enables the source, the source reads 0
and its flag is 1 at the start of the tick. After the whole tick the flag is 0
if the source fired, 1 if it was enabled and read 1, and unchanged otherwise,
so the flag a block reads is the one its previous execution left. Hence over
the run: a firing reads 0 on an enabled tick; a firing needs the flag at 1 at
the start of the run or an earlier enabled tick that read 1; between two
firings there is an enabled tick that read 1; a source that reads 0 on every
tick from i to j does not fire on both; and when every tick enables the source
its firings are those of the rule `debounce` on the levels read. -/
theorem debounce_rule (src : Source) (l : ArbiterLocals)
    (ticks : List (ButtonLevels × Globals)) (i j : Nat) (hij : i < j) :
    (∀ (lv : ButtonLevels) (s : ArbiterLocals × Globals),
      (src.publishes lv s →
        (src.block lv s).2.publicButton = src.event ∧
          (src.block lv s).2.inputReceived = true ∧ src.flag (src.block lv s).1 = 0) ∧
      (¬ src.publishes lv s → (src.block lv s).2 = s.2)) ∧
    (∀ (lv : ButtonLevels) (s : ArbiterLocals × Globals),
      (src.publishes lv (stateBefore src lv s) ↔
        src.enabled s.2 ∧ src.level lv s.2 = 0 ∧ src.flag s.1 = 1) ∧
      src.flag (buttonInputTick lv s).1
        = if src.enabled s.2 ∧ src.level lv s.2 = 0 ∧ src.flag s.1 = 1 then 0
          else if src.enabled s.2 ∧ src.level lv s.2 = 1 then 1
          else src.flag s.1) ∧
    ((runPublishes src l ticks)[j]? = some true → readsLevel src ticks j 0) ∧
    ((runPublishes src l ticks)[j]? = some true →
      src.flag l = 1 ∨ ∃ k, k < j ∧ readsLevel src ticks k 1) ∧
    ((runPublishes src l ticks)[i]? = some true →
      (runPublishes src l ticks)[j]? = some true →
      ∃ k, i < k ∧ k < j ∧ readsLevel src ticks k 1) ∧
    ((∀ k, i ≤ k → k ≤ j → readsLevel src ticks k 0) →
      ¬ ((runPublishes src l ticks)[i]? = some true ∧
        (runPublishes src l ticks)[j]? = some true)) ∧
    ((∀ t ∈ ticks, src.enabled t.2) →
      runPublishes src l ticks
        = debounceFires (src.flag l) (ticks.map (fun t => src.level t.1 t.2))) := by
  refine ⟨fun lv s => ⟨block_publishes src lv s, block_silent src lv s⟩,
    fun lv s => ⟨stateBefore_publishes src lv s, buttonInputTick_flag src lv s⟩,
    runPublishes_reads_zero src l ticks j, ?_,
    runPublishes_release_between src l ticks i j hij, ?_,
    runPublishes_eq_debounceFires src l ticks⟩
  · intro hj
    by_cases hp : src.flag l = 1
    · exact Or.inl hp
    · exact Or.inr (runPublishes_needs_release src l ticks j hp hj)
  · intro hzero hboth
    obtain ⟨k, hk1, hk2, t, ht, _, hlev⟩ :=
      runPublishes_release_between src l ticks i j hij hboth.1 hboth.2
    obtain ⟨u, hu, _, hlev0⟩ := hzero k (by omega) (by omega)
    rw [ht] at hu
    cases hu
    rw [hlev] at hlev0
    exact absurd hlev0 (by decide)

/-- C29 on a concrete run: on the menu, from the initial locals of the task,
the pin of button A reads 0, 0, 0, 1, 0, 0 over six ticks; the local source of
A fires on the first tick and on the fifth and on no other, and between the two
firings there is a tick on which it read 1. Over the same ticks the peer's
level of A is held at 0, and the relayed source of A fires on the first tick
only. -/
theorem debounce_rule_witness :
    runPublishes Source.localA {} heldTicks = [true, false, false, false, true, false] ∧
    runPublishes Source.externalA {} heldTicks = [true, false, false, false, false, false] ∧
    (∃ k, 0 < k ∧ k < 4 ∧ readsLevel Source.localA heldTicks k 1) :=
  ⟨by decide, by decide,
    (debounce_rule Source.localA {} heldTicks 0 4 (by decide)).2.2.2.2.1
      (by decide) (by decide)⟩

end Tetris
